import Mathlib

/-!
# Black hole ray marcher: shallow embedding and verified properties

The repository renders a stylised black hole with a GLSL fragment shader
(`getFragmentShaderSource` in `Windows/BlackHoleSimulation.cpp`, the same text
again in `cpp/src/ShadersEmbedded.hpp`) driven by a small C++ host
(`BlackHoleSimulation`, `SimulationParams`, `Camera` on Windows; the globals of
`cpp/src/main.cpp` with `Math.hpp` on Linux).

Modelling conventions.

* A `float` is an element of an arbitrary linearly ordered field `α` with a floor
  function (`ℚ` when a definition is evaluated): arithmetic is exact, there is no
  rounding, overflow or NaN.  Division by zero follows the field convention
  `x / 0 = 0`.
* The transcendental built-ins of GLSL and `<cmath>` (`sin`, `cos`, `asin`,
  two-argument `atan`, `pow`, `log`, `sqrt`) are not code of the repository; they
  are the fields of a `Builtins α` record that every function using them takes as
  its first argument.  `refBuiltins` is a rational reference implementation, used
  only to evaluate the code at concrete inputs.
* Shader uniforms are the fields of a `Uniforms α` record passed explicitly.
* `int` uniforms and counters are `Int`; C++ `bool` is `Bool`.
* Console output (`std::cout`) and OpenGL object handles are not modelled.
-/

namespace BlackHole

/-! ## Vectors -/

/-- Two-component float vector (`vec2`). -/
structure Vec2 (α : Type) where
  x : α
  y : α
  deriving DecidableEq, Repr

/-- Three-component float vector (`vec3`, and the C++ `Vec3`). -/
structure Vec3 (α : Type) where
  x : α
  y : α
  z : α
  deriving DecidableEq, Repr

/-- Four-component float vector (`vec4`). -/
structure Vec4 (α : Type) where
  x : α
  y : α
  z : α
  w : α
  deriving DecidableEq, Repr

/-- Column-major 4x4 matrix: `m0 .. m15` are `m[0] .. m[15]` of the C++ `Mat4`. -/
structure Mat4 (α : Type) where
  m0 : α
  m1 : α
  m2 : α
  m3 : α
  m4 : α
  m5 : α
  m6 : α
  m7 : α
  m8 : α
  m9 : α
  m10 : α
  m11 : α
  m12 : α
  m13 : α
  m14 : α
  m15 : α
  deriving DecidableEq, Repr

/-- The transcendental library functions the code calls, taken as parameters. -/
structure Builtins (α : Type) where
  sin : α → α
  cos : α → α
  asin : α → α
  /-- Two-argument arctangent, `atan(y, x)`. -/
  atan : α → α → α
  pow : α → α → α
  log : α → α
  sqrt : α → α

section Generic

variable {α : Type} [LinearOrderedField α]

instance : Add (Vec2 α) := ⟨fun a b => ⟨a.x + b.x, a.y + b.y⟩⟩
instance : Sub (Vec2 α) := ⟨fun a b => ⟨a.x - b.x, a.y - b.y⟩⟩
instance : Mul (Vec2 α) := ⟨fun a b => ⟨a.x * b.x, a.y * b.y⟩⟩
instance : Add (Vec3 α) := ⟨fun a b => ⟨a.x + b.x, a.y + b.y, a.z + b.z⟩⟩
instance : Sub (Vec3 α) := ⟨fun a b => ⟨a.x - b.x, a.y - b.y, a.z - b.z⟩⟩
instance : Mul (Vec3 α) := ⟨fun a b => ⟨a.x * b.x, a.y * b.y, a.z * b.z⟩⟩
instance : Div (Vec3 α) := ⟨fun a b => ⟨a.x / b.x, a.y / b.y, a.z / b.z⟩⟩
instance : Neg (Vec3 α) := ⟨fun a => ⟨-a.x, -a.y, -a.z⟩⟩

/-- Vector times scalar, `v * s`. -/
def Vec2.scale (v : Vec2 α) (s : α) : Vec2 α := ⟨v.x * s, v.y * s⟩

/-- Vector times scalar, `v * s`. -/
def Vec3.scale (v : Vec3 α) (s : α) : Vec3 α := ⟨v.x * s, v.y * s, v.z * s⟩

/-- Vector divided by scalar, `v / s`. -/
def Vec3.divS (v : Vec3 α) (s : α) : Vec3 α := ⟨v.x / s, v.y / s, v.z / s⟩

/-- The GLSL constructor `vec2(s)`. -/
def Vec2.splat (s : α) : Vec2 α := ⟨s, s⟩

/-- The GLSL constructor `vec3(s)`. -/
def Vec3.splat (s : α) : Vec3 α := ⟨s, s, s⟩

/-- The GLSL constructor `vec4(s)`. -/
def Vec4.splat (s : α) : Vec4 α := ⟨s, s, s, s⟩

/-- The swizzle `.rgb` / `.xyz`. -/
def Vec4.rgb (v : Vec4 α) : Vec3 α := ⟨v.x, v.y, v.z⟩

/-- The GLSL constructor `vec4(v, w)`. -/
def Vec4.ofVec3 (v : Vec3 α) (w : α) : Vec4 α := ⟨v.x, v.y, v.z, w⟩

/-! ## GLSL built-ins that are exact in an ordered field

`floor` and `fract` need a floor function and are defined with the shader. -/

/-- GLSL `clamp(x, lo, hi) = min(max(x, lo), hi)`. -/
def clamp (x lo hi : α) : α := min (max x lo) hi

/-- GLSL `mix(a, b, t) = a * (1 - t) + b * t`. -/
def mix (a b t : α) : α := a * (1 - t) + b * t

/-- GLSL `step(edge, x)`. -/
def step (edge x : α) : α := if x < edge then 0 else 1

/-- GLSL `smoothstep(e0, e1, x)`. -/
def smoothstep (e0 e1 x : α) : α :=
  let t := clamp ((x - e0) / (e1 - e0)) 0 1
  t * t * (3 - 2 * t)

/-- Componentwise `mix` of two `vec3` with a scalar weight. -/
def Vec3.mix (a b : Vec3 α) (t : α) : Vec3 α :=
  ⟨BlackHole.mix a.x b.x t, BlackHole.mix a.y b.y t, BlackHole.mix a.z b.z t⟩

/-- Componentwise `pow(v, vec3(e))`. -/
def Vec3.pow (B : Builtins α) (v : Vec3 α) (e : α) : Vec3 α :=
  ⟨B.pow v.x e, B.pow v.y e, B.pow v.z e⟩

/-- Dot product of `vec2`. -/
def Vec2.dot (a b : Vec2 α) : α := a.x * b.x + a.y * b.y

/-- Dot product of `vec3`. -/
def Vec3.dot (a b : Vec3 α) : α := a.x * b.x + a.y * b.y + a.z * b.z

/-- GLSL `length` of a `vec2`. -/
def Vec2.length (B : Builtins α) (v : Vec2 α) : α := B.sqrt (v.x * v.x + v.y * v.y)

/-- GLSL `length` of a `vec3`; also `Vec3::length` of the host code. -/
def Vec3.length (B : Builtins α) (v : Vec3 α) : α := B.sqrt (v.x * v.x + v.y * v.y + v.z * v.z)

/-- GLSL `normalize(v) = v / length(v)`.  Where `length(v)` is 0 the quotient is 0/0 and
GLSL leaves the result undefined (NaN on hardware); the field convention `x / 0 = 0`
gives the zero vector there, a value the shader does not promise.  Statements about
the shader's output therefore say where a `normalize` receives a vector of length 0. -/
def Vec3.normalizeGL (B : Builtins α) (v : Vec3 α) : Vec3 α := v.divS (v.length B)

/-- GLSL `mat4 * vec4` for a column-major matrix. -/
def Mat4.mulVec (m : Mat4 α) (v : Vec4 α) : Vec4 α :=
  ⟨m.m0 * v.x + m.m4 * v.y + m.m8 * v.z + m.m12 * v.w,
   m.m1 * v.x + m.m5 * v.y + m.m9 * v.z + m.m13 * v.w,
   m.m2 * v.x + m.m6 * v.y + m.m10 * v.z + m.m14 * v.w,
   m.m3 * v.x + m.m7 * v.y + m.m11 * v.z + m.m15 * v.w⟩

/-! ## Host-side vector and matrix code (`Windows/BlackHoleSimulation.cpp`, `cpp/src/Math.hpp`) -/

/-- `Vec3::cross` (identical in both host versions). -/
def Vec3.cross (a b : Vec3 α) : Vec3 α :=
  ⟨a.y * b.z - a.z * b.y, a.z * b.x - a.x * b.z, a.x * b.y - a.y * b.x⟩

/-- `Vec3::normalize` of the Windows host: the zero vector below length `1e-6`. -/
def Vec3.normalizeWin (B : Builtins α) (v : Vec3 α) : Vec3 α :=
  let len := v.length B
  if len > 1e-6 then v.divS len else ⟨0, 0, 0⟩

/-- `Vec3::normalize` of `Math.hpp`: the zero vector unless the length is positive. -/
def Vec3.normalizeLinux (B : Builtins α) (v : Vec3 α) : Vec3 α :=
  let len := v.length B
  if len > 0 then v.scale (1 / len) else ⟨0, 0, 0⟩

/-- `Mat4::identity`. -/
def Mat4.identity : Mat4 α :=
  ⟨1, 0, 0, 0, 0, 1, 0, 0, 0, 0, 1, 0, 0, 0, 0, 1⟩

/-- `Mat4::lookAt` of the Windows host. -/
def Mat4.lookAtWin (B : Builtins α) (eye center up : Vec3 α) : Mat4 α :=
  let f := (center - eye).normalizeWin B
  let s := (f.cross up).normalizeWin B
  let u := s.cross f
  { m0 := s.x, m4 := s.y, m8 := s.z,
    m1 := u.x, m5 := u.y, m9 := u.z,
    m2 := -f.x, m6 := -f.y, m10 := -f.z,
    m12 := -(s.dot eye), m13 := -(u.dot eye), m14 := f.dot eye,
    m3 := 0, m7 := 0, m11 := 0, m15 := 1 }

/-- `Mat4::lookAt` of `Math.hpp`. -/
def Mat4.lookAtLinux (B : Builtins α) (eye center up : Vec3 α) : Mat4 α :=
  let f := (center - eye).normalizeLinux B
  let s := (f.cross up).normalizeLinux B
  let u := s.cross f
  { m0 := s.x, m4 := s.y, m8 := s.z, m12 := -(s.dot eye),
    m1 := u.x, m5 := u.y, m9 := u.z, m13 := -(u.dot eye),
    m2 := -f.x, m6 := -f.y, m10 := -f.z, m14 := f.dot eye,
    m3 := 0, m7 := 0, m11 := 0, m15 := 1 }

/-- The expression assigned to `inv[0]` before any scaling by the determinant. -/
def Mat4.cof0 (m : Mat4 α) : α :=
  m.m5 * m.m10 * m.m15 - m.m5 * m.m11 * m.m14 - m.m9 * m.m6 * m.m15
    + m.m9 * m.m7 * m.m14 + m.m13 * m.m6 * m.m11 - m.m13 * m.m7 * m.m10

/-- The expression assigned to `inv[1]` before any scaling by the determinant. -/
def Mat4.cof1 (m : Mat4 α) : α :=
  -m.m1 * m.m10 * m.m15 + m.m1 * m.m11 * m.m14 + m.m9 * m.m2 * m.m15
    - m.m9 * m.m3 * m.m14 - m.m13 * m.m2 * m.m11 + m.m13 * m.m3 * m.m10

/-- The expression assigned to `inv[2]` before any scaling by the determinant. -/
def Mat4.cof2 (m : Mat4 α) : α :=
  m.m1 * m.m6 * m.m15 - m.m1 * m.m7 * m.m14 - m.m5 * m.m2 * m.m15
    + m.m5 * m.m3 * m.m14 + m.m13 * m.m2 * m.m7 - m.m13 * m.m3 * m.m6

/-- The expression assigned to `inv[3]` before any scaling by the determinant. -/
def Mat4.cof3 (m : Mat4 α) : α :=
  -m.m1 * m.m6 * m.m11 + m.m1 * m.m7 * m.m10 + m.m5 * m.m2 * m.m11
    - m.m5 * m.m3 * m.m10 - m.m9 * m.m2 * m.m7 + m.m9 * m.m3 * m.m6

/-- The expression assigned to `inv[4]` before any scaling by the determinant. -/
def Mat4.cof4 (m : Mat4 α) : α :=
  -m.m4 * m.m10 * m.m15 + m.m4 * m.m11 * m.m14 + m.m8 * m.m6 * m.m15
    - m.m8 * m.m7 * m.m14 - m.m12 * m.m6 * m.m11 + m.m12 * m.m7 * m.m10

/-- The expression assigned to `inv[5]` before any scaling by the determinant. -/
def Mat4.cof5 (m : Mat4 α) : α :=
  m.m0 * m.m10 * m.m15 - m.m0 * m.m11 * m.m14 - m.m8 * m.m2 * m.m15
    + m.m8 * m.m3 * m.m14 + m.m12 * m.m2 * m.m11 - m.m12 * m.m3 * m.m10

/-- The expression assigned to `inv[6]` before any scaling by the determinant. -/
def Mat4.cof6 (m : Mat4 α) : α :=
  -m.m0 * m.m6 * m.m15 + m.m0 * m.m7 * m.m14 + m.m4 * m.m2 * m.m15
    - m.m4 * m.m3 * m.m14 - m.m12 * m.m2 * m.m7 + m.m12 * m.m3 * m.m6

/-- The expression assigned to `inv[7]` before any scaling by the determinant. -/
def Mat4.cof7 (m : Mat4 α) : α :=
  m.m0 * m.m6 * m.m11 - m.m0 * m.m7 * m.m10 - m.m4 * m.m2 * m.m11
    + m.m4 * m.m3 * m.m10 + m.m8 * m.m2 * m.m7 - m.m8 * m.m3 * m.m6

/-- The expression assigned to `inv[8]` before any scaling by the determinant. -/
def Mat4.cof8 (m : Mat4 α) : α :=
  m.m4 * m.m9 * m.m15 - m.m4 * m.m11 * m.m13 - m.m8 * m.m5 * m.m15
    + m.m8 * m.m7 * m.m13 + m.m12 * m.m5 * m.m11 - m.m12 * m.m7 * m.m9

/-- The expression assigned to `inv[9]` before any scaling by the determinant. -/
def Mat4.cof9 (m : Mat4 α) : α :=
  -m.m0 * m.m9 * m.m15 + m.m0 * m.m11 * m.m13 + m.m8 * m.m1 * m.m15
    - m.m8 * m.m3 * m.m13 - m.m12 * m.m1 * m.m11 + m.m12 * m.m3 * m.m9

/-- The expression assigned to `inv[10]` before any scaling by the determinant. -/
def Mat4.cof10 (m : Mat4 α) : α :=
  m.m0 * m.m5 * m.m15 - m.m0 * m.m7 * m.m13 - m.m4 * m.m1 * m.m15
    + m.m4 * m.m3 * m.m13 + m.m12 * m.m1 * m.m7 - m.m12 * m.m3 * m.m5

/-- The expression assigned to `inv[11]` before any scaling by the determinant. -/
def Mat4.cof11 (m : Mat4 α) : α :=
  -m.m0 * m.m5 * m.m11 + m.m0 * m.m7 * m.m9 + m.m4 * m.m1 * m.m11
    - m.m4 * m.m3 * m.m9 - m.m8 * m.m1 * m.m7 + m.m8 * m.m3 * m.m5

/-- The expression assigned to `inv[12]` before any scaling by the determinant. -/
def Mat4.cof12 (m : Mat4 α) : α :=
  -m.m4 * m.m9 * m.m14 + m.m4 * m.m10 * m.m13 + m.m8 * m.m5 * m.m14
    - m.m8 * m.m6 * m.m13 - m.m12 * m.m5 * m.m10 + m.m12 * m.m6 * m.m9

/-- The expression assigned to `inv[13]` before any scaling by the determinant. -/
def Mat4.cof13 (m : Mat4 α) : α :=
  m.m0 * m.m9 * m.m14 - m.m0 * m.m10 * m.m13 - m.m8 * m.m1 * m.m14
    + m.m8 * m.m2 * m.m13 + m.m12 * m.m1 * m.m10 - m.m12 * m.m2 * m.m9

/-- The expression assigned to `inv[14]` before any scaling by the determinant. -/
def Mat4.cof14 (m : Mat4 α) : α :=
  -m.m0 * m.m5 * m.m14 + m.m0 * m.m6 * m.m13 + m.m4 * m.m1 * m.m14
    - m.m4 * m.m2 * m.m13 - m.m12 * m.m1 * m.m6 + m.m12 * m.m2 * m.m5

/-- The expression assigned to `inv[15]` before any scaling by the determinant. -/
def Mat4.cof15 (m : Mat4 α) : α :=
  m.m0 * m.m5 * m.m10 - m.m0 * m.m6 * m.m9 - m.m4 * m.m1 * m.m10
    + m.m4 * m.m2 * m.m9 + m.m8 * m.m1 * m.m6 - m.m8 * m.m2 * m.m5

/-- The value both `inverse` functions call `det` before inverting it. -/
def Mat4.det (m : Mat4 α) : α :=
  m.m0 * m.cof0 + m.m1 * m.cof4 + m.m2 * m.cof8 + m.m3 * m.cof12

/-- `Mat4::inverse` of the Windows host.  Entries 0, 4, 8 and 12 are assigned
unscaled; the other twelve are assigned already multiplied by `det = 1 / det`; the
closing loop multiplies all sixteen by `det` again. -/
def Mat4.inverseWin (m : Mat4 α) : Mat4 α :=
  if |m.det| < 1e-6 then Mat4.identity
  else
    let det := 1 / m.det
    { m0 := m.cof0 * det, m4 := m.cof4 * det, m8 := m.cof8 * det, m12 := m.cof12 * det,
      m1 := m.cof1 * det * det, m5 := m.cof5 * det * det,
      m9 := m.cof9 * det * det, m13 := m.cof13 * det * det,
      m2 := m.cof2 * det * det, m6 := m.cof6 * det * det,
      m10 := m.cof10 * det * det, m14 := m.cof14 * det * det,
      m3 := m.cof3 * det * det, m7 := m.cof7 * det * det,
      m11 := m.cof11 * det * det, m15 := m.cof15 * det * det }

/-- `Mat4::inverse` of `Math.hpp`: the matrix itself when `det == 0`. -/
def Mat4.inverseLinux (m : Mat4 α) : Mat4 α :=
  if m.det = 0 then m
  else
    let det := 1 / m.det
    { m0 := m.cof0 * det, m4 := m.cof4 * det, m8 := m.cof8 * det, m12 := m.cof12 * det,
      m1 := m.cof1 * det, m5 := m.cof5 * det, m9 := m.cof9 * det, m13 := m.cof13 * det,
      m2 := m.cof2 * det, m6 := m.cof6 * det, m10 := m.cof10 * det, m14 := m.cof14 * det,
      m3 := m.cof3 * det, m7 := m.cof7 * det, m11 := m.cof11 * det, m15 := m.cof15 * det }

/-- Entry `m[i]` of a matrix (`0` past the end, which the code never reads). -/
def Mat4.get (m : Mat4 α) (i : Nat) : α :=
  match i with
  | 0 => m.m0 | 1 => m.m1 | 2 => m.m2 | 3 => m.m3
  | 4 => m.m4 | 5 => m.m5 | 6 => m.m6 | 7 => m.m7
  | 8 => m.m8 | 9 => m.m9 | 10 => m.m10 | 11 => m.m11
  | 12 => m.m12 | 13 => m.m13 | 14 => m.m14 | 15 => m.m15
  | _ => 0

/-- The matrix whose entry `m[i]` is `f i`. -/
def Mat4.ofFn (f : Nat → α) : Mat4 α :=
  ⟨f 0, f 1, f 2, f 3, f 4, f 5, f 6, f 7, f 8, f 9, f 10, f 11, f 12, f 13, f 14, f 15⟩

/-- `Mat4::operator*` of the Windows host:
`result.m[i*4+j] = sum over k of m[i*4+k] * other.m[k*4+j]`. -/
def Mat4.mul (a b : Mat4 α) : Mat4 α :=
  Mat4.ofFn fun n =>
    let i := n / 4
    let j := n % 4
    (((0 + a.get (i * 4 + 0) * b.get (0 * 4 + j)) + a.get (i * 4 + 1) * b.get (1 * 4 + j))
      + a.get (i * 4 + 2) * b.get (2 * 4 + j)) + a.get (i * 4 + 3) * b.get (3 * 4 + j)

/-! ## Windows host: `Camera`, `SimulationParams`, `BlackHoleSimulation` -/

/-- The host constant `PI = 3.14159265359f`. -/
def PI : α := 3.14159265359

/-- The Windows `Camera` object. -/
structure Camera (α : Type) where
  azimuth : α
  elevation : α
  radius : α
  minRadius : α
  maxRadius : α
  target : Vec3 α
  position : Vec3 α
  viewMatrix : Mat4 α
  invViewMatrix : Mat4 α
  deriving DecidableEq

/-- `Camera::update`: spherical placement, then the view matrix and its inverse. -/
def Camera.update (B : Builtins α) (c : Camera α) : Camera α :=
  let position : Vec3 α :=
    ⟨c.radius * B.sin c.elevation * B.cos c.azimuth,
     c.radius * B.cos c.elevation,
     c.radius * B.sin c.elevation * B.sin c.azimuth⟩
  let viewMatrix := Mat4.lookAtWin B position c.target ⟨0, 1, 0⟩
  { c with position := position, viewMatrix := viewMatrix,
           invViewMatrix := viewMatrix.inverseWin }

/-- `Camera::reset`. -/
def Camera.reset (B : Builtins α) (c : Camera α) : Camera α :=
  Camera.update B
    { c with azimuth := 0.5, elevation := 1.5, radius := 15.0,
             minRadius := 4.0, maxRadius := 50.0, target := ⟨0, 0, 0⟩ }

/-- `Camera::rotate`. -/
def Camera.rotate (B : Builtins α) (c : Camera α) (deltaAzimuth deltaElevation : α) :
    Camera α :=
  let azimuth := c.azimuth - deltaAzimuth * 0.005
  let elevation := c.elevation - deltaElevation * 0.005
  let elevation := max 0.01 (min (PI - 0.01) elevation)
  Camera.update B { c with azimuth := azimuth, elevation := elevation }

/-- `Camera::zoom`. -/
def Camera.zoom (B : Builtins α) (c : Camera α) (delta : α) : Camera α :=
  let radius := c.radius + delta * 0.5
  let radius := max c.minRadius (min c.maxRadius radius)
  Camera.update B { c with radius := radius }

/-- The struct `SimulationParams`. -/
structure SimulationParams (α : Type) where
  mass : α
  diskOuterRadius : α
  starfieldEnabled : Bool
  planetsEnabled : Bool
  diskEnabled : Bool
  lensingEnabled : Bool
  schwarzschildRadius : α
  diskInnerRadius : α
  deriving DecidableEq, Repr

/-- The default member initialisers, i.e. the value of `SimulationParams()`. -/
def SimulationParams.default : SimulationParams α :=
  { mass := 1.0, diskOuterRadius := 8.0,
    starfieldEnabled := true, planetsEnabled := true,
    diskEnabled := true, lensingEnabled := true,
    schwarzschildRadius := 1.0, diskInnerRadius := 1.5 }

/-- `SimulationParams::updateComputedValues`. -/
def SimulationParams.updateComputedValues (p : SimulationParams α) : SimulationParams α :=
  let schwarzschildRadius := p.mass
  { p with schwarzschildRadius := schwarzschildRadius,
           diskInnerRadius := 1.5 * schwarzschildRadius }

/-- The data members of `BlackHoleSimulation` (OpenGL handles left out). -/
structure BlackHoleSimulation (α : Type) where
  windowWidth : Int
  windowHeight : Int
  currentTime : α
  camera : Camera α
  params : SimulationParams α
  frameTime : α
  frameCount : Int
  fpsUpdateTimer : α
  currentFPS : α
  deriving DecidableEq

/-- `BlackHoleSimulation::BlackHoleSimulation(windowWidth, windowHeight)`: the object
after construction (the `Camera` constructor is a `reset`, the parameter block gets
its default initialisers and `updateComputedValues`). -/
def BlackHoleSimulation.new (B : Builtins α) (windowWidth windowHeight : Int) :
    BlackHoleSimulation α :=
  { windowWidth := windowWidth, windowHeight := windowHeight, currentTime := 0.0,
    camera := Camera.reset B
      { azimuth := 0, elevation := 0, radius := 0, minRadius := 0, maxRadius := 0,
        target := ⟨0, 0, 0⟩, position := ⟨0, 0, 0⟩,
        viewMatrix := Mat4.identity, invViewMatrix := Mat4.identity },
    params := SimulationParams.default.updateComputedValues,
    frameTime := 0.0, frameCount := 0, fpsUpdateTimer := 0.0, currentFPS := 0.0 }

/-- `BlackHoleSimulation::update`. -/
def BlackHoleSimulation.update (B : Builtins α) (s : BlackHoleSimulation α) (deltaTime : α) :
    BlackHoleSimulation α :=
  let currentTime := s.currentTime + deltaTime
  let frameTime := deltaTime
  let frameCount := s.frameCount + 1
  let fpsUpdateTimer := s.fpsUpdateTimer + deltaTime
  let fps : α × Int × α :=
    if fpsUpdateTimer ≥ 1.0 then ((frameCount : α) / fpsUpdateTimer, 0, 0.0)
    else (s.currentFPS, frameCount, fpsUpdateTimer)
  { s with currentTime := currentTime, frameTime := frameTime,
           currentFPS := fps.1, frameCount := fps.2.1, fpsUpdateTimer := fps.2.2,
           camera := s.camera.update B,
           params := s.params.updateComputedValues }

/-- `BlackHoleSimulation::toggleStarfield`. -/
def BlackHoleSimulation.toggleStarfield (s : BlackHoleSimulation α) : BlackHoleSimulation α :=
  { s with params := { s.params with starfieldEnabled := !s.params.starfieldEnabled } }

/-- `BlackHoleSimulation::togglePlanets`. -/
def BlackHoleSimulation.togglePlanets (s : BlackHoleSimulation α) : BlackHoleSimulation α :=
  { s with params := { s.params with planetsEnabled := !s.params.planetsEnabled } }

/-- `BlackHoleSimulation::toggleDisk`. -/
def BlackHoleSimulation.toggleDisk (s : BlackHoleSimulation α) : BlackHoleSimulation α :=
  { s with params := { s.params with diskEnabled := !s.params.diskEnabled } }

/-- `BlackHoleSimulation::toggleLensing`. -/
def BlackHoleSimulation.toggleLensing (s : BlackHoleSimulation α) : BlackHoleSimulation α :=
  { s with params := { s.params with lensingEnabled := !s.params.lensingEnabled } }

/-- `BlackHoleSimulation::adjustMass`. -/
def BlackHoleSimulation.adjustMass (s : BlackHoleSimulation α) (delta : α) :
    BlackHoleSimulation α :=
  { s with params := { s.params with mass := max 0.1 (min 5.0 (s.params.mass + delta)) } }

/-- `BlackHoleSimulation::adjustDiskSize`. -/
def BlackHoleSimulation.adjustDiskSize (s : BlackHoleSimulation α) (delta : α) :
    BlackHoleSimulation α :=
  { s with params :=
      { s.params with
        diskOuterRadius := max 2.0 (min 30.0 (s.params.diskOuterRadius + delta)) } }

/-- `BlackHoleSimulation::resetToDefaults`. -/
def BlackHoleSimulation.resetToDefaults (B : Builtins α) (s : BlackHoleSimulation α) :
    BlackHoleSimulation α :=
  { s with params := SimulationParams.default, camera := s.camera.reset B }

/-! ## Shader uniforms and the Windows uniform upload -/

/-- The uniforms of the fragment shader. -/
structure Uniforms (α : Type) where
  u_resolution : Vec2 α
  u_time : α
  u_invViewMatrix : Mat4 α
  u_cameraPosition : Vec3 α
  u_mass : α
  u_schwarzschildRadius : α
  u_diskInnerRadius : α
  u_diskOuterRadius : α
  u_enableStarfield : Int
  u_enablePlanets : Int
  u_enableDisk : Int
  u_enableLensing : Int
  u_stepSize : α
  u_maxSteps : Int
  u_farDist : α
  u_lensMaxRadius : α
  deriving DecidableEq

/-- The C++ conversion `flag ? 1 : 0`. -/
def flagInt (b : Bool) : Int := if b then 1 else 0

/-- The adaptive step size computed in `updateUniforms` and in the Linux frame loop
(the two texts are the same up to variable names). -/
def adaptiveStep (lensing disk planets : Bool) (fps : α) : α :=
  let baseStep : α := if lensing then 0.25 else 0.45
  let baseStep := if !disk then baseStep * 1.15 else baseStep
  let baseStep := if !planets then baseStep * 1.15 else baseStep
  let baseStep :=
    if fps > 0.0 then
      if fps < 30.0 then baseStep * 1.2
      else if fps > 55.0 then baseStep * 0.9
      else baseStep
    else baseStep
  max 0.15 (min 0.8 baseStep)

/-- `BlackHoleSimulation::updateUniforms`: the uniform block uploaded for a frame. -/
def BlackHoleSimulation.updateUniforms (s : BlackHoleSimulation α) : Uniforms α :=
  { u_resolution := ⟨(s.windowWidth : α), (s.windowHeight : α)⟩,
    u_time := s.currentTime,
    u_invViewMatrix := s.camera.invViewMatrix,
    u_cameraPosition := s.camera.position,
    u_mass := s.params.mass,
    u_schwarzschildRadius := s.params.schwarzschildRadius,
    u_diskInnerRadius := s.params.diskInnerRadius,
    u_diskOuterRadius := s.params.diskOuterRadius,
    u_enableStarfield := flagInt s.params.starfieldEnabled,
    u_enablePlanets := flagInt s.params.planetsEnabled,
    u_enableDisk := flagInt s.params.diskEnabled,
    u_enableLensing := flagInt s.params.lensingEnabled,
    u_stepSize :=
      adaptiveStep s.params.lensingEnabled s.params.diskEnabled s.params.planetsEnabled
        s.currentFPS,
    u_maxSteps := if s.params.lensingEnabled then 220 else 120,
    u_farDist := 100.0,
    u_lensMaxRadius :=
      if s.params.lensingEnabled then s.params.diskOuterRadius * 2.0 + 6.0 else 0.0 }

/-- The GLFW keys the two `key_callback` functions look at. -/
inductive Key where
  | escape | key1 | key2 | key3 | key4
  | equal | kpAdd | minus | kpSubtract | rightBracket | leftBracket
  | q | a | w | s | r
  | other
  deriving DecidableEq, Repr

/-- The GLFW key actions. -/
inductive Action where
  | press | release | repeated
  deriving DecidableEq, Repr

/-- The effect of `key_callback` of `Windows/Main.cpp` on the simulation object. -/
def keyCallbackWin (B : Builtins α) (key : Key) (action : Action) (s : BlackHoleSimulation α) :
    BlackHoleSimulation α :=
  if action = Action.press then
    match key with
    | Key.key1 => s.toggleStarfield
    | Key.key2 => s.togglePlanets
    | Key.key3 => s.toggleDisk
    | Key.key4 => s.toggleLensing
    | Key.q => s.adjustMass 0.1
    | Key.a => s.adjustMass (-0.1)
    | Key.w => s.adjustDiskSize 1.0
    | Key.s => s.adjustDiskSize (-1.0)
    | Key.r => s.resetToDefaults B
    | _ => s
  else s

/-! ## Linux host: `cpp/src/main.cpp` with `Math.hpp` -/

/-- The struct `SimParams` of `main.cpp`. -/
structure SimParams (α : Type) where
  mass : α
  diskOuter : α
  starfieldOn : Bool
  planetsOn : Bool
  diskOn : Bool
  lensingOn : Bool
  deriving DecidableEq, Repr

/-- The default member initialisers of `SimParams`. -/
def SimParams.default : SimParams α :=
  { mass := 1.0, diskOuter := 8.0, starfieldOn := true, planetsOn := true,
    diskOn := true, lensingOn := true }

/-- The effect of `key_callback` of `main.cpp` on the global `params`. -/
def key_callback (key : Key) (action : Action) (params : SimParams α) : SimParams α :=
  if action = Action.press ∨ action = Action.repeated then
    match key with
    | Key.key1 => { params with starfieldOn := !params.starfieldOn }
    | Key.key2 => { params with planetsOn := !params.planetsOn }
    | Key.key3 => { params with diskOn := !params.diskOn }
    | Key.key4 => { params with lensingOn := !params.lensingOn }
    | Key.equal => { params with mass := min 5.0 (params.mass + 0.1) }
    | Key.kpAdd => { params with mass := min 5.0 (params.mass + 0.1) }
    | Key.minus => { params with mass := max 0.1 (params.mass - 0.1) }
    | Key.kpSubtract => { params with mass := max 0.1 (params.mass - 0.1) }
    | Key.rightBracket => { params with diskOuter := min 30.0 (params.diskOuter + 0.5) }
    | Key.leftBracket => { params with diskOuter := max 2.0 (params.diskOuter - 0.5) }
    | _ => params
  else params

/-- The `Camera` class of `Math.hpp`. -/
structure CameraLinux (α : Type) where
  azimuth : α
  elevation : α
  radius : α
  minRadius : α
  maxRadius : α
  target : Vec3 α
  position : Vec3 α
  deriving DecidableEq

/-- The default member initialisers of the `Math.hpp` camera. -/
def CameraLinux.default : CameraLinux α :=
  { azimuth := 0.5, elevation := 1.5, radius := 15.0, minRadius := 4.0, maxRadius := 50.0,
    target := ⟨0, 0, 0⟩, position := ⟨0, 0, 15⟩ }

/-- `Camera::updatePosition` of `Math.hpp`. -/
def CameraLinux.updatePosition (B : Builtins α) (c : CameraLinux α) : CameraLinux α :=
  { c with position :=
      ⟨c.radius * B.sin c.elevation * B.cos c.azimuth,
       c.radius * B.cos c.elevation,
       c.radius * B.sin c.elevation * B.sin c.azimuth⟩ }

/-- `Camera::getViewMatrix` of `Math.hpp`. -/
def CameraLinux.getViewMatrix (B : Builtins α) (c : CameraLinux α) : Mat4 α :=
  Mat4.lookAtLinux B c.position c.target ⟨0, 1, 0⟩

/-- `Camera::getInverseViewMatrix` of `Math.hpp`. -/
def CameraLinux.getInverseViewMatrix (B : Builtins α) (c : CameraLinux α) : Mat4 α :=
  (c.getViewMatrix B).inverseLinux

/-- The uniform block one pass of the render loop of `main.cpp` uploads, from the
globals `params`, `camera`, `fps`, the elapsed `time` and the framebuffer size. -/
def frameUniforms (B : Builtins α) (params : SimParams α) (camera : CameraLinux α)
    (fps time : α) (width height : Int) : Uniforms α :=
  let camera := camera.updatePosition B
  let invViewMatrix := camera.getInverseViewMatrix B
  { u_resolution := ⟨(width : α), (height : α)⟩,
    u_time := time,
    u_invViewMatrix := invViewMatrix,
    u_cameraPosition := camera.position,
    u_mass := params.mass,
    u_schwarzschildRadius := params.mass,
    u_diskInnerRadius := 1.5 * params.mass,
    u_diskOuterRadius := params.diskOuter,
    u_enableStarfield := flagInt params.starfieldOn,
    u_enablePlanets := flagInt params.planetsOn,
    u_enableDisk := flagInt params.diskOn,
    u_enableLensing := flagInt params.lensingOn,
    u_stepSize := adaptiveStep params.lensingOn params.diskOn params.planetsOn fps,
    u_maxSteps := if params.lensingOn then 220 else 120,
    u_farDist := 100.0,
    u_lensMaxRadius := if params.lensingOn then params.diskOuter * 2.0 + 6.0 else 0.0 }

/-! ## The fragment shader -/

variable [FloorRing α]

/-- GLSL `floor`. -/
def floorF (x : α) : α := ((⌊x⌋ : ℤ) : α)

/-- GLSL `fract(x) = x - floor(x)`. -/
def fract (x : α) : α := x - floorF x

/-- Componentwise `floor` on a `vec2`. -/
def Vec2.floor (v : Vec2 α) : Vec2 α := ⟨floorF v.x, floorF v.y⟩

/-- Componentwise `fract` on a `vec2`. -/
def Vec2.fract (v : Vec2 α) : Vec2 α := ⟨BlackHole.fract v.x, BlackHole.fract v.y⟩

/-- Shader constant `PI`. -/
def shaderPI : α := 3.14159265359

/-- Shader constant `MAX_STEPS`: the compile-time cap of the march loop. -/
def MAX_STEPS : Nat := 300

/-- Shader constant `MAX_DIST`: the fallback escape distance. -/
def MAX_DIST : α := 100.0

/-- Shader constant `EPSILON`. -/
def EPSILON : α := 0.001

/-- Shader constant `planet1_orbitRadius`. -/
def planet1_orbitRadius : α := 18.0

/-- Shader constant `planet1_radius`. -/
def planet1_radius : α := 0.4

/-- Shader constant `planet1_speed`. -/
def planet1_speed : α := 0.1

/-- Shader constant `planet1_color`. -/
def planet1_color : Vec3 α := ⟨0.8, 0.3, 0.1⟩

/-- Shader constant `planet2_orbitRadius`. -/
def planet2_orbitRadius : α := 30.0

/-- Shader constant `planet2_radius`. -/
def planet2_radius : α := 1.0

/-- Shader constant `planet2_speed`. -/
def planet2_speed : α := 0.05

/-- Shader constant `planet2_color_base`. -/
def planet2_color_base : Vec3 α := ⟨0.3, 0.4, 0.7⟩

/-- Shader constant `G` (scaled units). -/
def G : α := 1.0

/-- Shader function `random`. -/
def random (B : Builtins α) (st : Vec2 α) : α :=
  fract (B.sin (st.dot ⟨12.9898, 78.233⟩) * 43758.5453123)

/-- Shader function `noise`. -/
def noise (B : Builtins α) (st : Vec2 α) : α :=
  let i := st.floor
  let f := st.fract
  let a := random B i
  let b := random B (i + ⟨1.0, 0.0⟩)
  let c := random B (i + ⟨0.0, 1.0⟩)
  let d := random B (i + ⟨1.0, 1.0⟩)
  let u := f * f * (Vec2.splat 3.0 - (Vec2.splat 2.0) * f)
  mix a b u.x + (c - a) * u.y * (1.0 - u.x) + (d - b) * u.x * u.y

/-- The loop of `fbm` run for `k` more octaves from amplitude `a`, running sum `f`,
amplitude sum `sum` and sample point `p`; returns the final `(f, sum)`. -/
def fbmLoop (B : Builtins α) : Nat → α → α → α → Vec2 α → α × α
  | 0, _, f, sum, _ => (f, sum)
  | k + 1, a, f, sum, p =>
    fbmLoop B k (a * 0.5) (f + a * noise B p) (sum + a) (p.scale 2.03 + ⟨17.7, 11.3⟩)

/-- The body of `fbm` with the octave count of its loop as a parameter. -/
def fbmOctaves (B : Builtins α) (octaves : Nat) (p : Vec2 α) : α :=
  let r := fbmLoop B octaves 0.5 0.0 0.0 p
  if r.2 > 0.0 then r.1 / r.2 else 0.0

/-- Shader function `fbm` (four octaves). -/
def fbm (B : Builtins α) (p : Vec2 α) : α := fbmOctaves B 4 p

/-- The body of the double loop of `starField`: what cell `(i, j)` of the 3x3
neighbourhood adds to `color`. -/
def starCell (B : Builtins α) (t : α) (baseCell f : Vec2 α) (i j : Int) : Vec3 α :=
  let cid := baseCell + ⟨(i : α), (j : α)⟩
  let off : Vec2 α := ⟨random B (cid + ⟨13.1, 17.7⟩), random B (cid + ⟨27.3, 39.5⟩)⟩
  let d := (⟨(i : α), (j : α)⟩ + off) - f
  let dist := d.length B
  let sizeRnd := random B (cid + ⟨3.7, 5.1⟩)
  let size := 0.018 + 0.12 * sizeRnd * sizeRnd
  let bRnd := random B (cid + ⟨1.3, 2.1⟩)
  let baseB := B.pow bRnd 10.0
  let rare := step 0.985 (random B (cid + ⟨4.2, 7.9⟩))
  let baseB := baseB + rare * 0.6
  let twR := random B (cid + ⟨9.2, 6.4⟩)
  let tw := 0.88 + 0.22 * B.sin (t * (5.0 + 11.0 * twR) + twR * 6.28318)
  let core := smoothstep size 0.0 dist
  let core := core * core
  let halo := smoothstep (2.5 * size) 0.0 dist * 0.35
  let starM := core + halo
  let intensity := baseB * starM * tw
  let temp := random B (cid + ⟨2.7, 8.9⟩)
  let starCol := Vec3.mix ⟨1.0, 0.92, 0.86⟩ ⟨0.75, 0.86, 1.0⟩ temp
  starCol.scale intensity

/-- Shader function `starField`. -/
def starField (B : Builtins α) (rd : Vec3 α) (t : α) : Vec3 α :=
  let rd := rd.normalizeGL B
  let lon := B.atan rd.z rd.x
  let lat := B.asin (clamp rd.y (-1.0) 1.0)
  let uv : Vec2 α := ⟨lon / (2.0 * shaderPI) + 0.5, lat / shaderPI + 0.5⟩
  let GRID : Vec2 α := ⟨520.0, 260.0⟩
  let gUV := uv * GRID
  let baseCell := gUV.floor
  let f := gUV.fract
  let color : Vec3 α :=
    ([-1, 0, 1] : List Int).foldl
      (fun color j =>
        ([-1, 0, 1] : List Int).foldl (fun color i => color + starCell B t baseCell f i j) color)
      (Vec3.splat 0.0)
  let galN := Vec3.normalizeGL B ⟨0.0, 0.2, 1.0⟩
  let band := B.pow (1.0 - |rd.dot galN|) 2.0
  let nebBase := fbm B (uv * ⟨8.0, 4.0⟩)
  let nebDetail := fbm B ((uv + ⟨0.17, 0.03⟩) * ⟨16.0, 8.0⟩)
  let nebMask := smoothstep 0.55 0.9 band * smoothstep 0.35 0.85 nebBase
  let neb := clamp (0.0 + 0.9 * nebBase + 0.4 * nebDetail) 0.0 1.6 * nebMask
  let nebColA : Vec3 α := ⟨0.12, 0.16, 0.22⟩
  let nebColB : Vec3 α := ⟨0.18, 0.12, 0.20⟩
  let nebula := (Vec3.mix nebColA nebColB nebDetail).scale (0.06 * neb)
  let color := color + nebula
  color / (Vec3.splat 1.0 + color)

/-- Shader function `getPlanetColor`: `vec4(color, 1.0)` on a hit, `vec4(0.0)` on a miss. -/
def getPlanetColor (B : Builtins α) (u : Uniforms α) (p : Vec3 α) : Vec4 α :=
  if u.u_enablePlanets = 0 then Vec4.splat 0.0
  else
    let angle1 := u.u_time * planet1_speed
    let planet1_pos : Vec3 α :=
      ⟨B.cos angle1 * planet1_orbitRadius, 0.0, B.sin angle1 * planet1_orbitRadius⟩
    if (p - planet1_pos).length B < planet1_radius then
      let normal := (p - planet1_pos).normalizeGL B
      let lightDir := (-planet1_pos).normalizeGL B
      let diffuse := max 0.0 (normal.dot lightDir) * 0.7 + 0.3
      Vec4.ofVec3 (planet1_color.scale diffuse) 1.0
    else
      let angle2 := u.u_time * planet2_speed + 2.5
      let planet2_pos : Vec3 α :=
        ⟨B.cos angle2 * planet2_orbitRadius, 0.0, B.sin angle2 * planet2_orbitRadius⟩
      if (p - planet2_pos).length B < planet2_radius then
        let normal := (p - planet2_pos).normalizeGL B
        let lightDir := (-planet2_pos).normalizeGL B
        let diffuse := max 0.0 (normal.dot lightDir) * 0.6 + 0.4
        let n := noise B (Vec2.scale ⟨p.x, p.y⟩ 3.0) * 0.5
          + noise B (Vec2.scale ⟨p.y, p.z⟩ 6.0) * 0.5
        let texColor := Vec3.mix planet2_color_base (Vec3.splat 0.9) n
        Vec4.ofVec3 (texColor.scale diffuse) 1.0
      else Vec4.splat 0.0

/-- Shader function `getDiskSample`: emissive colour and alpha of the disk at `p`.
The unit vectors `e_r`, `e_t` of the source are computed there and never used. -/
def getDiskSample (B : Builtins α) (u : Uniforms α) (p : Vec3 α) : Vec4 α :=
  let xz : Vec2 α := ⟨p.x, p.z⟩
  let r := xz.length B
  let theta := B.atan xz.y xz.x
  let omega := 1.6 * B.pow (max r 0.25) (-1.5)
  let thetaFlow := theta - u.u_time * omega
  let logr := B.log (max r 0.0007)
  let n := 0.0 + 1.00 * noise B ⟨logr * 2.7, B.sin thetaFlow⟩
  let n := n + 0.50 * noise B ⟨logr * 5.11 + 17.0, B.cos thetaFlow⟩
  let n := n + 0.25 * noise B ⟨logr * 9.30 - 11.0, B.sin (thetaFlow * 2.0)⟩
  let n := clamp (n / 1.75) 0.0 1.0
  let arms : α := 3.0
  let pitch : α := 4.0
  let spiralPhase := arms * (thetaFlow + B.log (max r 0.0005) * pitch)
  let armMask := B.pow (0.5 + 0.5 * B.cos spiralPhase) 2.0
  let radial := smoothstep u.u_diskInnerRadius u.u_diskOuterRadius r
  let armGain := mix 1.35 1.1 radial
  let intensity := B.pow n 1.5 * armGain * mix 0.7 1.2 armMask * (1.15 - 0.65 * radial)
  let colInner : Vec3 α := ⟨0.98, 0.98, 1.0⟩
  let colMid : Vec3 α := ⟨1.0, 0.85, 0.55⟩
  let colOuter : Vec3 α := ⟨1.0, 0.55, 0.22⟩
  let color := Vec3.mix colInner colMid (smoothstep 0.0 0.6 radial)
  let color := Vec3.mix color colOuter (smoothstep 0.4 1.0 radial)
  let v := 0.8 * B.pow (max r 0.25) (-0.5)
  let velDir3 := Vec3.normalizeGL B ⟨-p.z, 0.0, p.x⟩
  let viewDir := (u.u_cameraPosition - p).normalizeGL B
  let dop := clamp (velDir3.dot viewDir * v) (-1.0) 1.0
  let color : Vec3 α :=
    ⟨color.x * (1.0 - 0.35 * max dop 0.0), color.y, color.z * (1.0 + 0.55 * max (-dop) 0.0)⟩
  let falloff := 1.0 - smoothstep u.u_diskInnerRadius u.u_diskOuterRadius r
  let emissive := ((color.scale intensity).scale (2.2 + 1.3 * (1.0 - radial))).scale falloff
  let baseAlpha : α := 0.33
  let alpha := baseAlpha * falloff * clamp (intensity * (1.1 + 0.4 * (1.0 - radial))) 0.1 1.0
  Vec4.ofVec3 emissive alpha

/-- The mutable locals of `rayMarch`. -/
structure MarchState (α : Type) where
  accColor : Vec3 α
  transmittance : α
  p : Vec3 α
  rayDir : Vec3 α
  deriving DecidableEq

/-- What one pass through the loop body of `rayMarch` ends in: a `return` with a
colour, or the locals at the start of the next pass. -/
inductive MarchResult (α : Type) where
  | ret (color : Vec3 α)
  | next (s : MarchState α)
  deriving DecidableEq

/-- The local `farDist` of `rayMarch`. -/
def marchFarDist (u : Uniforms α) : α :=
  if u.u_farDist > 0.0 then u.u_farDist else MAX_DIST

/-- The adaptive step length of one pass of the march loop at position `p`. -/
def marchStepSize (B : Builtins α) (u : Uniforms α) (p : Vec3 α) : α :=
  let farDist := marchFarDist u
  let r := p.length B
  let stepSize := u.u_stepSize
  let stepSize := stepSize + stepSize * smoothstep (u.u_diskOuterRadius + 2.0) farDist r * 2.5
  stepSize * (1.0 + 1.2 * smoothstep 0.5 3.0 |p.y|)

/-- The ray direction after the lensing block of one pass of the march loop. -/
def marchDeflect (B : Builtins α) (u : Uniforms α) (p rayDir : Vec3 α) : Vec3 α :=
  let r := p.length B
  let distToCenterSq := max (r * r) 1e-4
  let stepSize := marchStepSize B u p
  if u.u_enableLensing = 1 ∧ r < u.u_lensMaxRadius then
    let gravityDir : Vec3 α := if r > 1e-6 then (-p).divS r else ⟨0.0, 0.0, 0.0⟩
    let acceleration := (gravityDir.scale (G * u.u_mass)).divS distToCenterSq
    (rayDir + acceleration.scale stepSize).normalizeGL B
  else rayDir

/-- The escape test that closes one pass of the march loop. -/
def marchEscape (B : Builtins α) (u : Uniforms α) (s : MarchState α) : MarchResult α :=
  if s.p.length B > marchFarDist u then
    if u.u_enableStarfield = 1 then
      MarchResult.ret (s.accColor + (starField B s.rayDir u.u_time).scale s.transmittance)
    else MarchResult.ret s.accColor
  else MarchResult.next s

/-- The thin-disk block of one pass of the march loop, followed by the escape test.
`p_prev` is the position at the start of the pass; `s` holds the advanced position
and the new direction. -/
def marchDisk (B : Builtins α) (u : Uniforms α) (p_prev : Vec3 α) (s : MarchState α) :
    MarchResult α :=
  if u.u_enableDisk = 1 ∧ p_prev.y * s.p.y < 0.0 then
    let t := -p_prev.y / (s.p.y - p_prev.y)
    let hit := p_prev + (s.p - p_prev).scale t
    let r := Vec2.length B ⟨hit.x, hit.z⟩
    if r > u.u_diskInnerRadius ∧ r < u.u_diskOuterRadius then
      let disk := getDiskSample B u hit
      let accColor := s.accColor + disk.rgb.scale s.transmittance
      let transmittance := s.transmittance * (1.0 - disk.w)
      if transmittance < 0.02 then MarchResult.ret accColor
      else marchEscape B u { s with accColor := accColor, transmittance := transmittance }
    else marchEscape B u s
  else marchEscape B u s

/-- One pass through the body of the `for` loop of `rayMarch`, from the locals `s`. -/
def marchBody (B : Builtins α) (u : Uniforms α) (s : MarchState α) : MarchResult α :=
  let p_prev := s.p
  let planetHitColor := getPlanetColor B u s.p
  if planetHitColor.w > 0.5 then
    MarchResult.ret (s.accColor + planetHitColor.rgb.scale s.transmittance)
  else if u.u_enableLensing = 1 ∧ s.p.length B < u.u_schwarzschildRadius + EPSILON then
    MarchResult.ret s.accColor
  else
    let stepSize := marchStepSize B u s.p
    let rayDir := marchDeflect B u s.p s.rayDir
    let p := s.p + rayDir.scale stepSize
    marchDisk B u p_prev { s with p := p, rayDir := rayDir }

/-- The statements after the loop of `rayMarch`: the background is added as well. -/
def marchExhausted (B : Builtins α) (u : Uniforms α) (s : MarchState α) : Vec3 α :=
  if u.u_enableStarfield = 1 then
    s.accColor + (starField B s.rayDir u.u_time).scale s.transmittance
  else s.accColor

/-- The `for (int i = 0; i < MAX_STEPS; i++)` loop of `rayMarch` from counter `i`
and locals `s`, together with the statements after it.  The first argument is the
number of passes the compile-time cap still allows, `MAX_STEPS - i`. -/
def marchLoop (B : Builtins α) (u : Uniforms α) : Nat → Int → MarchState α → Vec3 α
  | 0, _, s => marchExhausted B u s
  | left + 1, i, s =>
    if i ≥ u.u_maxSteps then marchExhausted B u s
    else
      match marchBody B u s with
      | MarchResult.ret color => color
      | MarchResult.next s' => marchLoop B u left (i + 1) s'

/-- Shader function `rayMarch`. -/
def rayMarch (B : Builtins α) (u : Uniforms α) (rayOrigin rayDir : Vec3 α) : Vec3 α :=
  marchLoop B u MAX_STEPS 0
    { accColor := Vec3.splat 0.0, transmittance := 1.0, p := rayOrigin, rayDir := rayDir }

/-- The ray direction `main` computes for the fragment at `fragCoord`
(`gl_FragCoord.xy`). -/
def mainRayDir (B : Builtins α) (u : Uniforms α) (fragCoord : Vec2 α) : Vec3 α :=
  let uv : Vec2 α :=
    ⟨(fragCoord.x - 0.5 * u.u_resolution.x) / u.u_resolution.y,
     (fragCoord.y - 0.5 * u.u_resolution.y) / u.u_resolution.y⟩
  let rayDir := Vec3.normalizeGL B ⟨uv.x, uv.y, -1.0⟩
  (u.u_invViewMatrix.mulVec (Vec4.ofVec3 rayDir 0.0)).rgb

/-- Shader function `main`: the value written to `gl_FragColor` / `FragColor`. -/
def main (B : Builtins α) (u : Uniforms α) (fragCoord : Vec2 α) : Vec4 α :=
  let rayDir := mainRayDir B u fragCoord
  if u.u_enableStarfield = 1 ∧ u.u_enablePlanets = 0 ∧ u.u_enableDisk = 0
      ∧ u.u_enableLensing = 0 then
    let bg := starField B rayDir u.u_time
    let bg := bg.pow B 0.4545
    Vec4.ofVec3 bg 1.0
  else if u.u_enableStarfield = 0 ∧ u.u_enablePlanets = 0 ∧ u.u_enableDisk = 0
      ∧ u.u_enableLensing = 0 then
    Vec4.splat 0.0
  else
    let color := rayMarch B u u.u_cameraPosition rayDir
    let l := color.dot ⟨0.21, 0.72, 0.07⟩
    let color := color + (color.scale l).scale 0.3
    let color := color.pow B 0.4545
    Vec4.ofVec3 color 1.0

/-- The vector the lensing block of a pass hands to `normalize`:
`rayDir + acceleration * step` at position `p`. -/
def marchDeflectArg (B : Builtins α) (u : Uniforms α) (p rayDir : Vec3 α) : Vec3 α :=
  let r := p.length B
  let distToCenterSq := max (r * r) 1e-4
  let stepSize := marchStepSize B u p
  let gravityDir : Vec3 α := if r > 1e-6 then (-p).divS r else ⟨0.0, 0.0, 0.0⟩
  let acceleration := (gravityDir.scale (G * u.u_mass)).divS distToCenterSq
  rayDir + acceleration.scale stepSize

/-- A record of one run of the march loop: the colour returned, the number of
passes through the loop body, and the locals at every loop head reached (the last
entry is where the run left the loop or returned from the body). -/
structure MarchRun (α : Type) where
  color : Vec3 α
  passes : Nat
  states : List (MarchState α)

/-- The loop of `rayMarch` as in `marchLoop`, recording passes and loop-head states. -/
def marchRun (B : Builtins α) (u : Uniforms α) : Nat → Int → MarchState α → MarchRun α
  | 0, _, s => ⟨marchExhausted B u s, 0, [s]⟩
  | left + 1, i, s =>
    if i ≥ u.u_maxSteps then ⟨marchExhausted B u s, 0, [s]⟩
    else
      match marchBody B u s with
      | MarchResult.ret color => ⟨color, 1, [s]⟩
      | MarchResult.next s' =>
        let r := marchRun B u left (i + 1) s'
        ⟨r.color, r.passes + 1, s :: r.states⟩

/-- The run of `rayMarch` from a ray origin and direction. -/
def rayMarchRun (B : Builtins α) (u : Uniforms α) (rayOrigin rayDir : Vec3 α) : MarchRun α :=
  marchRun B u MAX_STEPS 0
    { accColor := Vec3.splat 0.0, transmittance := 1.0, p := rayOrigin, rayDir := rayDir }

/-- The step size as the specification words it: the clamped product of the base
step `b`, the disk factor `d`, the planet factor `p` and the frame-rate factor `f`. -/
def specStepSize (lensing disk planets : Bool) (fps : α) : α :=
  let b : α := if lensing then 0.25 else 0.45
  let d : α := if disk then 1 else 1.15
  let p : α := if planets then 1 else 1.15
  let f : α := if 0 < fps ∧ fps < 30 then 1.2 else if fps > 55 then 0.9 else 1
  clamp (b * d * p * f) 0.15 0.8

/-- Position of the first planet at time `t`, as the specification words it. -/
def specPlanet1Pos (B : Builtins α) (t : α) : Vec3 α :=
  ⟨18 * B.cos (0.1 * t), 0, 18 * B.sin (0.1 * t)⟩

/-- Position of the second planet at time `t`, as the specification words it. -/
def specPlanet2Pos (B : Builtins α) (t : α) : Vec3 α :=
  ⟨30 * B.cos (0.05 * t + 2.5), 0, 30 * B.sin (0.05 * t + 2.5)⟩

/-- Bilinear interpolation of four corner values with weights `ux`, `uy`, as the
specification words it. -/
def specBilinear (a b c d ux uy : α) : α :=
  (1 - ux) * (1 - uy) * a + ux * (1 - uy) * b + (1 - ux) * uy * c + ux * uy * d

/-- The value of `baseStep` in `updateUniforms` and in the Linux frame loop just
before the statement `baseStep = std::max(0.15f, std::min(0.8f, baseStep))`. -/
def unclampedStep (lensing disk planets : Bool) (fps : α) : α :=
  let baseStep : α := if lensing then 0.25 else 0.45
  let baseStep := if !disk then baseStep * 1.15 else baseStep
  let baseStep := if !planets then baseStep * 1.15 else baseStep
  if fps > 0.0 then
    if fps < 30.0 then baseStep * 1.2
    else if fps > 55.0 then baseStep * 0.9
    else baseStep
  else baseStep

/-- The interpolation parameter `t` of the disk block of `rayMarch`. -/
def crossingT (p_prev p : Vec3 α) : α := -p_prev.y / (p.y - p_prev.y)

/-- The crossing point `hit` of the disk block of `rayMarch`. -/
def crossingHit (p_prev p : Vec3 α) : Vec3 α :=
  p_prev + (p - p_prev).scale (crossingT p_prev p)

/-- The statements of the disk block of `rayMarch` that run once the crossing point
`hit` has passed the radius test: the disk is sampled at `hit` and composited, and the
pass ends with the opacity early-out or the escape test. -/
def marchDiskSampled (B : Builtins α) (u : Uniforms α) (s : MarchState α) (hit : Vec3 α) :
    MarchResult α :=
  let disk := getDiskSample B u hit
  let accColor := s.accColor + disk.rgb.scale s.transmittance
  let transmittance := s.transmittance * (1.0 - disk.w)
  if transmittance < 0.02 then MarchResult.ret accColor
  else marchEscape B u { s with accColor := accColor, transmittance := transmittance }

/-- The general path of `main`: the statements after the two early-outs. -/
def mainGeneral (B : Builtins α) (u : Uniforms α) (fragCoord : Vec2 α) : Vec4 α :=
  let rayDir := mainRayDir B u fragCoord
  let color := rayMarch B u u.u_cameraPosition rayDir
  let l := color.dot ⟨0.21, 0.72, 0.07⟩
  let color := color + (color.scale l).scale 0.3
  let color := color.pow B 0.4545
  Vec4.ofVec3 color 1.0

/-- The escape test of a march along a fixed direction, as the specification words the
march with lensing disabled: the background colour `bg` is the starfield sampled once
with the initial direction. -/
def straightEscape (B : Builtins α) (u : Uniforms α) (bg : Vec3 α) (s : MarchState α) :
    MarchResult α :=
  if s.p.length B > marchFarDist u then
    if u.u_enableStarfield = 1 then MarchResult.ret (s.accColor + bg.scale s.transmittance)
    else MarchResult.ret s.accColor
  else MarchResult.next s

/-- One pass of a march along the fixed direction `dir`, as the specification words
the march with lensing disabled: planet test, a step along `dir`, the disk crossing,
the escape test with background `bg`.  No horizon test and no deflection. -/
def straightBody (B : Builtins α) (u : Uniforms α) (dir bg : Vec3 α) (s : MarchState α) :
    MarchResult α :=
  let planetHitColor := getPlanetColor B u s.p
  if planetHitColor.w > 0.5 then
    MarchResult.ret (s.accColor + planetHitColor.rgb.scale s.transmittance)
  else
    let p := s.p + dir.scale (marchStepSize B u s.p)
    let hit := crossingHit s.p p
    let r := Vec2.length B ⟨hit.x, hit.z⟩
    if u.u_enableDisk = 1 ∧ s.p.y * p.y < 0.0
        ∧ r > u.u_diskInnerRadius ∧ r < u.u_diskOuterRadius then
      let disk := getDiskSample B u hit
      let accColor := s.accColor + disk.rgb.scale s.transmittance
      let transmittance := s.transmittance * (1.0 - disk.w)
      if transmittance < 0.02 then MarchResult.ret accColor
      else straightEscape B u bg
        { accColor := accColor, transmittance := transmittance, p := p, rayDir := dir }
    else straightEscape B u bg { s with p := p, rayDir := dir }

/-- The loop of a march along the fixed direction `dir` with background `bg`. -/
def straightLoop (B : Builtins α) (u : Uniforms α) (dir bg : Vec3 α) :
    Nat → Int → MarchState α → Vec3 α
  | 0, _, s => if u.u_enableStarfield = 1 then s.accColor + bg.scale s.transmittance
      else s.accColor
  | left + 1, i, s =>
    if i ≥ u.u_maxSteps then
      if u.u_enableStarfield = 1 then s.accColor + bg.scale s.transmittance else s.accColor
    else
      match straightBody B u dir bg s with
      | MarchResult.ret color => color
      | MarchResult.next s' => straightLoop B u dir bg left (i + 1) s'

/-- The march along the straight line from `rayOrigin` in direction `dir`, with
background colour `bg`. -/
def straightMarch (B : Builtins α) (u : Uniforms α) (rayOrigin dir bg : Vec3 α) : Vec3 α :=
  straightLoop B u dir bg MAX_STEPS 0
    { accColor := Vec3.splat 0.0, transmittance := 1.0, p := rayOrigin, rayDir := dir }

/-- The local `thetaFlow` of `getDiskSample` at polar radius `r` and angle `theta`. -/
def diskThetaFlow (B : Builtins α) (u : Uniforms α) (r theta : α) : α :=
  let omega := 1.6 * B.pow (max r 0.25) (-1.5)
  theta - u.u_time * omega

/-- The turbulence value `n` of `getDiskSample` at polar radius `r` and flow angle
`thetaFlow`. -/
def diskTurbulence (B : Builtins α) (r thetaFlow : α) : α :=
  let logr := B.log (max r 0.0007)
  let n := 0.0 + 1.00 * noise B ⟨logr * 2.7, B.sin thetaFlow⟩
  let n := n + 0.50 * noise B ⟨logr * 5.11 + 17.0, B.cos thetaFlow⟩
  let n := n + 0.25 * noise B ⟨logr * 9.30 - 11.0, B.sin (thetaFlow * 2.0)⟩
  clamp (n / 1.75) 0.0 1.0

/-- The spiral arm mask `armMask` of `getDiskSample` at polar radius `r` and flow
angle `thetaFlow`. -/
def diskArmMask (B : Builtins α) (r thetaFlow : α) : α :=
  let arms : α := 3.0
  let pitch : α := 4.0
  let spiralPhase := arms * (thetaFlow + B.log (max r 0.0005) * pitch)
  B.pow (0.5 + 0.5 * B.cos spiralPhase) 2.0

/-- The local `intensity` of `getDiskSample` at polar radius `r` and flow angle
`thetaFlow`. -/
def diskIntensity (B : Builtins α) (u : Uniforms α) (r thetaFlow : α) : α :=
  let n := diskTurbulence B r thetaFlow
  let armMask := diskArmMask B r thetaFlow
  let radial := smoothstep u.u_diskInnerRadius u.u_diskOuterRadius r
  let armGain := mix 1.35 1.1 radial
  B.pow n 1.5 * armGain * mix 0.7 1.2 armMask * (1.15 - 0.65 * radial)

/-- The local `alpha` of `getDiskSample` at polar radius `r` and flow angle
`thetaFlow`. -/
def diskAlpha (B : Builtins α) (u : Uniforms α) (r thetaFlow : α) : α :=
  let intensity := diskIntensity B u r thetaFlow
  let radial := smoothstep u.u_diskInnerRadius u.u_diskOuterRadius r
  let falloff := 1.0 - smoothstep u.u_diskInnerRadius u.u_diskOuterRadius r
  let baseAlpha : α := 0.33
  baseAlpha * falloff * clamp (intensity * (1.1 + 0.4 * (1.0 - radial))) 0.1 1.0

/-- The value `getDiskSample` returns at `p` once the flow angle `thetaFlow` is
computed: colour gradient, Doppler tint, emissive colour and alpha. -/
def diskSampleAt (B : Builtins α) (u : Uniforms α) (p : Vec3 α) (thetaFlow : α) : Vec4 α :=
  let r := Vec2.length B ⟨p.x, p.z⟩
  let radial := smoothstep u.u_diskInnerRadius u.u_diskOuterRadius r
  let intensity := diskIntensity B u r thetaFlow
  let colInner : Vec3 α := ⟨0.98, 0.98, 1.0⟩
  let colMid : Vec3 α := ⟨1.0, 0.85, 0.55⟩
  let colOuter : Vec3 α := ⟨1.0, 0.55, 0.22⟩
  let color := Vec3.mix colInner colMid (smoothstep 0.0 0.6 radial)
  let color := Vec3.mix color colOuter (smoothstep 0.4 1.0 radial)
  let v := 0.8 * B.pow (max r 0.25) (-0.5)
  let velDir3 := Vec3.normalizeGL B ⟨-p.z, 0.0, p.x⟩
  let viewDir := (u.u_cameraPosition - p).normalizeGL B
  let dop := clamp (velDir3.dot viewDir * v) (-1.0) 1.0
  let color : Vec3 α :=
    ⟨color.x * (1.0 - 0.35 * max dop 0.0), color.y, color.z * (1.0 + 0.55 * max (-dop) 0.0)⟩
  let falloff := 1.0 - smoothstep u.u_diskInnerRadius u.u_diskOuterRadius r
  let emissive := ((color.scale intensity).scale (2.2 + 1.3 * (1.0 - radial))).scale falloff
  Vec4.ofVec3 emissive (diskAlpha B u r thetaFlow)

/-- Every component of the colour is non-negative. -/
def Vec3.Nonneg (v : Vec3 α) : Prop := 0 ≤ v.x ∧ 0 ≤ v.y ∧ 0 ≤ v.z

/-- The accumulated colour and the transmittance are non-negative. -/
def MarchState.Nonneg (s : MarchState α) : Prop := s.accColor.Nonneg ∧ 0 ≤ s.transmittance

/-- A returned colour is non-negative; locals carried to the next pass are. -/
def MarchResult.Nonneg : MarchResult α → Prop
  | MarchResult.ret color => color.Nonneg
  | MarchResult.next s => s.Nonneg

end Generic

/-! ## Rational reference implementation of the library functions

Used only to evaluate the definitions above at concrete inputs.  Every function
returns a rational on the grid of step `10⁻¹⁸` close to the real value (series with
argument reduction); `sqrt` is exact on squares of rationals. -/

/-- Round to the nearest multiple of `10⁻¹⁸`. -/
def roundQ (x : ℚ) : ℚ := (⌊x * 1000000000000000000 + 1 / 2⌋ : ℤ) / 1000000000000000000

/-- Rational value used for `2π`. -/
def refTwoPi : ℚ := 6.283185307179586476925286766559

/-- Rational value used for `π / 2`. -/
def refHalfPi : ℚ := 1.57079632679489661923132169163975

/-- Rational value used for `ln 2`. -/
def refLn2 : ℚ := 0.693147180559945309417232121458

/-- Horner evaluation of `1 - r2/(2·3) (1 - r2/(4·5) (1 - ...))` with `n` factors. -/
def sinHorner (r2 : ℚ) : Nat → ℚ → ℚ
  | 0, s => s
  | n + 1, s =>
    sinHorner r2 n (roundQ (1 - s * r2 / ((2 * (n + 1 : ℚ)) * (2 * (n + 1 : ℚ) + 1))))

/-- Reference sine: reduction to `[-π, π]`, then the Taylor polynomial of degree 31. -/
def refSin (x : ℚ) : ℚ :=
  let k : ℤ := ⌊x / refTwoPi + 1 / 2⌋
  let r := roundQ (x - k * refTwoPi)
  roundQ (r * sinHorner (r * r) 15 1)

/-- Reference cosine, `sin (x + π/2)`. -/
def refCos (x : ℚ) : ℚ := refSin (x + refHalfPi)

/-- Newton iteration for the integer square root, from a starting value not below it. -/
def isqrtLoop (n : Nat) : Nat → Nat → Nat
  | 0, x => x
  | fuel + 1, x =>
    let y := (x + n / x) / 2
    if y < x then isqrtLoop n fuel y else x

/-- Number of binary digits of `n`, by repeated halving (at most `fuel` digits). -/
def bitLength : Nat → Nat → Nat
  | 0, _ => 0
  | fuel + 1, n => if n = 0 then 0 else bitLength fuel (n / 2) + 1

/-- Position of the leading binary digit: `⌊log₂ n⌋` for `0 < n < 2 ^ 65536`. -/
def ilog2 (n : Nat) : Nat := bitLength 65536 n - 1

/-- Integer square root (rounded down). -/
def isqrt (n : Nat) : Nat :=
  if n = 0 then 0 else isqrtLoop n 400 (2 ^ (ilog2 n / 2 + 1))

/-- Reference square root: exact on squares of rationals, otherwise rounded down to
the grid; `0` on negative arguments. -/
def refSqrt (x : ℚ) : ℚ :=
  if x ≤ 0 then 0
  else
    let n := x.num.toNat
    let d := x.den
    let sn := isqrt n
    let sd := isqrt d
    if sn * sn = n ∧ sd * sd = d then (sn : ℚ) / (sd : ℚ)
    else (isqrt (⌊x * 1000000000000000000000000000000000000⌋ : ℤ).toNat : ℚ)
      / 1000000000000000000

/-- Horner evaluation of `1/1 - z2 (1/3 - z2 (1/5 - ...))` with `n` terms. -/
def atanHorner (z2 : ℚ) : Nat → ℚ → ℚ
  | 0, s => s
  | n + 1, s => atanHorner z2 n (roundQ (1 / (2 * (n : ℚ) + 1) - z2 * s))

/-- Reference arctangent on `[-1, 1]`: two half-angle reductions, then a series. -/
def refAtanSmall (z : ℚ) : ℚ :=
  let z1 := roundQ (z / (1 + refSqrt (1 + z * z)))
  let z2 := roundQ (z1 / (1 + refSqrt (1 + z1 * z1)))
  roundQ (4 * (z2 * atanHorner (z2 * z2) 14 0))

/-- Reference one-argument arctangent. -/
def refAtan1 (z : ℚ) : ℚ :=
  if |z| ≤ 1 then refAtanSmall z
  else if z > 0 then roundQ (refHalfPi - refAtanSmall (1 / z))
  else roundQ (-refHalfPi - refAtanSmall (1 / z))

/-- Reference two-argument arctangent `atan(y, x)`. -/
def refAtan (y x : ℚ) : ℚ :=
  if x > 0 then refAtan1 (y / x)
  else if x < 0 then
    if y ≥ 0 then roundQ (refAtan1 (y / x) + 2 * refHalfPi)
    else roundQ (refAtan1 (y / x) - 2 * refHalfPi)
  else if y > 0 then roundQ refHalfPi
  else if y < 0 then roundQ (-refHalfPi)
  else 0

/-- Reference arcsine, `atan(x, sqrt(1 - x²))`. -/
def refAsin (x : ℚ) : ℚ := refAtan x (refSqrt (1 - x * x))

/-- Horner evaluation of `1/1 + z2 (1/3 + z2 (1/5 + ...))` with `n` terms. -/
def atanhHorner (z2 : ℚ) : Nat → ℚ → ℚ
  | 0, s => s
  | n + 1, s => atanhHorner z2 n (roundQ (1 / (2 * (n : ℚ) + 1) + z2 * s))

/-- Reference natural logarithm: `x = m · 2^e` with `m` near `1`, then the `atanh`
series; `0` on non-positive arguments. -/
def refLog (x : ℚ) : ℚ :=
  if x ≤ 0 then 0
  else
    let e : ℤ := (ilog2 x.num.toNat : ℤ) - (ilog2 x.den : ℤ)
    let m : ℚ := if e ≥ 0 then x / (2 ^ e.toNat : ℕ) else x * (2 ^ (-e).toNat : ℕ)
    let z := (m - 1) / (m + 1)
    roundQ (e * refLn2 + 2 * (z * atanhHorner (z * z) 20 0))

/-- Horner evaluation of `1 + r/1 (1 + r/2 (1 + ...))` with `n` factors. -/
def expHorner (r : ℚ) : Nat → ℚ → ℚ
  | 0, s => s
  | n + 1, s => expHorner r n (roundQ (1 + r * s / (n + 1 : ℚ)))

/-- Reference exponential. -/
def refExp (x : ℚ) : ℚ :=
  let k : ℤ := ⌊x / refLn2 + 1 / 2⌋
  let r := roundQ (x - k * refLn2)
  let s := expHorner r 18 1
  roundQ (if k ≥ 0 then s * (2 ^ k.toNat : ℕ) else s / (2 ^ (-k).toNat : ℕ))

/-- Reference power: `0` for a non-positive base, a rounded exact power for an
integer exponent, `exp (y log x)` otherwise. -/
def refPow (x y : ℚ) : ℚ :=
  if x ≤ 0 then 0
  else if y.den = 1 then
    if y.num ≥ 0 then roundQ (x ^ y.num.toNat) else roundQ (1 / x ^ (-y.num).toNat)
  else refExp (y * refLog x)

/-- The rational reference implementation of the library functions. -/
def refBuiltins : Builtins ℚ :=
  { sin := refSin, cos := refCos, asin := refAsin, atan := refAtan,
    pow := refPow, log := refLog, sqrt := refSqrt }

/-! ## Concrete inputs -/

/-- The simulation object `Windows/Main.cpp` creates (1280 x 720 window). -/
def initialSimulation : BlackHoleSimulation ℚ := BlackHoleSimulation.new refBuiltins 1280 720

/-- A uniform block with default parameters on a 1281 x 721 framebuffer whose
inverse view matrix turns the central view ray `(0, 0, -1)` into `(1, 0, 0)`;
the four flags and the quality values are filled in by the arguments. -/
def sampleUniforms (starfield planets disk lensing : Bool) : Uniforms ℚ :=
  { u_resolution := ⟨1281, 721⟩,
    u_time := 0,
    u_invViewMatrix := ⟨0, 0, 1, 0, 0, 1, 0, 0, -1, 0, 0, 0, 0, 0, 0, 1⟩,
    u_cameraPosition := ⟨0, 0, 15⟩,
    u_mass := 1, u_schwarzschildRadius := 1, u_diskInnerRadius := 1.5,
    u_diskOuterRadius := 8,
    u_enableStarfield := flagInt starfield,
    u_enablePlanets := flagInt planets,
    u_enableDisk := flagInt disk,
    u_enableLensing := flagInt lensing,
    u_stepSize := adaptiveStep lensing disk planets 0,
    u_maxSteps := if lensing then 220 else 120,
    u_farDist := 100,
    u_lensMaxRadius := if lensing then 8 * 2 + 6 else 0 }

/-- The centre of the central pixel of a 1281 x 721 framebuffer. -/
def centreFragCoord : Vec2 ℚ := ⟨640.5, 360.5⟩

/-- March locals half a unit from the origin, inside the horizon of a unit mass,
with some colour already accumulated. -/
def horizonState : MarchState ℚ :=
  { accColor := ⟨0.1, 0.2, 0.3⟩, transmittance := 0.5, p := ⟨0.5, 0, 0⟩,
    rayDir := ⟨-1, 0, 0⟩ }

/-- March locals just outside the first planet's centre `(18, 0, 0)` at time 0,
with some colour already accumulated. -/
def planetState : MarchState ℚ :=
  { accColor := ⟨0.1, 0.2, 0.3⟩, transmittance := 0.5, p := ⟨18.2, 0, 0⟩,
    rayDir := ⟨1, 0, 0⟩ }

/-- The block `sampleUniforms` with all features on and a horizon radius of 20, so
that `planetState` is inside the horizon as well as inside the first planet. -/
def wideHorizonUniforms : Uniforms ℚ :=
  { sampleUniforms true true true true with u_schwarzschildRadius := 20 }

/-- The uniform block both hosts upload for the default configuration (all features
on, step size 0.25, lens radius 22) except that the mass is 9/64, with the camera at
`(-3/16, 0, 0)` looking away from the origin: the central view ray `(0, 0, -1)` becomes
`(-1, 0, 0)`.  Every value is a binary fraction. -/
def cancellingUniforms : Uniforms ℚ :=
  { sampleUniforms true true true true with
    u_invViewMatrix := ⟨0, 0, -1, 0, 0, 1, 0, 0, 1, 0, 0, 0, -3/16, 0, 0, 1⟩,
    u_cameraPosition := ⟨-3/16, 0, 0⟩,
    u_mass := 9/64, u_schwarzschildRadius := 9/64, u_diskInnerRadius := 1.5 * (9/64) }

/-- The locals of `rayMarch` at its first loop head for the ray from `(-3/16, 0, 0)`
in the unit direction `(-1, 0, 0)`. -/
def cancellingState : MarchState ℚ :=
  { accColor := Vec3.splat 0.0, transmittance := 1.0, p := ⟨-3/16, 0, 0⟩, rayDir := ⟨-1, 0, 0⟩ }

/-- A matrix of determinant 0: the projection that drops the third coordinate. -/
def flatMatrix : Mat4 ℚ := ⟨1, 0, 0, 0, 0, 1, 0, 0, 0, 0, 0, 0, 0, 0, 0, 1⟩

/-- A matrix of determinant 2: the first coordinate is doubled. -/
def stretchMatrix : Mat4 ℚ := ⟨2, 0, 0, 0, 0, 1, 0, 0, 0, 0, 1, 0, 0, 0, 0, 1⟩

/-- The Windows simulation after forty presses of `Q` (mass + 0.1 each), six presses
of `S` (disk size - 1.0 each) and one `update`. -/
def extremeSimulation : BlackHoleSimulation ℚ :=
  ((fun s => BlackHoleSimulation.adjustDiskSize s (-1.0))^[6]
    ((fun s => BlackHoleSimulation.adjustMass s 0.1)^[40] initialSimulation)).update
      refBuiltins (1 / 60)

/-- The Linux parameters after forty presses of `=` and twelve presses of `[`. -/
def extremeParams : SimParams ℚ :=
  (key_callback Key.leftBracket Action.press)^[12]
    ((key_callback Key.equal Action.press)^[40] SimParams.default)

/-- Position `(3, 1, 0)` above the disk plane. -/
def abovePlane : Vec3 ℚ := ⟨3, 1, 0⟩

/-- Loop locals with the position `(3, -1, 0)` below the disk plane, nothing
accumulated yet. -/
def belowPlaneState : MarchState ℚ :=
  { accColor := Vec3.splat 0.0, transmittance := 1.0, p := ⟨3, -1, 0⟩, rayDir := ⟨0, -1, 0⟩ }

/-- The reference functions with sine and cosine clamped to `[-1, 1]` and `pow`
clamped below at 0, the ranges of the real functions. -/
def boundedBuiltins : Builtins ℚ :=
  { refBuiltins with
    sin := fun x => clamp (refSin x) (-1) 1,
    cos := fun x => clamp (refCos x) (-1) 1,
    pow := fun x y => max 0 (refPow x y) }

/-! ## Properties of the fragment shader -/

section ShaderProperties

variable {α : Type} [LinearOrderedField α] [FloorRing α]

/-- C1: with all four feature flags equal to 0, `main` writes the RGB colour
`(0, 0, 0)` for every fragment coordinate, camera, time and parameter values. -/
theorem main_all_flags_off_is_black (B : Builtins α) (u : Uniforms α) (fragCoord : Vec2 α)
    (hS : u.u_enableStarfield = 0) (hP : u.u_enablePlanets = 0)
    (hD : u.u_enableDisk = 0) (hL : u.u_enableLensing = 0) :
    (main B u fragCoord).rgb = ⟨0, 0, 0⟩ := by
  simp only [main, hS, hP, hD, hL, Vec4.splat, Vec4.rgb]
  norm_num

/-- C1 at a concrete input: the centre pixel under `sampleUniforms` with every
flag off is black. -/
theorem main_all_flags_off_is_black_witness :
    (sampleUniforms false false false false).u_enableStarfield = 0
      ∧ (sampleUniforms false false false false).u_enablePlanets = 0
      ∧ (sampleUniforms false false false false).u_enableDisk = 0
      ∧ (sampleUniforms false false false false).u_enableLensing = 0
      ∧ (main refBuiltins (sampleUniforms false false false false) centreFragCoord).rgb
          = ⟨0, 0, 0⟩ :=
  ⟨rfl, rfl, rfl, rfl,
    main_all_flags_off_is_black refBuiltins (sampleUniforms false false false false)
      centreFragCoord rfl rfl rfl rfl⟩

/-- C2: in a pass of the march loop that starts with lensing enabled, no planet hit
at `p` and `|p| < u_schwarzschildRadius + EPSILON`, the loop body returns the
accumulated colour unchanged, and so does `rayMarch` continued from that pass: no
disk sample and no starfield is added. -/
theorem horizon_returns_accumulated_colour (B : Builtins α) (u : Uniforms α)
    (s : MarchState α) (left : Nat) (i : Int)
    (hL : u.u_enableLensing = 1)
    (hPlanet : ¬ (getPlanetColor B u s.p).w > 0.5)
    (hHorizon : s.p.length B < u.u_schwarzschildRadius + EPSILON)
    (hi : i < u.u_maxSteps) :
    marchBody B u s = MarchResult.ret s.accColor
      ∧ marchLoop B u (left + 1) i s = s.accColor := by
  have hbody : marchBody B u s = MarchResult.ret s.accColor := by
    simp only [marchBody]
    rw [if_neg hPlanet, if_pos ⟨hL, hHorizon⟩]
  refine ⟨hbody, ?_⟩
  rw [marchLoop, if_neg (not_le.mpr hi), hbody]

/-- C2 at a concrete input: pass 5 of a march with lensing on and planets off, from
`horizonState` (inside the horizon), returns the colour accumulated so far. -/
theorem horizon_returns_accumulated_colour_witness :
    (sampleUniforms true false true true).u_enableLensing = 1
      ∧ ¬ (getPlanetColor refBuiltins (sampleUniforms true false true true) horizonState.p).w
            > 0.5
      ∧ horizonState.p.length refBuiltins
            < (sampleUniforms true false true true).u_schwarzschildRadius + EPSILON
      ∧ (5 : Int) < (sampleUniforms true false true true).u_maxSteps
      ∧ marchBody refBuiltins (sampleUniforms true false true true) horizonState
            = MarchResult.ret ⟨0.1, 0.2, 0.3⟩
      ∧ marchLoop refBuiltins (sampleUniforms true false true true) (294 + 1) 5 horizonState
            = ⟨0.1, 0.2, 0.3⟩ :=
  ⟨rfl, by decide!, by decide!, by decide!,
    horizon_returns_accumulated_colour refBuiltins (sampleUniforms true false true true)
      horizonState 294 5 rfl (by decide!) (by decide!) (by decide!)⟩

/-- C3 fails as stated: with only the starfield enabled, the colour `main` writes
for the centre pixel under `sampleUniforms` (ray direction `(1, 0, 0)`, time 0)
differs from `starField` of that ray direction: the red component of `starField`
is below 0.006, the red component written by `main` is above 0.09 (the shader
gamma-encodes the starfield before writing it). -/
theorem starfield_only_not_raw_starField :
    mainRayDir refBuiltins (sampleUniforms true false false false) centreFragCoord = ⟨1, 0, 0⟩
      ∧ (main refBuiltins (sampleUniforms true false false false) centreFragCoord).rgb
        ≠ starField refBuiltins
            (mainRayDir refBuiltins (sampleUniforms true false false false) centreFragCoord)
            (sampleUniforms true false false false).u_time
      ∧ 0.005 < (starField refBuiltins ⟨1, 0, 0⟩ 0).x
      ∧ (starField refBuiltins ⟨1, 0, 0⟩ 0).x < 0.006
      ∧ 0.09 < (main refBuiltins (sampleUniforms true false false false) centreFragCoord).x := by
  decide!

/-- C3 as amended: with the starfield flag 1 and the other three 0, `main` writes
`pow(starField(rd, t), vec3(0.4545))` with alpha 1, where `rd` is the ray
direction `main` computed for the pixel, passed to `starField` unmodified. -/
theorem starfield_only_is_gamma_of_starField (B : Builtins α) (u : Uniforms α)
    (fragCoord : Vec2 α)
    (hS : u.u_enableStarfield = 1) (hP : u.u_enablePlanets = 0)
    (hD : u.u_enableDisk = 0) (hL : u.u_enableLensing = 0) :
    main B u fragCoord
      = Vec4.ofVec3 ((starField B (mainRayDir B u fragCoord) u.u_time).pow B 0.4545) 1.0 := by
  simp [main, hS, hP, hD, hL]

/-- C3 as amended, at a concrete input: the centre pixel under `sampleUniforms` with
only the starfield on. -/
theorem starfield_only_is_gamma_of_starField_witness :
    main refBuiltins (sampleUniforms true false false false) centreFragCoord
      = Vec4.ofVec3
          ((starField refBuiltins
              (mainRayDir refBuiltins (sampleUniforms true false false false) centreFragCoord)
              (sampleUniforms true false false false).u_time).pow refBuiltins 0.4545) 1.0 :=
  starfield_only_is_gamma_of_starField refBuiltins (sampleUniforms true false false false)
    centreFragCoord rfl rfl rfl rfl

/-- C4 fails at the all-off input: for the centre pixel under `sampleUniforms` with
every flag off, `main` writes `vec4(0.0)`, whose alpha is 0 and not 1. -/
theorem main_all_flags_off_alpha_is_zero :
    main refBuiltins (sampleUniforms false false false false) centreFragCoord
        = ⟨0, 0, 0, 0⟩
      ∧ (main refBuiltins (sampleUniforms false false false false) centreFragCoord).w ≠ 1 := by
  decide!

/-- The alpha `main` writes is 0 when the four flags are all 0 and 1 otherwise. -/
theorem main_alpha (B : Builtins α) (u : Uniforms α) (fragCoord : Vec2 α) :
    (main B u fragCoord).w
      = if u.u_enableStarfield = 0 ∧ u.u_enablePlanets = 0 ∧ u.u_enableDisk = 0
            ∧ u.u_enableLensing = 0 then 0 else 1 := by
  unfold main
  by_cases h1 : u.u_enableStarfield = 1 ∧ u.u_enablePlanets = 0 ∧ u.u_enableDisk = 0
      ∧ u.u_enableLensing = 0
  · have h0 : ¬ (u.u_enableStarfield = 0 ∧ u.u_enablePlanets = 0 ∧ u.u_enableDisk = 0
        ∧ u.u_enableLensing = 0) := by
      rintro ⟨h, -⟩
      rw [h] at h1
      exact absurd h1.1 (by decide)
    simp only [if_pos h1, if_neg h0, Vec4.ofVec3]
    norm_num
  · by_cases h0 : u.u_enableStarfield = 0 ∧ u.u_enablePlanets = 0 ∧ u.u_enableDisk = 0
        ∧ u.u_enableLensing = 0
    · simp only [if_neg h1, if_pos h0, Vec4.splat]
      norm_num
    · simp only [if_neg h1, if_neg h0, Vec4.ofVec3]
      norm_num

end ShaderProperties

/-! ## Properties of the parameter-mutation interface -/

section HostProperties

variable {α : Type} [LinearOrderedField α]

/-- `Camera::reset` assigns every member, so its result does not depend on the
camera it starts from. -/
theorem Camera.reset_eq (B : Builtins α) (c c' : Camera α) :
    Camera.reset B c = Camera.reset B c' := rfl

/-- C5: `updateComputedValues` sets `schwarzschildRadius` to the mass and
`diskInnerRadius` to `1.5 * mass` and changes no other field, for every mass (so for
every mass in `[0.1, 5.0]`); the Linux frame loop uploads the same two values as
`u_schwarzschildRadius` and `u_diskInnerRadius`. -/
theorem derived_fields_follow_mass (B : Builtins α) (p : SimulationParams α)
    (params : SimParams α) (camera : CameraLinux α) (fps time : α) (width height : Int) :
    p.updateComputedValues.schwarzschildRadius = p.mass
      ∧ p.updateComputedValues.diskInnerRadius = 1.5 * p.mass
      ∧ p.updateComputedValues.mass = p.mass
      ∧ p.updateComputedValues.diskOuterRadius = p.diskOuterRadius
      ∧ p.updateComputedValues.starfieldEnabled = p.starfieldEnabled
      ∧ p.updateComputedValues.planetsEnabled = p.planetsEnabled
      ∧ p.updateComputedValues.diskEnabled = p.diskEnabled
      ∧ p.updateComputedValues.lensingEnabled = p.lensingEnabled
      ∧ (frameUniforms B params camera fps time width height).u_schwarzschildRadius
          = params.mass
      ∧ (frameUniforms B params camera fps time width height).u_diskInnerRadius
          = 1.5 * params.mass
      ∧ (params.mass = p.mass →
          (frameUniforms B params camera fps time width height).u_schwarzschildRadius
              = p.updateComputedValues.schwarzschildRadius
            ∧ (frameUniforms B params camera fps time width height).u_diskInnerRadius
              = p.updateComputedValues.diskInnerRadius) := by
  refine ⟨rfl, rfl, rfl, rfl, rfl, rfl, rfl, rfl, rfl, rfl, ?_⟩
  intro h
  simp [frameUniforms, SimulationParams.updateComputedValues, h]

/-- C5 at a concrete input: mass 2.5 gives radii 2.5 and 3.75 on both hosts. -/
theorem derived_fields_follow_mass_witness :
    ({ (SimulationParams.default : SimulationParams ℚ) with mass := 2.5 }
        ).updateComputedValues.schwarzschildRadius = 2.5
      ∧ ({ (SimulationParams.default : SimulationParams ℚ) with mass := 2.5 }
        ).updateComputedValues.diskInnerRadius = 3.75
      ∧ (frameUniforms refBuiltins { (SimParams.default : SimParams ℚ) with mass := 2.5 }
          CameraLinux.default 60 0 1280 720).u_schwarzschildRadius = 2.5
      ∧ (frameUniforms refBuiltins { (SimParams.default : SimParams ℚ) with mass := 2.5 }
          CameraLinux.default 60 0 1280 720).u_diskInnerRadius = 3.75 := by
  have h := derived_fields_follow_mass refBuiltins
    { (SimulationParams.default : SimulationParams ℚ) with mass := 2.5 }
    { (SimParams.default : SimParams ℚ) with mass := 2.5 } CameraLinux.default 60 0 1280 720
  refine ⟨h.1, ?_, h.2.2.2.2.2.2.2.2.1, ?_⟩
  · rw [h.2.1]; norm_num
  · rw [h.2.2.2.2.2.2.2.2.2.1]; norm_num

/-- C6 fails as stated: right after `adjustMass(0.1)` on the freshly constructed
simulation the mass is 1.1 while `schwarzschildRadius` is still 1.0 and
`diskInnerRadius` is still 1.5, so neither derived field matches the new mass. -/
theorem adjustMass_leaves_derived_fields_stale :
    (initialSimulation.adjustMass 0.1).params.mass = 1.1
      ∧ (initialSimulation.adjustMass 0.1).params.schwarzschildRadius = 1.0
      ∧ (initialSimulation.adjustMass 0.1).params.diskInnerRadius = 1.5
      ∧ (initialSimulation.adjustMass 0.1).params.schwarzschildRadius
          ≠ (initialSimulation.adjustMass 0.1).params.mass
      ∧ (initialSimulation.adjustMass 0.1).params.diskInnerRadius
          ≠ 1.5 * (initialSimulation.adjustMass 0.1).params.mass := by
  decide!

/-- C6 as amended: `adjustMass` leaves both derived fields as they were, and after
the `update` that follows it (the frame loop runs `update` before every render)
`schwarzschildRadius == mass` and `diskInnerRadius == 1.5 * mass`. -/
theorem derived_fields_recomputed_by_update (B : Builtins α) (s : BlackHoleSimulation α)
    (delta deltaTime : α) :
    (s.adjustMass delta).params.schwarzschildRadius = s.params.schwarzschildRadius
      ∧ (s.adjustMass delta).params.diskInnerRadius = s.params.diskInnerRadius
      ∧ ((s.adjustMass delta).update B deltaTime).params.mass = (s.adjustMass delta).params.mass
      ∧ ((s.adjustMass delta).update B deltaTime).params.schwarzschildRadius
          = ((s.adjustMass delta).update B deltaTime).params.mass
      ∧ ((s.adjustMass delta).update B deltaTime).params.diskInnerRadius
          = 1.5 * ((s.adjustMass delta).update B deltaTime).params.mass :=
  ⟨rfl, rfl, rfl, rfl, rfl⟩

/-- C7: `adjustMass(delta)` sets the mass to `max(0.1, min(5.0, mass + delta))`; the
new mass lies in `[0.1, 5.0]` and equals `mass + delta` when that is in the interval. -/
theorem adjustMass_clamps (s : BlackHoleSimulation α) (delta : α) :
    (s.adjustMass delta).params.mass = max 0.1 (min 5.0 (s.params.mass + delta))
      ∧ 0.1 ≤ (s.adjustMass delta).params.mass
      ∧ (s.adjustMass delta).params.mass ≤ 5.0
      ∧ (0.1 ≤ s.params.mass + delta → s.params.mass + delta ≤ 5.0 →
          (s.adjustMass delta).params.mass = s.params.mass + delta) := by
  refine ⟨rfl, ?_, ?_, ?_⟩
  · exact le_max_left _ _
  · show max (0.1 : α) (min 5.0 (s.params.mass + delta)) ≤ 5.0
    exact max_le (by norm_num) (min_le_left _ _)
  · intro h1 h2
    show max (0.1 : α) (min 5.0 (s.params.mass + delta)) = s.params.mass + delta
    rw [min_eq_right h2, max_eq_right h1]

/-- C7 at concrete inputs: from mass 1.0, `adjustMass(0.1)` gives 1.1,
`adjustMass(7)` gives 5.0 and `adjustMass(-3)` gives 0.1. -/
theorem adjustMass_clamps_witness :
    (initialSimulation.adjustMass 0.1).params.mass = 1.1
      ∧ (initialSimulation.adjustMass 7).params.mass = 5.0
      ∧ (initialSimulation.adjustMass (-3)).params.mass = 0.1 := by
  have h1 := adjustMass_clamps initialSimulation 0.1
  have h2 := adjustMass_clamps initialSimulation 7
  have h3 := adjustMass_clamps initialSimulation (-3)
  refine ⟨?_, ?_, ?_⟩
  · rw [h1.1]; decide!
  · rw [h2.1]; decide!
  · rw [h3.1]; decide!

/-- C8: `adjustDiskSize(delta)` sets `diskOuterRadius` to
`max(2.0, min(30.0, diskOuterRadius + delta))`, which lies in `[2.0, 30.0]`, and
leaves the mass and the four flags unchanged. -/
theorem adjustDiskSize_clamps (s : BlackHoleSimulation α) (delta : α) :
    (s.adjustDiskSize delta).params.diskOuterRadius
        = max 2.0 (min 30.0 (s.params.diskOuterRadius + delta))
      ∧ 2.0 ≤ (s.adjustDiskSize delta).params.diskOuterRadius
      ∧ (s.adjustDiskSize delta).params.diskOuterRadius ≤ 30.0
      ∧ (s.adjustDiskSize delta).params.mass = s.params.mass
      ∧ (s.adjustDiskSize delta).params.starfieldEnabled = s.params.starfieldEnabled
      ∧ (s.adjustDiskSize delta).params.planetsEnabled = s.params.planetsEnabled
      ∧ (s.adjustDiskSize delta).params.diskEnabled = s.params.diskEnabled
      ∧ (s.adjustDiskSize delta).params.lensingEnabled = s.params.lensingEnabled := by
  refine ⟨rfl, ?_, ?_, rfl, rfl, rfl, rfl, rfl⟩
  · exact le_max_left _ _
  · show max (2.0 : α) (min 30.0 (s.params.diskOuterRadius + delta)) ≤ 30.0
    exact max_le (by norm_num) (min_le_left _ _)

/-- C9: from every state, `resetToDefaults` yields mass 1.0, outer radius 8.0, all
four flags true, derived fields 1.0 and 1.5, and the camera at azimuth 0.5,
elevation 1.5, radius 15 with the origin as target. -/
theorem resetToDefaults_restores_defaults (B : Builtins α) (s : BlackHoleSimulation α) :
    (s.resetToDefaults B).params.mass = 1.0
      ∧ (s.resetToDefaults B).params.diskOuterRadius = 8.0
      ∧ (s.resetToDefaults B).params.starfieldEnabled = true
      ∧ (s.resetToDefaults B).params.planetsEnabled = true
      ∧ (s.resetToDefaults B).params.diskEnabled = true
      ∧ (s.resetToDefaults B).params.lensingEnabled = true
      ∧ (s.resetToDefaults B).params.schwarzschildRadius = 1.0
      ∧ (s.resetToDefaults B).params.diskInnerRadius = 1.5
      ∧ (s.resetToDefaults B).camera.azimuth = 0.5
      ∧ (s.resetToDefaults B).camera.elevation = 1.5
      ∧ (s.resetToDefaults B).camera.radius = 15
      ∧ (s.resetToDefaults B).camera.target = ⟨0, 0, 0⟩ := by
  refine ⟨rfl, rfl, rfl, rfl, rfl, rfl, rfl, rfl, rfl, rfl, ?_, rfl⟩
  show (15.0 : α) = 15
  norm_num

/-- C10: each of the four toggles negates its own flag and leaves the rest of the
parameter block (mass, outer radius, derived fields, the other three flags)
unchanged, and applying a toggle twice restores the state; the four toggle keys of
the Linux `key_callback` behave the same way on `SimParams`. -/
theorem toggles_are_independent_involutions (s : BlackHoleSimulation α) (params : SimParams α) :
    (s.toggleStarfield.params
        = { s.params with starfieldEnabled := !s.params.starfieldEnabled }
      ∧ s.togglePlanets.params = { s.params with planetsEnabled := !s.params.planetsEnabled }
      ∧ s.toggleDisk.params = { s.params with diskEnabled := !s.params.diskEnabled }
      ∧ s.toggleLensing.params = { s.params with lensingEnabled := !s.params.lensingEnabled })
    ∧ (s.toggleStarfield.toggleStarfield = s ∧ s.togglePlanets.togglePlanets = s
      ∧ s.toggleDisk.toggleDisk = s ∧ s.toggleLensing.toggleLensing = s)
    ∧ (key_callback Key.key1 Action.press params
        = { params with starfieldOn := !params.starfieldOn }
      ∧ key_callback Key.key2 Action.press params
        = { params with planetsOn := !params.planetsOn }
      ∧ key_callback Key.key3 Action.press params = { params with diskOn := !params.diskOn }
      ∧ key_callback Key.key4 Action.press params
        = { params with lensingOn := !params.lensingOn })
    ∧ (key_callback Key.key1 Action.press (key_callback Key.key1 Action.press params) = params
      ∧ key_callback Key.key2 Action.press (key_callback Key.key2 Action.press params) = params
      ∧ key_callback Key.key3 Action.press (key_callback Key.key3 Action.press params) = params
      ∧ key_callback Key.key4 Action.press (key_callback Key.key4 Action.press params)
          = params) := by
  obtain ⟨w, h, t, cam, ⟨m, d, f1, f2, f3, f4, rs, ri⟩, ft, fc, timer, fps⟩ := s
  obtain ⟨m', d', g1, g2, g3, g4⟩ := params
  simp [BlackHoleSimulation.toggleStarfield, BlackHoleSimulation.togglePlanets,
    BlackHoleSimulation.toggleDisk, BlackHoleSimulation.toggleLensing, key_callback]

end HostProperties

/-! ## Arithmetic of the GLSL helpers -/

section HelperLemmas

variable {α : Type} [LinearOrderedField α]

/-- `clamp(x, lo, hi)` lies between its bounds when `lo ≤ hi`. -/
theorem clamp_mem (x lo hi : α) (h : lo ≤ hi) : lo ≤ clamp x lo hi ∧ clamp x lo hi ≤ hi :=
  ⟨le_min (le_max_right _ _) h, min_le_right _ _⟩

/-- The host idiom `std::max(lo, std::min(hi, x))` is `clamp(x, lo, hi)` when `lo ≤ hi`. -/
theorem max_min_eq_clamp (x lo hi : α) (h : lo ≤ hi) : max lo (min hi x) = clamp x lo hi := by
  unfold clamp
  rcases le_total x lo with h1 | h1
  · rw [min_eq_right (le_trans h1 h), max_eq_left h1, max_eq_right h1, min_eq_left h]
  · rw [max_eq_left h1]
    rcases le_total x hi with h2 | h2
    · rw [min_eq_right h2, min_eq_left h2, max_eq_right h1]
    · rw [min_eq_left h2, min_eq_right h2, max_eq_right h]

/-- `smoothstep` takes values in `[0, 1]`. -/
theorem smoothstep_mem (e0 e1 x : α) : 0 ≤ smoothstep e0 e1 x ∧ smoothstep e0 e1 x ≤ 1 := by
  obtain ⟨h0, h1⟩ := clamp_mem ((x - e0) / (e1 - e0)) 0 1 zero_le_one
  unfold smoothstep
  generalize clamp ((x - e0) / (e1 - e0)) 0 1 = t at h0 h1
  constructor
  · show 0 ≤ t * t * (3 - 2 * t)
    exact mul_nonneg (mul_nonneg h0 h0) (by linarith)
  · show t * t * (3 - 2 * t) ≤ 1
    have h2 : 0 ≤ (1 - t) * (1 - t) * (1 + 2 * t) :=
      mul_nonneg (mul_nonneg (sub_nonneg.mpr h1) (sub_nonneg.mpr h1)) (by linarith)
    nlinarith [h2]

/-- `smoothstep(e0, e1, x)` is 1 from the upper edge on, when `e0 < e1`. -/
theorem smoothstep_eq_one (e0 e1 x : α) (h : e0 < e1) (hx : e1 ≤ x) : smoothstep e0 e1 x = 1 := by
  have hd : 0 < e1 - e0 := sub_pos.mpr h
  have h1 : 1 ≤ (x - e0) / (e1 - e0) := by
    rw [le_div_iff₀ hd]
    linarith
  unfold smoothstep clamp
  rw [max_eq_left (le_trans zero_le_one h1), min_eq_right h1]
  norm_num

/-- The blend weight `f * f * (3 - 2 f)` of a fractional part lies in `[0, 1]`. -/
theorem smooth_weight_mem (f : α) (h0 : 0 ≤ f) (h1 : f < 1) :
    0 ≤ f * f * (3 - 2 * f) ∧ f * f * (3 - 2 * f) ≤ 1 := by
  constructor
  · exact mul_nonneg (mul_nonneg h0 h0) (by linarith)
  · have h2 : 0 ≤ (1 - f) * (1 - f) * (1 + 2 * f) :=
      mul_nonneg (mul_nonneg (by linarith) (by linarith)) (by linarith)
    nlinarith [h2]

/-- A bilinear interpolation of four values of `[0, 1)` with weights in `[0, 1]` lies in
`[0, 1)`. -/
theorem specBilinear_mem (a b c d ux uy : α)
    (ha : 0 ≤ a ∧ a < 1) (hb : 0 ≤ b ∧ b < 1) (hc : 0 ≤ c ∧ c < 1) (hd : 0 ≤ d ∧ d < 1)
    (hx : 0 ≤ ux ∧ ux ≤ 1) (hy : 0 ≤ uy ∧ uy ≤ 1) :
    0 ≤ specBilinear a b c d ux uy ∧ specBilinear a b c d ux uy < 1 := by
  have hx' : 0 ≤ 1 - ux := by linarith [hx.2]
  have hy' : 0 ≤ 1 - uy := by linarith [hy.2]
  unfold specBilinear
  constructor
  · have t1 := mul_nonneg (mul_nonneg hx' hy') ha.1
    have t2 := mul_nonneg (mul_nonneg hx.1 hy') hb.1
    have t3 := mul_nonneg (mul_nonneg hx' hy.1) hc.1
    have t4 := mul_nonneg (mul_nonneg hx.1 hy.1) hd.1
    linarith
  · -- the four weights are non-negative and sum to one, every corner value is below one
    obtain ⟨m, hm1, hma, hmb, hmc, hmd⟩ : ∃ m : α, m < 1 ∧ a ≤ m ∧ b ≤ m ∧ c ≤ m ∧ d ≤ m :=
      ⟨max (max a b) (max c d),
        max_lt (max_lt ha.2 hb.2) (max_lt hc.2 hd.2),
        le_trans (le_max_left _ _) (le_max_left _ _),
        le_trans (le_max_right _ _) (le_max_left _ _),
        le_trans (le_max_left _ _) (le_max_right _ _),
        le_trans (le_max_right _ _) (le_max_right _ _)⟩
    have t1 := mul_le_mul_of_nonneg_left hma (mul_nonneg hx' hy')
    have t2 := mul_le_mul_of_nonneg_left hmb (mul_nonneg hx.1 hy')
    have t3 := mul_le_mul_of_nonneg_left hmc (mul_nonneg hx' hy.1)
    have t4 := mul_le_mul_of_nonneg_left hmd (mul_nonneg hx.1 hy.1)
    have e : (1 - ux) * (1 - uy) * m + ux * (1 - uy) * m + (1 - ux) * uy * m + ux * uy * m = m := by
      ring
    linarith

/-- The lensing block normalises `marchDeflectArg` when it is entered. -/
theorem marchDeflect_eq (B : Builtins α) (u : Uniforms α) (p rayDir : Vec3 α) :
    marchDeflect B u p rayDir
      = if u.u_enableLensing = 1 ∧ p.length B < u.u_lensMaxRadius then
          (marchDeflectArg B u p rayDir).normalizeGL B
        else rayDir := rfl

/-- Where `sqrt` is exact on the squared length of a non-zero vector, GLSL `normalize`
returns a vector whose dot product with itself is 1. -/
theorem normalizeGL_dot_self (B : Builtins α) (v : Vec3 α)
    (hs : B.sqrt (v.x * v.x + v.y * v.y + v.z * v.z)
            * B.sqrt (v.x * v.x + v.y * v.y + v.z * v.z)
          = v.x * v.x + v.y * v.y + v.z * v.z)
    (hv : v.x * v.x + v.y * v.y + v.z * v.z ≠ 0) :
    (v.normalizeGL B).dot (v.normalizeGL B) = 1 := by
  have hl : B.sqrt (v.x * v.x + v.y * v.y + v.z * v.z) ≠ 0 := by
    intro h0
    rw [h0, mul_zero] at hs
    exact hv hs.symm
  simp only [Vec3.normalizeGL, Vec3.divS, Vec3.dot, Vec3.length]
  generalize B.sqrt (v.x * v.x + v.y * v.y + v.z * v.z) = L at hs hl
  field_simp
  linarith [hs]

end HelperLemmas

/-! ## Properties of the quality controller -/

section ControllerProperties

variable {α : Type} [LinearOrderedField α]

/-- The step size the hosts compute is the clamped product of the specification. -/
theorem adaptiveStep_eq_spec (lensing disk planets : Bool) (fps : α) :
    adaptiveStep lensing disk planets fps = specStepSize lensing disk planets fps := by
  unfold adaptiveStep specStepSize
  simp only [max_min_eq_clamp _ _ _ (by norm_num : (0.15 : α) ≤ 0.8)]
  congr 1
  by_cases h0 : 0 < fps
  · by_cases h30 : fps < 30
    · cases lensing <;> cases disk <;> cases planets <;> norm_num [h0, h30]
    · by_cases h55 : 55 < fps
      · cases lensing <;> cases disk <;> cases planets <;> norm_num [h0, h30, h55]
      · cases lensing <;> cases disk <;> cases planets <;> norm_num [h0, h30, h55]
  · have h55 : ¬ (55 : α) < fps := fun h => h0 (lt_trans (by norm_num) h)
    cases lensing <;> cases disk <;> cases planets <;> norm_num [h0, h55]

/-- C11: on both hosts the uploaded step size is `clamp(b * d * p * f, 0.15, 0.8)`
with `b`, `d`, `p`, `f` as in `specStepSize`, for every flag combination and every
measured frame rate; hence it lies in `[0.15, 0.8]`. -/
theorem step_size_is_clamped_product (B : Builtins α) (sim : BlackHoleSimulation α)
    (params : SimParams α) (camera : CameraLinux α) (fps time : α) (width height : Int) :
    sim.updateUniforms.u_stepSize
        = specStepSize sim.params.lensingEnabled sim.params.diskEnabled
            sim.params.planetsEnabled sim.currentFPS
      ∧ (frameUniforms B params camera fps time width height).u_stepSize
        = specStepSize params.lensingOn params.diskOn params.planetsOn fps
      ∧ 0.15 ≤ sim.updateUniforms.u_stepSize
      ∧ sim.updateUniforms.u_stepSize ≤ 0.8
      ∧ 0.15 ≤ (frameUniforms B params camera fps time width height).u_stepSize
      ∧ (frameUniforms B params camera fps time width height).u_stepSize ≤ 0.8 := by
  have hw : sim.updateUniforms.u_stepSize
      = specStepSize sim.params.lensingEnabled sim.params.diskEnabled
          sim.params.planetsEnabled sim.currentFPS := adaptiveStep_eq_spec _ _ _ _
  have hl : (frameUniforms B params camera fps time width height).u_stepSize
      = specStepSize params.lensingOn params.diskOn params.planetsOn fps :=
    adaptiveStep_eq_spec _ _ _ _
  have hb : ∀ (l d p : Bool) (r : α),
      0.15 ≤ specStepSize l d p r ∧ specStepSize l d p r ≤ 0.8 :=
    fun _ _ _ _ => clamp_mem _ 0.15 0.8 (by norm_num)
  refine ⟨hw, hl, ?_, ?_, ?_, ?_⟩
  · rw [hw]; exact (hb _ _ _ _).1
  · rw [hw]; exact (hb _ _ _ _).2
  · rw [hl]; exact (hb _ _ _ _).1
  · rw [hl]; exact (hb _ _ _ _).2

/-- C11 at concrete inputs: the constructed Windows simulation uploads 0.25; the
Linux loop with lensing and planets off at 20 frames per second uploads
`0.45 * 1.15 * 1.2 = 0.621`. -/
theorem step_size_is_clamped_product_witness :
    initialSimulation.updateUniforms.u_stepSize = 0.25
      ∧ (frameUniforms refBuiltins
            { (SimParams.default : SimParams ℚ) with lensingOn := false, planetsOn := false }
            CameraLinux.default 20 0 1280 720).u_stepSize = 0.621 := by
  have h := step_size_is_clamped_product refBuiltins initialSimulation
    { (SimParams.default : SimParams ℚ) with lensingOn := false, planetsOn := false }
    CameraLinux.default 20 0 1280 720
  refine ⟨?_, ?_⟩
  · rw [h.1]; decide!
  · rw [h.2.1]; decide!

end ControllerProperties

/-! ## Properties of the march loop -/

section MarchProperties

variable {α : Type} [LinearOrderedField α] [FloorRing α]

/-- The recorded run returns the colour of `marchLoop`. -/
theorem marchRun_color (B : Builtins α) (u : Uniforms α) (left : Nat) :
    ∀ (i : Int) (s : MarchState α), (marchRun B u left i s).color = marchLoop B u left i s := by
  induction left with
  | zero => intro i s; rfl
  | succ n ih =>
    intro i s
    rw [marchRun, marchLoop]
    by_cases h : i ≥ u.u_maxSteps
    · rw [if_pos h, if_pos h]
    · rw [if_neg h, if_neg h]
      cases hb : marchBody B u s with
      | ret c => rfl
      | next s' => exact ih (i + 1) s'

/-- A run makes at most `left` passes and at most `u_maxSteps - i` passes. -/
theorem marchRun_passes_le (B : Builtins α) (u : Uniforms α) (left : Nat) :
    ∀ (i : Int) (s : MarchState α),
      (marchRun B u left i s).passes ≤ left
        ∧ ((marchRun B u left i s).passes : Int) ≤ max 0 (u.u_maxSteps - i) := by
  induction left with
  | zero =>
    intro i s
    exact ⟨le_refl 0, le_max_left _ _⟩
  | succ n ih =>
    intro i s
    rw [marchRun]
    by_cases h : i ≥ u.u_maxSteps
    · rw [if_pos h]
      exact ⟨Nat.zero_le _, le_max_left _ _⟩
    · rw [if_neg h]
      have hlt : i < u.u_maxSteps := not_le.mp h
      cases hb : marchBody B u s with
      | ret c =>
        refine ⟨Nat.succ_le_succ (Nat.zero_le n), ?_⟩
        show ((1 : Nat) : Int) ≤ max 0 (u.u_maxSteps - i)
        exact le_max_of_le_right (by push_cast; omega)
      | next s' =>
        obtain ⟨h1, h2⟩ := ih (i + 1) s'
        refine ⟨Nat.succ_le_succ h1, ?_⟩
        show (((marchRun B u n (i + 1) s').passes + 1 : Nat) : Int) ≤ max 0 (u.u_maxSteps - i)
        have h3 : max 0 (u.u_maxSteps - (i + 1)) = u.u_maxSteps - (i + 1) :=
          max_eq_right (by omega)
        rw [h3] at h2
        exact le_max_of_le_right (by push_cast; omega)

/-- Two caps that both allow `u_maxSteps - i` more passes give the same result. -/
theorem marchLoop_cap_irrelevant (B : Builtins α) (u : Uniforms α) (left : Nat) :
    ∀ (left' : Nat) (i : Int) (s : MarchState α),
      u.u_maxSteps - i ≤ left → u.u_maxSteps - i ≤ left' →
        marchLoop B u left i s = marchLoop B u left' i s := by
  induction left with
  | zero =>
    intro left' i s h _
    have hi : i ≥ u.u_maxSteps := by push_cast at h; omega
    cases left' with
    | zero => rfl
    | succ m => rw [marchLoop, marchLoop, if_pos hi]
  | succ n ih =>
    intro left' i s h h'
    cases left' with
    | zero =>
      have hi : i ≥ u.u_maxSteps := by push_cast at h'; omega
      rw [marchLoop, marchLoop, if_pos hi]
    | succ m =>
      rw [marchLoop, marchLoop]
      by_cases hi : i ≥ u.u_maxSteps
      · rw [if_pos hi, if_pos hi]
      · rw [if_neg hi, if_neg hi]
        cases hb : marchBody B u s with
        | ret c => rfl
        | next s' =>
          exact ih m (i + 1) s' (by push_cast at h ⊢; omega) (by push_cast at h' ⊢; omega)

/-- C12: `rayMarch` makes at most `min(300, u_maxSteps)` passes through its loop body
and returns (the recorded run returns the colour of `rayMarch`); both hosts upload
`u_maxSteps` = 220 with lensing and 120 without, so the march makes at most
`u_maxSteps` passes, and for `u_maxSteps ≤ 300` raising the compile-time cap
`MAX_STEPS` does not change the result. -/
theorem rayMarch_pass_bound (B : Builtins α) (u : Uniforms α) (rayOrigin rayDir : Vec3 α)
    (sim : BlackHoleSimulation α) (params : SimParams α) (camera : CameraLinux α)
    (fps time : α) (width height : Int) (extra : Nat) :
    (rayMarchRun B u rayOrigin rayDir).color = rayMarch B u rayOrigin rayDir
      ∧ (rayMarchRun B u rayOrigin rayDir).passes ≤ min 300 u.u_maxSteps.toNat
      ∧ sim.updateUniforms.u_maxSteps = (if sim.params.lensingEnabled then 220 else 120)
      ∧ (frameUniforms B params camera fps time width height).u_maxSteps
          = (if params.lensingOn then 220 else 120)
      ∧ ((rayMarchRun B sim.updateUniforms rayOrigin rayDir).passes : Int)
          ≤ sim.updateUniforms.u_maxSteps
      ∧ ((rayMarchRun B (frameUniforms B params camera fps time width height)
            rayOrigin rayDir).passes : Int)
          ≤ (frameUniforms B params camera fps time width height).u_maxSteps
      ∧ (u.u_maxSteps ≤ 300 →
          marchLoop B u (MAX_STEPS + extra) 0
              { accColor := Vec3.splat 0.0, transmittance := 1.0, p := rayOrigin,
                rayDir := rayDir }
            = rayMarch B u rayOrigin rayDir) := by
  have bound : ∀ v : Uniforms α, 0 ≤ v.u_maxSteps →
      ((rayMarchRun B v rayOrigin rayDir).passes : Int) ≤ v.u_maxSteps := by
    intro v hv
    have h := (marchRun_passes_le B v MAX_STEPS 0
      { accColor := Vec3.splat 0.0, transmittance := 1.0, p := rayOrigin,
        rayDir := rayDir }).2
    rw [sub_zero, max_eq_right hv] at h
    exact h
  have hw : sim.updateUniforms.u_maxSteps = (if sim.params.lensingEnabled then 220 else 120) :=
    rfl
  have hl : (frameUniforms B params camera fps time width height).u_maxSteps
      = (if params.lensingOn then 220 else 120) := rfl
  refine ⟨marchRun_color B u MAX_STEPS 0 _, ?_, hw, hl, ?_, ?_, ?_⟩
  · obtain ⟨h1, h2⟩ := marchRun_passes_le B u MAX_STEPS 0
      { accColor := Vec3.splat 0.0, transmittance := 1.0, p := rayOrigin, rayDir := rayDir }
    rw [sub_zero] at h2
    have h1' : (rayMarchRun B u rayOrigin rayDir).passes ≤ 300 := h1
    have h2' : ((rayMarchRun B u rayOrigin rayDir).passes : Int) ≤ max 0 u.u_maxSteps := h2
    refine le_min h1' ?_
    rcases le_total u.u_maxSteps 0 with h | h
    · rw [max_eq_left h] at h2'
      omega
    · rw [max_eq_right h] at h2'
      omega
  · apply bound
    rw [hw]
    split_ifs <;> decide
  · apply bound
    rw [hl]
    split_ifs <;> decide
  · intro h
    exact marchLoop_cap_irrelevant B u (MAX_STEPS + extra) MAX_STEPS 0 _
      (by simp only [MAX_STEPS]; push_cast; omega) (by simp only [MAX_STEPS]; push_cast; omega)

/-- C12 at a concrete input: a march that starts inside the horizon makes one pass. -/
theorem rayMarch_pass_bound_witness :
    (rayMarchRun refBuiltins (sampleUniforms true false true true) ⟨0.5, 0, 0⟩
        ⟨1, 0, 0⟩).passes = 1
      ∧ (rayMarchRun refBuiltins (sampleUniforms true false true true) ⟨0.5, 0, 0⟩
        ⟨1, 0, 0⟩).passes ≤ min 300 (sampleUniforms true false true true).u_maxSteps.toNat
      ∧ (rayMarchRun refBuiltins (sampleUniforms true false true true) ⟨0.5, 0, 0⟩
        ⟨1, 0, 0⟩).color = rayMarch refBuiltins (sampleUniforms true false true true)
          ⟨0.5, 0, 0⟩ ⟨1, 0, 0⟩ := by
  have h := rayMarch_pass_bound refBuiltins (sampleUniforms true false true true)
    ⟨0.5, 0, 0⟩ ⟨1, 0, 0⟩ initialSimulation SimParams.default CameraLinux.default 0 0 1280 720 0
  exact ⟨by decide!, h.2.1, h.1⟩

/-- The alpha of a disk sample is `0.33 * falloff * c` with `c` clamped to `[0.1, 1]`. -/
theorem getDiskSample_alpha_eq (B : Builtins α) (u : Uniforms α) (p : Vec3 α) :
    ∃ c : α, 0.1 ≤ c ∧ c ≤ 1.0 ∧ (getDiskSample B u p).w
      = 0.33 * (1.0 - smoothstep u.u_diskInnerRadius u.u_diskOuterRadius
          (Vec2.length B ⟨p.x, p.z⟩)) * c :=
  ⟨_, (clamp_mem _ 0.1 1.0 (by norm_num)).1, (clamp_mem _ 0.1 1.0 (by norm_num)).2, rfl⟩

/-- The alpha of a disk sample lies in `[0, 0.33]`. -/
theorem getDiskSample_alpha_mem (B : Builtins α) (u : Uniforms α) (p : Vec3 α) :
    0 ≤ (getDiskSample B u p).w ∧ (getDiskSample B u p).w ≤ 0.33 := by
  obtain ⟨c, hc0, hc1, hw⟩ := getDiskSample_alpha_eq B u p
  obtain ⟨hs0, hs1⟩ := smoothstep_mem u.u_diskInnerRadius u.u_diskOuterRadius
    (Vec2.length B ⟨p.x, p.z⟩)
  rw [hw]
  generalize smoothstep u.u_diskInnerRadius u.u_diskOuterRadius (Vec2.length B ⟨p.x, p.z⟩) = f
    at hs0 hs1
  have hc0' : (0 : α) ≤ c := le_trans (by norm_num) hc0
  have hc1' : c ≤ 1 := by norm_num at hc1; exact hc1
  have hf : (0 : α) ≤ 1.0 - f := by norm_num; exact hs1
  have hf1 : (1.0 : α) - f ≤ 1 := by norm_num; exact hs0
  constructor
  · exact mul_nonneg (mul_nonneg (by norm_num) hf) hc0'
  · calc (0.33 : α) * (1.0 - f) * c ≤ 0.33 * 1 * 1 := by
          apply mul_le_mul _ hc1' hc0' (by norm_num)
          exact mul_le_mul_of_nonneg_left hf1 (by norm_num)
      _ = 0.33 := by norm_num

/-- How the transmittance of two consecutive loop heads is related. -/
theorem marchBody_next_transmittance (B : Builtins α) (u : Uniforms α) (s s' : MarchState α)
    (h : marchBody B u s = MarchResult.next s') :
    s'.transmittance = s.transmittance
      ∨ ∃ hit : Vec3 α, s'.transmittance
          = s.transmittance * (1.0 - (getDiskSample B u hit).w) := by
  simp only [marchBody, marchDisk, marchEscape] at h
  split_ifs at h <;> first
    | (cases h; exact Or.inl rfl)
    | (cases h; exact Or.inr ⟨_, rfl⟩)

/-- Multiplying a non-negative transmittance by `1 - alpha` keeps it non-negative and
does not increase it. -/
theorem mul_one_sub_alpha_mem (B : Builtins α) (u : Uniforms α) (hit : Vec3 α) (t : α)
    (ht : 0 ≤ t) :
    0 ≤ t * (1.0 - (getDiskSample B u hit).w) ∧ t * (1.0 - (getDiskSample B u hit).w) ≤ t := by
  obtain ⟨h0, h1⟩ := getDiskSample_alpha_mem B u hit
  have h2 : (0 : α) ≤ 1.0 - (getDiskSample B u hit).w := by
    have : (0.33 : α) ≤ 1.0 := by norm_num
    linarith
  have h3 : (1.0 : α) - (getDiskSample B u hit).w ≤ 1 := by
    have : (1.0 : α) = 1 := by norm_num
    linarith
  exact ⟨mul_nonneg ht h2, mul_le_of_le_one_right ht h3⟩

/-- From a non-negative transmittance, every loop head of a run has a transmittance
between 0 and the initial one, and consecutive heads satisfy the step relation. -/
theorem marchRun_states (B : Builtins α) (u : Uniforms α) (left : Nat) :
    ∀ (i : Int) (s : MarchState α), 0 ≤ s.transmittance →
      (marchRun B u left i s).states.head? = some s
        ∧ (∀ x ∈ (marchRun B u left i s).states,
            0 ≤ x.transmittance ∧ x.transmittance ≤ s.transmittance)
        ∧ List.Chain' (fun a b : MarchState α =>
              b.transmittance ≤ a.transmittance
                ∧ (b.transmittance = a.transmittance
                  ∨ ∃ hit : Vec3 α, b.transmittance
                      = a.transmittance * (1.0 - (getDiskSample B u hit).w)))
            (marchRun B u left i s).states := by
  induction left with
  | zero =>
    intro i s hs
    refine ⟨rfl, ?_, List.chain'_singleton s⟩
    intro x hx
    rw [marchRun, List.mem_singleton] at hx
    subst hx
    exact ⟨hs, le_refl _⟩
  | succ n ih =>
    intro i s hs
    rw [marchRun]
    have single : (∀ x ∈ [s], 0 ≤ x.transmittance ∧ x.transmittance ≤ s.transmittance) := by
      intro x hx
      rw [List.mem_singleton] at hx
      subst hx
      exact ⟨hs, le_refl _⟩
    by_cases h : i ≥ u.u_maxSteps
    · rw [if_pos h]
      exact ⟨rfl, single, List.chain'_singleton s⟩
    · rw [if_neg h]
      cases hb : marchBody B u s with
      | ret c => exact ⟨rfl, single, List.chain'_singleton s⟩
      | next s' =>
        have hrel := marchBody_next_transmittance B u s s' hb
        have hle : 0 ≤ s'.transmittance ∧ s'.transmittance ≤ s.transmittance := by
          rcases hrel with h1 | ⟨hit, h1⟩
          · rw [h1]; exact ⟨hs, le_refl _⟩
          · rw [h1]; exact mul_one_sub_alpha_mem B u hit _ hs
        obtain ⟨hhead, hall, hchain⟩ := ih (i + 1) s' hle.1
        refine ⟨rfl, ?_, ?_⟩
        · intro x hx
          show 0 ≤ x.transmittance ∧ x.transmittance ≤ s.transmittance
          rcases List.mem_cons.mp hx with hx | hx
          · subst hx; exact ⟨hs, le_refl _⟩
          · exact ⟨(hall x hx).1, le_trans (hall x hx).2 hle.2⟩
        · show List.Chain' _ (s :: (marchRun B u n (i + 1) s').states)
          rw [List.chain'_cons']
          refine ⟨?_, hchain⟩
          intro y hy
          rw [hhead] at hy
          cases hy
          exact ⟨hle.2, hrel⟩

/-- C13: in every run of `rayMarch` the transmittance is 1 at the first loop head, lies
in `[0, 1]` at every loop head, and from one loop head to the next it does not
increase and is either unchanged or multiplied by `1 - alpha` of a disk sample; the
same multiplication inside a pass that returns also stays in `[0, 1]`. -/
theorem transmittance_invariant (B : Builtins α) (u : Uniforms α) (rayOrigin rayDir : Vec3 α) :
    (rayMarchRun B u rayOrigin rayDir).color = rayMarch B u rayOrigin rayDir
      ∧ (rayMarchRun B u rayOrigin rayDir).states.head?.map MarchState.transmittance = some 1
      ∧ (∀ x ∈ (rayMarchRun B u rayOrigin rayDir).states,
          0 ≤ x.transmittance ∧ x.transmittance ≤ 1)
      ∧ List.Chain' (fun a b : MarchState α =>
            b.transmittance ≤ a.transmittance
              ∧ (b.transmittance = a.transmittance
                ∨ ∃ hit : Vec3 α, b.transmittance
                    = a.transmittance * (1.0 - (getDiskSample B u hit).w)))
          (rayMarchRun B u rayOrigin rayDir).states
      ∧ (∀ (hit : Vec3 α) (t : α), 0 ≤ t → t ≤ 1 →
          0 ≤ t * (1.0 - (getDiskSample B u hit).w)
            ∧ t * (1.0 - (getDiskSample B u hit).w) ≤ 1) := by
  have one : (1.0 : α) = 1 := by norm_num
  obtain ⟨hhead, hall, hchain⟩ := marchRun_states B u MAX_STEPS 0
    { accColor := Vec3.splat 0.0, transmittance := 1.0, p := rayOrigin, rayDir := rayDir }
    (by show (0 : α) ≤ 1.0; norm_num)
  refine ⟨marchRun_color B u MAX_STEPS 0 _, ?_, ?_, hchain, ?_⟩
  · show ((marchRun B u MAX_STEPS 0 _).states.head?).map MarchState.transmittance = some 1
    rw [hhead]
    show some (1.0 : α) = some 1
    rw [one]
  · intro x hx
    have h := hall x hx
    exact ⟨h.1, le_trans h.2 (le_of_eq one)⟩
  · intro hit t h0 h1
    have h := mul_one_sub_alpha_mem B u hit t h0
    exact ⟨h.1, le_trans h.2 h1⟩

/-- C13 at a concrete input: a straight ray from `(3, 1, 4)` down through the disk
(lensing off).  The first three loop heads are above the disk with transmittance 1;
the ray crosses the disk at polar radius 5 in the third pass, after which the
transmittance is below 1. -/
theorem transmittance_invariant_witness :
    (rayMarchRun refBuiltins (sampleUniforms true true true false) ⟨3, 1, 4⟩
        ⟨0, -1, 0⟩).states.head?.map MarchState.transmittance = some 1
      ∧ (((rayMarchRun refBuiltins (sampleUniforms true true true false) ⟨3, 1, 4⟩
          ⟨0, -1, 0⟩).states.take 5).map
            (fun s => decide (s.transmittance = 1 ∧ s.p.y > 0))
          = [true, true, true, false, false])
      ∧ (∀ x ∈ (rayMarchRun refBuiltins (sampleUniforms true true true false) ⟨3, 1, 4⟩
          ⟨0, -1, 0⟩).states, 0 ≤ x.transmittance ∧ x.transmittance ≤ 1) := by
  have h := transmittance_invariant refBuiltins (sampleUniforms true true true false)
    ⟨3, 1, 4⟩ ⟨0, -1, 0⟩
  exact ⟨h.2.1, by decide!, h.2.2.1⟩

/-- C14: in a pass that starts with a planet hit at `p` (`getPlanetColor(p).w > 0.5`),
whatever the lensing flag and the distance to the horizon, the loop body returns
`accColor + transmittance * hitColor.rgb`, and so does `rayMarch` continued from
that pass: the horizon test, the disk block and the starfield are not reached. -/
theorem planet_hit_returns_composite (B : Builtins α) (u : Uniforms α)
    (s : MarchState α) (left : Nat) (i : Int)
    (hHit : (getPlanetColor B u s.p).w > 0.5)
    (hi : i < u.u_maxSteps) :
    marchBody B u s
        = MarchResult.ret (s.accColor + (getPlanetColor B u s.p).rgb.scale s.transmittance)
      ∧ marchLoop B u (left + 1) i s
        = s.accColor + (getPlanetColor B u s.p).rgb.scale s.transmittance := by
  have hbody : marchBody B u s
      = MarchResult.ret (s.accColor + (getPlanetColor B u s.p).rgb.scale s.transmittance) := by
    simp only [marchBody]
    rw [if_pos hHit]
  refine ⟨hbody, ?_⟩
  rw [marchLoop, if_neg (not_le.mpr hi), hbody]

/-- C14 at a concrete input: `planetState` lies inside the first planet and, under
`wideHorizonUniforms`, inside the horizon with lensing on; the pass returns the
planet composite `(0.1, 0.2, 0.3) + 0.5 * (0.24, 0.09, 0.03)`. -/
theorem planet_hit_returns_composite_witness :
    (getPlanetColor refBuiltins wideHorizonUniforms planetState.p).w > 0.5
      ∧ (5 : Int) < wideHorizonUniforms.u_maxSteps
      ∧ wideHorizonUniforms.u_enableLensing = 1
      ∧ planetState.p.length refBuiltins < wideHorizonUniforms.u_schwarzschildRadius + EPSILON
      ∧ getPlanetColor refBuiltins wideHorizonUniforms planetState.p = ⟨0.24, 0.09, 0.03, 1⟩
      ∧ marchBody refBuiltins wideHorizonUniforms planetState
          = MarchResult.ret ⟨0.1 + 0.5 * 0.24, 0.2 + 0.5 * 0.09, 0.3 + 0.5 * 0.03⟩
      ∧ marchLoop refBuiltins wideHorizonUniforms (294 + 1) 5 planetState
          = ⟨0.1 + 0.5 * 0.24, 0.2 + 0.5 * 0.09, 0.3 + 0.5 * 0.03⟩ := by
  have h := planet_hit_returns_composite refBuiltins wideHorizonUniforms planetState 294 5
    (by decide!) (by decide!)
  have hc : getPlanetColor refBuiltins wideHorizonUniforms planetState.p
      = ⟨0.24, 0.09, 0.03, 1⟩ := by decide!
  refine ⟨by decide!, by decide!, rfl, by decide!, hc, ?_, ?_⟩
  · rw [h.1, hc]; decide!
  · rw [h.2, hc]; decide!

/-- C15: `getPlanetColor` returns `(0, 0, 0, 0)` when `u_enablePlanets` is 0; otherwise
its alpha is 1 exactly when `p` is closer than 0.4 to `specPlanet1Pos` or closer than
1.0 to `specPlanet2Pos`, and the result is `(0, 0, 0, 0)` when it is neither. -/
theorem getPlanetColor_hit_iff (B : Builtins α) (u : Uniforms α) (p : Vec3 α) :
    (u.u_enablePlanets = 0 → getPlanetColor B u p = ⟨0, 0, 0, 0⟩)
      ∧ (u.u_enablePlanets ≠ 0 →
          ((getPlanetColor B u p).w = 1
              ↔ (p - specPlanet1Pos B u.u_time).length B < 0.4
                ∨ (p - specPlanet2Pos B u.u_time).length B < 1.0)
            ∧ (¬ ((p - specPlanet1Pos B u.u_time).length B < 0.4
                  ∨ (p - specPlanet2Pos B u.u_time).length B < 1.0)
                → getPlanetColor B u p = ⟨0, 0, 0, 0⟩)) := by
  have e1 : specPlanet1Pos B u.u_time
      = ⟨B.cos (u.u_time * planet1_speed) * planet1_orbitRadius, 0.0,
         B.sin (u.u_time * planet1_speed) * planet1_orbitRadius⟩ := by
    simp only [specPlanet1Pos, planet1_speed, planet1_orbitRadius]
    rw [mul_comm (0.1 : α) u.u_time]
    congr 1 <;> norm_num <;> ring
  have e2 : specPlanet2Pos B u.u_time
      = ⟨B.cos (u.u_time * planet2_speed + 2.5) * planet2_orbitRadius, 0.0,
         B.sin (u.u_time * planet2_speed + 2.5) * planet2_orbitRadius⟩ := by
    simp only [specPlanet2Pos, planet2_speed, planet2_orbitRadius]
    rw [mul_comm (0.05 : α) u.u_time]
    congr 1 <;> norm_num <;> ring
  have z : (Vec4.splat (0.0 : α)) = ⟨0, 0, 0, 0⟩ := by
    simp only [Vec4.splat]; norm_num
  constructor
  · intro h
    simp only [getPlanetColor, if_pos h, z]
  · intro h
    rw [e1, e2]
    simp only [getPlanetColor, if_neg h]
    by_cases h1 : (p - (⟨B.cos (u.u_time * planet1_speed) * planet1_orbitRadius, 0.0,
         B.sin (u.u_time * planet1_speed) * planet1_orbitRadius⟩ : Vec3 α)).length B
         < planet1_radius
    · have h1' := h1
      simp only [planet1_radius] at h1'
      simp only [if_pos h1, Vec4.ofVec3]
      exact ⟨⟨fun _ => Or.inl h1', fun _ => by norm_num⟩, fun hn => absurd (Or.inl h1') hn⟩
    · have h1' := h1
      simp only [planet1_radius] at h1'
      simp only [if_neg h1]
      by_cases h2 : (p - (⟨B.cos (u.u_time * planet2_speed + 2.5) * planet2_orbitRadius, 0.0,
           B.sin (u.u_time * planet2_speed + 2.5) * planet2_orbitRadius⟩ : Vec3 α)).length B
           < planet2_radius
      · have h2' := h2
        simp only [planet2_radius] at h2'
        simp only [if_pos h2, Vec4.ofVec3]
        exact ⟨⟨fun _ => Or.inr h2', fun _ => by norm_num⟩, fun hn => absurd (Or.inr h2') hn⟩
      · have h2' := h2
        simp only [planet2_radius] at h2'
        simp only [if_neg h2, z]
        refine ⟨⟨fun h0 => absurd h0 (by norm_num), fun h0 => ?_⟩, fun _ => trivial⟩
        rcases h0 with h0 | h0
        · exact absurd h0 h1'
        · exact absurd h0 h2'

/-- C15 at concrete inputs (time 0, first planet at `(18, 0, 0)`): a hit at
`(18.2, 0, 0)`, no hit at the origin, no hit anywhere with the flag off. -/
theorem getPlanetColor_hit_iff_witness :
    (getPlanetColor refBuiltins (sampleUniforms true true true true) ⟨18.2, 0, 0⟩).w = 1
      ∧ getPlanetColor refBuiltins (sampleUniforms true true true true) ⟨0, 0, 0⟩
          = ⟨0, 0, 0, 0⟩
      ∧ getPlanetColor refBuiltins (sampleUniforms true false true true) ⟨18.2, 0, 0⟩
          = ⟨0, 0, 0, 0⟩ := by
  have hon := (getPlanetColor_hit_iff refBuiltins (sampleUniforms true true true true)
    ⟨18.2, 0, 0⟩).2 (by decide!)
  have hmiss := (getPlanetColor_hit_iff refBuiltins (sampleUniforms true true true true)
    ⟨0, 0, 0⟩).2 (by decide!)
  have hoff := (getPlanetColor_hit_iff refBuiltins (sampleUniforms true false true true)
    ⟨18.2, 0, 0⟩).1 (by decide!)
  exact ⟨hon.1.mpr (by decide!), hmiss.2 (by decide!), hoff⟩

/-- C16: when `u_diskInnerRadius < u_diskOuterRadius`, the alpha `getDiskSample`
returns lies in `[0, 0.33]`, hence in `[0, 1]`, and is 0 wherever the polar radius
`length(p.xz)` is at least `u_diskOuterRadius`. -/
theorem getDiskSample_alpha_bounds (B : Builtins α) (u : Uniforms α) (p : Vec3 α)
    (h : u.u_diskInnerRadius < u.u_diskOuterRadius) :
    0 ≤ (getDiskSample B u p).w
      ∧ (getDiskSample B u p).w ≤ 0.33
      ∧ (getDiskSample B u p).w ≤ 1
      ∧ (u.u_diskOuterRadius ≤ Vec2.length B ⟨p.x, p.z⟩ → (getDiskSample B u p).w = 0) := by
  obtain ⟨h0, h1⟩ := getDiskSample_alpha_mem B u p
  refine ⟨h0, h1, le_trans h1 (by norm_num), ?_⟩
  intro hr
  obtain ⟨c, -, -, hw⟩ := getDiskSample_alpha_eq B u p
  rw [hw, smoothstep_eq_one _ _ _ h hr]
  norm_num

/-- C16 at concrete inputs (inner radius 1.5, outer radius 8): a positive alpha of at
most 0.33 at polar radius 5, alpha 0 at polar radius 10. -/
theorem getDiskSample_alpha_bounds_witness :
    (sampleUniforms true true true true).u_diskInnerRadius
        < (sampleUniforms true true true true).u_diskOuterRadius
      ∧ 0 ≤ (getDiskSample refBuiltins (sampleUniforms true true true true) ⟨3, 0, 4⟩).w
      ∧ (getDiskSample refBuiltins (sampleUniforms true true true true) ⟨3, 0, 4⟩).w ≤ 0.33
      ∧ 0 < (getDiskSample refBuiltins (sampleUniforms true true true true) ⟨3, 0, 4⟩).w
      ∧ (getDiskSample refBuiltins (sampleUniforms true true true true) ⟨6, 0, 8⟩).w = 0 := by
  have h := getDiskSample_alpha_bounds refBuiltins (sampleUniforms true true true true)
    ⟨3, 0, 4⟩ (by decide!)
  have h' := getDiskSample_alpha_bounds refBuiltins (sampleUniforms true true true true)
    ⟨6, 0, 8⟩ (by decide!)
  exact ⟨by decide!, h.1, h.2.1, by decide!, h'.2.2.2 (by decide!)⟩

/-- C17 fails at this input: mass 9/64 (inside `[0.1, 5.0]`), lensing on, the step
size 0.25 both hosts upload for the default configuration, ray origin `(-3/16, 0, 0)`
and unit direction `(-1, 0, 0)`.  The first pass has no planet hit, is outside the
horizon (radius 9/64 + 0.001) and inside the lens radius, its step length is 0.25, and
the lensing block computes `rayDir + acceleration * step` as exactly `(0, 0, 0)`
(`acceleration = (4, 0, 0)`): the vector handed to `normalize` has length 0, so the
new direction is the quotient of the zero vector by 0.  Every intermediate value is a
binary fraction with a few digits, so the same holds in single precision. -/
theorem deflection_can_cancel_direction :
    cancellingUniforms.u_mass = 9 / 64
      ∧ 0.1 ≤ cancellingUniforms.u_mass ∧ cancellingUniforms.u_mass ≤ 5.0
      ∧ cancellingUniforms.u_enableLensing = 1
      ∧ cancellingUniforms.u_stepSize = initialSimulation.updateUniforms.u_stepSize
      ∧ cancellingUniforms.u_stepSize = 1 / 4
      ∧ Vec3.length refBuiltins cancellingState.rayDir = 1
      ∧ ¬ (getPlanetColor refBuiltins cancellingUniforms cancellingState.p).w > 0.5
      ∧ ¬ (Vec3.length refBuiltins cancellingState.p
            < cancellingUniforms.u_schwarzschildRadius + EPSILON)
      ∧ Vec3.length refBuiltins cancellingState.p < cancellingUniforms.u_lensMaxRadius
      ∧ marchStepSize refBuiltins cancellingUniforms cancellingState.p = 1 / 4
      ∧ marchDeflectArg refBuiltins cancellingUniforms cancellingState.p cancellingState.rayDir
          = ⟨0, 0, 0⟩
      ∧ Vec3.length refBuiltins
          (marchDeflectArg refBuiltins cancellingUniforms cancellingState.p
            cancellingState.rayDir) = 0
      ∧ marchDeflect refBuiltins cancellingUniforms cancellingState.p cancellingState.rayDir
          = Vec3.divS ⟨0, 0, 0⟩ 0 := by
  decide!

/-- C18: leaving the loop by exhaustion (the counter reached `u_maxSteps`, or the cap)
returns `accColor + transmittance * starField(rayDir, t)` when `u_enableStarfield`
is 1 and `accColor` otherwise, and the escape branch returns this same expression
of its state. -/
theorem exhaustion_same_as_escape (B : Builtins α) (u : Uniforms α) (s : MarchState α)
    (left : Nat) (i : Int) :
    marchExhausted B u s
        = (if u.u_enableStarfield = 1 then
            s.accColor + (starField B s.rayDir u.u_time).scale s.transmittance
          else s.accColor)
      ∧ marchLoop B u 0 i s = marchExhausted B u s
      ∧ (u.u_maxSteps ≤ i → marchLoop B u left i s = marchExhausted B u s)
      ∧ (s.p.length B > marchFarDist u →
          marchEscape B u s = MarchResult.ret (marchExhausted B u s)) := by
  refine ⟨rfl, rfl, ?_, ?_⟩
  · intro h
    cases left with
    | zero => rfl
    | succ n => rw [marchLoop, if_pos h]
  · intro h
    simp only [marchEscape, if_pos h, marchExhausted]
    split_ifs <;> rfl

/-- C18 at a concrete input: with the starfield off, a loop whose counter has reached
`u_maxSteps` = 220 returns the accumulated colour of `horizonState`, and so does the
escape branch from the same locals moved beyond `u_farDist`. -/
theorem exhaustion_same_as_escape_witness :
    marchLoop refBuiltins (sampleUniforms false true true true) 80 220 horizonState
        = ⟨0.1, 0.2, 0.3⟩
      ∧ marchEscape refBuiltins (sampleUniforms false true true true)
          { horizonState with p := ⟨101, 0, 0⟩ } = MarchResult.ret ⟨0.1, 0.2, 0.3⟩ := by
  have h := exhaustion_same_as_escape refBuiltins (sampleUniforms false true true true)
    horizonState 80 220
  have h' := exhaustion_same_as_escape refBuiltins (sampleUniforms false true true true)
    { horizonState with p := ⟨101, 0, 0⟩ } 80 220
  refine ⟨?_, ?_⟩
  · rw [h.2.2.1 (by decide!)]; decide!
  · rw [h'.2.2.2 (by decide!)]; decide!

end MarchProperties

/-! ## Properties of the noise functions -/

section NoiseProperties

variable {α : Type} [LinearOrderedField α] [FloorRing α]

/-- `fract` takes values in `[0, 1)`. -/
theorem fract_mem (x : α) : 0 ≤ fract x ∧ fract x < 1 :=
  ⟨Int.fract_nonneg x, Int.fract_lt_one x⟩

/-- `random` takes values in `[0, 1)`. -/
theorem random_mem (B : Builtins α) (st : Vec2 α) : 0 ≤ random B st ∧ random B st < 1 :=
  fract_mem _

/-- `noise` is the bilinear interpolation of `random` at the four cell corners. -/
theorem noise_eq_specBilinear (B : Builtins α) (p : Vec2 α) :
    noise B p
      = specBilinear (random B p.floor) (random B (p.floor + ⟨1, 0⟩))
          (random B (p.floor + ⟨0, 1⟩)) (random B (p.floor + ⟨1, 1⟩))
          (p.fract.x * p.fract.x * (3 - 2 * p.fract.x))
          (p.fract.y * p.fract.y * (3 - 2 * p.fract.y)) := by
  have e10 : (⟨1.0, 0.0⟩ : Vec2 α) = ⟨1, 0⟩ := by congr 1 <;> norm_num
  have e01 : (⟨0.0, 1.0⟩ : Vec2 α) = ⟨0, 1⟩ := by congr 1 <;> norm_num
  have e11 : (⟨1.0, 1.0⟩ : Vec2 α) = ⟨1, 1⟩ := by congr 1 <;> norm_num
  have ex : (p.fract * p.fract * (Vec2.splat 3.0 - Vec2.splat 2.0 * p.fract)).x
      = p.fract.x * p.fract.x * (3 - 2 * p.fract.x) := by
    show p.fract.x * p.fract.x * (3.0 - 2.0 * p.fract.x) = _
    norm_num
  have ey : (p.fract * p.fract * (Vec2.splat 3.0 - Vec2.splat 2.0 * p.fract)).y
      = p.fract.y * p.fract.y * (3 - 2 * p.fract.y) := by
    show p.fract.y * p.fract.y * (3.0 - 2.0 * p.fract.y) = _
    norm_num
  simp only [noise, e10, e01, e11, ex, ey, specBilinear, mix]
  norm_num
  ring

/-- At a lattice point `noise` is `random`. -/
theorem noise_at_lattice (B : Builtins α) (m n : Int) :
    noise B ⟨(m : α), (n : α)⟩ = random B ⟨(m : α), (n : α)⟩ := by
  have hf : (⟨(m : α), (n : α)⟩ : Vec2 α).floor = ⟨(m : α), (n : α)⟩ := by
    simp [Vec2.floor, floorF]
  have hx : (⟨(m : α), (n : α)⟩ : Vec2 α).fract = ⟨0, 0⟩ := by
    simp [Vec2.fract, fract, floorF]
  rw [noise_eq_specBilinear, hf, hx]
  simp [specBilinear]

/-- C19: `fbm` with its loop run once returns `noise(p)` (the accumulated
`0.5 * noise(p)` divided by the accumulated amplitude 0.5); with the four octaves of
the source the divisor is the amplitude sum `0.5 + 0.25 + 0.125 + 0.0625`. -/
theorem fbm_single_octave_is_noise (B : Builtins α) (p : Vec2 α) :
    fbmOctaves B 1 p = noise B p
      ∧ (fbmLoop B 1 0.5 0.0 0.0 p).2 = 0.5
      ∧ (fbmLoop B 4 0.5 0.0 0.0 p).2 = 0.5 + 0.25 + 0.125 + 0.0625
      ∧ fbm B p = (fbmLoop B 4 0.5 0.0 0.0 p).1 / (0.5 + 0.25 + 0.125 + 0.0625) := by
  have h4 : (fbmLoop B 4 0.5 0.0 0.0 p).2 = 0.5 + 0.25 + 0.125 + 0.0625 := by
    simp only [fbmLoop]
    norm_num
  refine ⟨?_, ?_, h4, ?_⟩
  · simp only [fbmOctaves, fbmLoop]
    norm_num
  · simp only [fbmLoop]
    norm_num
  · simp only [fbm, fbmOctaves]
    rw [h4, if_pos (by norm_num)]

/-- C20: `noise(p)` is the bilinear interpolation of `random` at the four corners of
the cell of `p`, with weights `u = f * f * (3 - 2 f)` of `f = fract(p)`; at a lattice
point it equals `random` there; and it lies in `[0, 1)`. -/
theorem noise_is_bilinear_interpolation (B : Builtins α) (p : Vec2 α) (m n : Int) :
    noise B p
        = specBilinear (random B p.floor) (random B (p.floor + ⟨1, 0⟩))
            (random B (p.floor + ⟨0, 1⟩)) (random B (p.floor + ⟨1, 1⟩))
            (p.fract.x * p.fract.x * (3 - 2 * p.fract.x))
            (p.fract.y * p.fract.y * (3 - 2 * p.fract.y))
      ∧ noise B ⟨(m : α), (n : α)⟩ = random B ⟨(m : α), (n : α)⟩
      ∧ 0 ≤ noise B p
      ∧ noise B p < 1 := by
  have hb := specBilinear_mem (random B p.floor) (random B (p.floor + ⟨1, 0⟩))
    (random B (p.floor + ⟨0, 1⟩)) (random B (p.floor + ⟨1, 1⟩))
    (p.fract.x * p.fract.x * (3 - 2 * p.fract.x))
    (p.fract.y * p.fract.y * (3 - 2 * p.fract.y))
    (random_mem B _) (random_mem B _) (random_mem B _) (random_mem B _)
    (smooth_weight_mem _ (fract_mem p.x).1 (fract_mem p.x).2)
    (smooth_weight_mem _ (fract_mem p.y).1 (fract_mem p.y).2)
  rw [← noise_eq_specBilinear] at hb
  exact ⟨noise_eq_specBilinear B p, noise_at_lattice B m n, hb.1, hb.2⟩

/-- C20 at concrete inputs: `noise` at the lattice point `(3, -2)` and inside a cell. -/
theorem noise_is_bilinear_interpolation_witness :
    noise refBuiltins ⟨3, -2⟩ = random refBuiltins ⟨3, -2⟩
      ∧ 0 ≤ noise refBuiltins ⟨1.5, 2.25⟩
      ∧ noise refBuiltins ⟨1.5, 2.25⟩ < 1 := by
  have h := noise_is_bilinear_interpolation refBuiltins ⟨1.5, 2.25⟩ 3 (-2)
  refine ⟨?_, h.2.2.1, h.2.2.2⟩
  have h2 := h.2.1
  norm_num at h2
  exact h2

end NoiseProperties

/-! ## Properties of the matrix inverse -/

section InverseProperties

variable {α : Type} [LinearOrderedField α]

/-- The Windows `inverse` returns the identity on every matrix of determinant 0. -/
theorem Mat4.inverseWin_of_det_eq_zero (m : Mat4 α) (h : m.det = 0) :
    m.inverseWin = Mat4.identity := by
  unfold Mat4.inverseWin
  rw [if_pos]
  rw [h]; norm_num

/-- The `inverse` of `Math.hpp` returns its argument on every matrix of determinant 0. -/
theorem Mat4.inverseLinux_of_det_eq_zero (m : Mat4 α) (h : m.det = 0) :
    m.inverseLinux = m := by
  unfold Mat4.inverseLinux
  rw [if_pos h]

/-- The `inverse` of `Math.hpp` is a right inverse for the product `operator*`
whenever the determinant is not 0. -/
theorem Mat4.mul_inverseLinux (m : Mat4 α) (h : m.det ≠ 0) :
    Mat4.mul m m.inverseLinux = Mat4.identity := by
  have hd : m.det * m.det⁻¹ = 1 := mul_inv_cancel₀ h
  have k0 : m.m0 * m.cof0 + m.m1 * m.cof4 + m.m2 * m.cof8 + m.m3 * m.cof12 = m.det := rfl
  have k1 : m.m0 * m.cof1 + m.m1 * m.cof5 + m.m2 * m.cof9 + m.m3 * m.cof13 = 0 := by
    simp only [Mat4.det, Mat4.cof0, Mat4.cof1, Mat4.cof2, Mat4.cof3, Mat4.cof4, Mat4.cof5, Mat4.cof6, Mat4.cof7, Mat4.cof8, Mat4.cof9, Mat4.cof10, Mat4.cof11, Mat4.cof12, Mat4.cof13, Mat4.cof14, Mat4.cof15]; ring
  have k2 : m.m0 * m.cof2 + m.m1 * m.cof6 + m.m2 * m.cof10 + m.m3 * m.cof14 = 0 := by
    simp only [Mat4.det, Mat4.cof0, Mat4.cof1, Mat4.cof2, Mat4.cof3, Mat4.cof4, Mat4.cof5, Mat4.cof6, Mat4.cof7, Mat4.cof8, Mat4.cof9, Mat4.cof10, Mat4.cof11, Mat4.cof12, Mat4.cof13, Mat4.cof14, Mat4.cof15]; ring
  have k3 : m.m0 * m.cof3 + m.m1 * m.cof7 + m.m2 * m.cof11 + m.m3 * m.cof15 = 0 := by
    simp only [Mat4.det, Mat4.cof0, Mat4.cof1, Mat4.cof2, Mat4.cof3, Mat4.cof4, Mat4.cof5, Mat4.cof6, Mat4.cof7, Mat4.cof8, Mat4.cof9, Mat4.cof10, Mat4.cof11, Mat4.cof12, Mat4.cof13, Mat4.cof14, Mat4.cof15]; ring
  have k4 : m.m4 * m.cof0 + m.m5 * m.cof4 + m.m6 * m.cof8 + m.m7 * m.cof12 = 0 := by
    simp only [Mat4.det, Mat4.cof0, Mat4.cof1, Mat4.cof2, Mat4.cof3, Mat4.cof4, Mat4.cof5, Mat4.cof6, Mat4.cof7, Mat4.cof8, Mat4.cof9, Mat4.cof10, Mat4.cof11, Mat4.cof12, Mat4.cof13, Mat4.cof14, Mat4.cof15]; ring
  have k5 : m.m4 * m.cof1 + m.m5 * m.cof5 + m.m6 * m.cof9 + m.m7 * m.cof13 = m.det := by
    simp only [Mat4.det, Mat4.cof0, Mat4.cof1, Mat4.cof2, Mat4.cof3, Mat4.cof4, Mat4.cof5, Mat4.cof6, Mat4.cof7, Mat4.cof8, Mat4.cof9, Mat4.cof10, Mat4.cof11, Mat4.cof12, Mat4.cof13, Mat4.cof14, Mat4.cof15]; ring
  have k6 : m.m4 * m.cof2 + m.m5 * m.cof6 + m.m6 * m.cof10 + m.m7 * m.cof14 = 0 := by
    simp only [Mat4.det, Mat4.cof0, Mat4.cof1, Mat4.cof2, Mat4.cof3, Mat4.cof4, Mat4.cof5, Mat4.cof6, Mat4.cof7, Mat4.cof8, Mat4.cof9, Mat4.cof10, Mat4.cof11, Mat4.cof12, Mat4.cof13, Mat4.cof14, Mat4.cof15]; ring
  have k7 : m.m4 * m.cof3 + m.m5 * m.cof7 + m.m6 * m.cof11 + m.m7 * m.cof15 = 0 := by
    simp only [Mat4.det, Mat4.cof0, Mat4.cof1, Mat4.cof2, Mat4.cof3, Mat4.cof4, Mat4.cof5, Mat4.cof6, Mat4.cof7, Mat4.cof8, Mat4.cof9, Mat4.cof10, Mat4.cof11, Mat4.cof12, Mat4.cof13, Mat4.cof14, Mat4.cof15]; ring
  have k8 : m.m8 * m.cof0 + m.m9 * m.cof4 + m.m10 * m.cof8 + m.m11 * m.cof12 = 0 := by
    simp only [Mat4.det, Mat4.cof0, Mat4.cof1, Mat4.cof2, Mat4.cof3, Mat4.cof4, Mat4.cof5, Mat4.cof6, Mat4.cof7, Mat4.cof8, Mat4.cof9, Mat4.cof10, Mat4.cof11, Mat4.cof12, Mat4.cof13, Mat4.cof14, Mat4.cof15]; ring
  have k9 : m.m8 * m.cof1 + m.m9 * m.cof5 + m.m10 * m.cof9 + m.m11 * m.cof13 = 0 := by
    simp only [Mat4.det, Mat4.cof0, Mat4.cof1, Mat4.cof2, Mat4.cof3, Mat4.cof4, Mat4.cof5, Mat4.cof6, Mat4.cof7, Mat4.cof8, Mat4.cof9, Mat4.cof10, Mat4.cof11, Mat4.cof12, Mat4.cof13, Mat4.cof14, Mat4.cof15]; ring
  have k10 : m.m8 * m.cof2 + m.m9 * m.cof6 + m.m10 * m.cof10 + m.m11 * m.cof14 = m.det := by
    simp only [Mat4.det, Mat4.cof0, Mat4.cof1, Mat4.cof2, Mat4.cof3, Mat4.cof4, Mat4.cof5, Mat4.cof6, Mat4.cof7, Mat4.cof8, Mat4.cof9, Mat4.cof10, Mat4.cof11, Mat4.cof12, Mat4.cof13, Mat4.cof14, Mat4.cof15]; ring
  have k11 : m.m8 * m.cof3 + m.m9 * m.cof7 + m.m10 * m.cof11 + m.m11 * m.cof15 = 0 := by
    simp only [Mat4.det, Mat4.cof0, Mat4.cof1, Mat4.cof2, Mat4.cof3, Mat4.cof4, Mat4.cof5, Mat4.cof6, Mat4.cof7, Mat4.cof8, Mat4.cof9, Mat4.cof10, Mat4.cof11, Mat4.cof12, Mat4.cof13, Mat4.cof14, Mat4.cof15]; ring
  have k12 : m.m12 * m.cof0 + m.m13 * m.cof4 + m.m14 * m.cof8 + m.m15 * m.cof12 = 0 := by
    simp only [Mat4.det, Mat4.cof0, Mat4.cof1, Mat4.cof2, Mat4.cof3, Mat4.cof4, Mat4.cof5, Mat4.cof6, Mat4.cof7, Mat4.cof8, Mat4.cof9, Mat4.cof10, Mat4.cof11, Mat4.cof12, Mat4.cof13, Mat4.cof14, Mat4.cof15]; ring
  have k13 : m.m12 * m.cof1 + m.m13 * m.cof5 + m.m14 * m.cof9 + m.m15 * m.cof13 = 0 := by
    simp only [Mat4.det, Mat4.cof0, Mat4.cof1, Mat4.cof2, Mat4.cof3, Mat4.cof4, Mat4.cof5, Mat4.cof6, Mat4.cof7, Mat4.cof8, Mat4.cof9, Mat4.cof10, Mat4.cof11, Mat4.cof12, Mat4.cof13, Mat4.cof14, Mat4.cof15]; ring
  have k14 : m.m12 * m.cof2 + m.m13 * m.cof6 + m.m14 * m.cof10 + m.m15 * m.cof14 = 0 := by
    simp only [Mat4.det, Mat4.cof0, Mat4.cof1, Mat4.cof2, Mat4.cof3, Mat4.cof4, Mat4.cof5, Mat4.cof6, Mat4.cof7, Mat4.cof8, Mat4.cof9, Mat4.cof10, Mat4.cof11, Mat4.cof12, Mat4.cof13, Mat4.cof14, Mat4.cof15]; ring
  have k15 : m.m12 * m.cof3 + m.m13 * m.cof7 + m.m14 * m.cof11 + m.m15 * m.cof15 = m.det := by
    simp only [Mat4.det, Mat4.cof0, Mat4.cof1, Mat4.cof2, Mat4.cof3, Mat4.cof4, Mat4.cof5, Mat4.cof6, Mat4.cof7, Mat4.cof8, Mat4.cof9, Mat4.cof10, Mat4.cof11, Mat4.cof12, Mat4.cof13, Mat4.cof14, Mat4.cof15]; ring
  unfold Mat4.inverseLinux
  rw [if_neg h]
  simp only [Mat4.mul, Mat4.ofFn, Mat4.get, Mat4.identity]
  norm_num
  refine ⟨?_, ?_, ?_, ?_, ?_, ?_, ?_, ?_, ?_, ?_, ?_, ?_, ?_, ?_, ?_, ?_⟩
  · linear_combination m.det⁻¹ * k0 + hd
  · linear_combination m.det⁻¹ * k1
  · linear_combination m.det⁻¹ * k2
  · linear_combination m.det⁻¹ * k3
  · linear_combination m.det⁻¹ * k4
  · linear_combination m.det⁻¹ * k5 + hd
  · linear_combination m.det⁻¹ * k6
  · linear_combination m.det⁻¹ * k7
  · linear_combination m.det⁻¹ * k8
  · linear_combination m.det⁻¹ * k9
  · linear_combination m.det⁻¹ * k10 + hd
  · linear_combination m.det⁻¹ * k11
  · linear_combination m.det⁻¹ * k12
  · linear_combination m.det⁻¹ * k13
  · linear_combination m.det⁻¹ * k14
  · linear_combination m.det⁻¹ * k15 + hd

/-- On a matrix of determinant exactly 1 the two `inverse` functions agree: the extra
factor `1 / det` of the Windows one is 1. -/
theorem Mat4.inverseWin_of_det_eq_one (m : Mat4 α) (h : m.det = 1) :
    m.inverseWin = m.inverseLinux := by
  unfold Mat4.inverseWin Mat4.inverseLinux
  rw [if_neg (by rw [h]; norm_num), if_neg (by rw [h]; norm_num)]
  simp [h]

end InverseProperties

/-- C21: on `flatMatrix`, whose determinant is 0, the Windows `inverse` returns the
identity, while the `inverse` of `Math.hpp` returns `flatMatrix` itself, which is not
the identity. -/
theorem inverseLinux_singular_not_identity :
    flatMatrix.det = 0 ∧ flatMatrix.inverseWin = Mat4.identity ∧
      flatMatrix.inverseLinux = flatMatrix ∧ flatMatrix.inverseLinux ≠ Mat4.identity := by
  decide!

/-- C22: on `stretchMatrix`, whose determinant is 2, the Windows `inverse` returns
`diag(1/2, 1/2, 1/2, 1/2)`: entry 5 is `cof5 / det ^ 2 = 1/2` and not `cof5 / det = 1`,
and the product of `stretchMatrix` with the result is not the identity.  The `inverse`
of `Math.hpp` returns the true inverse on the same matrix. -/
theorem inverseWin_not_inverse :
    ¬ (|stretchMatrix.det| < 1e-6) ∧
      stretchMatrix.inverseWin = ⟨1/2, 0, 0, 0, 0, 1/2, 0, 0, 0, 0, 1/2, 0, 0, 0, 0, 1/2⟩ ∧
      stretchMatrix.inverseWin.m5 = stretchMatrix.cof5 / stretchMatrix.det ^ 2 ∧
      stretchMatrix.inverseWin.m5 ≠ stretchMatrix.cof5 / stretchMatrix.det ∧
      Mat4.mul stretchMatrix stretchMatrix.inverseWin ≠ Mat4.identity ∧
      Mat4.mul stretchMatrix stretchMatrix.inverseLinux = Mat4.identity := by
  decide!

/-! ## Scalar facts: the controller before its clamp, the sign change at the disk -/

section ScalarProperties

variable {α : Type} [LinearOrderedField α]

/-- The step size is the clamped `unclampedStep`. -/
theorem adaptiveStep_eq_clamped (lensing disk planets : Bool) (fps : α) :
    adaptiveStep lensing disk planets fps
      = max 0.15 (min 0.8 (unclampedStep lensing disk planets fps)) := rfl

/-- The product before the clamp lies in `[0.225, 0.71415]`. -/
theorem unclampedStep_mem (lensing disk planets : Bool) (fps : α) :
    0.225 ≤ unclampedStep lensing disk planets fps
      ∧ unclampedStep lensing disk planets fps ≤ 0.71415 := by
  unfold unclampedStep
  by_cases h0 : 0 < fps
  · by_cases h30 : fps < 30
    · cases lensing <;> cases disk <;> cases planets <;> norm_num [h0, h30]
    · by_cases h55 : 55 < fps
      · cases lensing <;> cases disk <;> cases planets <;> norm_num [h0, h30, h55]
      · cases lensing <;> cases disk <;> cases planets <;> norm_num [h0, h30, h55]
  · cases lensing <;> cases disk <;> cases planets <;> norm_num [h0]

/-- C29: for every flag combination and every frame rate the product before the clamp
lies in `[0.225, 0.71415]` and the clamp to `[0.15, 0.8]` returns it unchanged, so both
hosts upload the unclamped product; the two bounds are attained. -/
theorem controller_clamp_never_active (B : Builtins α) (sim : BlackHoleSimulation α)
    (params : SimParams α) (camera : CameraLinux α) (fps time : α) (width height : Int) :
    (∀ (lensing disk planets : Bool) (r : α),
        0.225 ≤ unclampedStep lensing disk planets r
          ∧ unclampedStep lensing disk planets r ≤ 0.71415
          ∧ adaptiveStep lensing disk planets r = unclampedStep lensing disk planets r)
      ∧ sim.updateUniforms.u_stepSize
          = unclampedStep sim.params.lensingEnabled sim.params.diskEnabled
              sim.params.planetsEnabled sim.currentFPS
      ∧ (frameUniforms B params camera fps time width height).u_stepSize
          = unclampedStep params.lensingOn params.diskOn params.planetsOn fps
      ∧ unclampedStep true true true (60 : α) = 0.225
      ∧ unclampedStep false false false (20 : α) = 0.71415 := by
  have key : ∀ (lensing disk planets : Bool) (r : α),
      adaptiveStep lensing disk planets r = unclampedStep lensing disk planets r := by
    intro l d p r
    rw [adaptiveStep_eq_clamped]
    have h := unclampedStep_mem l d p r
    rw [min_eq_right (le_trans h.2 (by norm_num : (0.71415 : α) ≤ 0.8)),
      max_eq_right (le_trans (by norm_num : (0.15 : α) ≤ 0.225) h.1)]
  refine ⟨fun l d p r => ⟨(unclampedStep_mem l d p r).1, (unclampedStep_mem l d p r).2,
    key l d p r⟩, key _ _ _ _, key _ _ _ _, ?_, ?_⟩
  · norm_num [unclampedStep]
  · norm_num [unclampedStep]

/-- Sign change of `a`, `b`: the interpolation parameter `-a / (b - a)` is well defined,
lies strictly between 0 and 1 and interpolates to 0. -/
theorem crossingT_mem (a b : α) (h : a * b < 0) :
    b - a ≠ 0 ∧ 0 < -a / (b - a) ∧ -a / (b - a) < 1 ∧ a + (b - a) * (-a / (b - a)) = 0 := by
  rcases mul_neg_iff.mp h with ⟨ha, hb⟩ | ⟨ha, hb⟩
  · have hd : b - a < 0 := by linarith
    refine ⟨ne_of_lt hd, div_pos_of_neg_of_neg (by linarith) hd, ?_, ?_⟩
    · rw [div_lt_one_of_neg hd]; linarith
    · field_simp [ne_of_lt hd]; ring
  · have hd : 0 < b - a := by linarith
    refine ⟨ne_of_gt hd, div_pos (by linarith) hd, ?_, ?_⟩
    · rw [div_lt_one hd]; linarith
    · field_simp [ne_of_gt hd]; ring

end ScalarProperties

/-- C26: the default state has inner radius below outer radius, while the state
reached through `adjustMass`, `adjustDiskSize` and `update` has mass 5.0, inner radius
7.5 and outer radius 2.0; the Linux key handler reaches the same uploaded radii. -/
theorem disk_radii_order_not_invariant :
    initialSimulation.params.diskInnerRadius < initialSimulation.params.diskOuterRadius
      ∧ extremeSimulation.params.mass = 5.0
      ∧ extremeSimulation.params.diskInnerRadius = 7.5
      ∧ extremeSimulation.params.diskOuterRadius = 2.0
      ∧ extremeSimulation.params.diskInnerRadius > extremeSimulation.params.diskOuterRadius
      ∧ extremeSimulation.updateUniforms.u_diskInnerRadius
          > extremeSimulation.updateUniforms.u_diskOuterRadius
      ∧ (((initialSimulation.adjustMass 4).adjustDiskSize (-6)).update
            refBuiltins (1 / 60)).params.diskInnerRadius
          > (((initialSimulation.adjustMass 4).adjustDiskSize (-6)).update
            refBuiltins (1 / 60)).params.diskOuterRadius
      ∧ (frameUniforms refBuiltins extremeParams CameraLinux.default 0 0 1280 720).u_diskInnerRadius
          = 7.5
      ∧ (frameUniforms refBuiltins extremeParams CameraLinux.default 0 0 1280 720).u_diskOuterRadius
          = 2.0 := by
  decide!

/-! ## The disk block of the march loop -/

section DiskBlockProperties

variable {α : Type} [LinearOrderedField α] [FloorRing α]

/-- The disk block of `rayMarch` in terms of `crossingHit` and `marchDiskSampled`. -/
theorem marchDisk_eq (B : Builtins α) (u : Uniforms α) (p_prev : Vec3 α) (s : MarchState α) :
    marchDisk B u p_prev s =
      if u.u_enableDisk = 1 ∧ p_prev.y * s.p.y < 0.0 then
        if Vec2.length B ⟨(crossingHit p_prev s.p).x, (crossingHit p_prev s.p).z⟩
              > u.u_diskInnerRadius
            ∧ Vec2.length B ⟨(crossingHit p_prev s.p).x, (crossingHit p_prev s.p).z⟩
              < u.u_diskOuterRadius then
          marchDiskSampled B u s (crossingHit p_prev s.p)
        else marchEscape B u s
      else marchEscape B u s := rfl

/-- C23: when the heights of `p_prev` and `p` have opposite signs, the denominator of
`t` is not 0, `t` lies strictly between 0 and 1, the crossing point has height 0, and
the disk block samples the disk at the crossing point exactly when the disk flag is 1
and the crossing radius lies strictly between the inner and outer radius; otherwise it
is the escape test alone. -/
theorem disk_crossing_point (B : Builtins α) (u : Uniforms α) (p_prev : Vec3 α)
    (s : MarchState α) (h : p_prev.y * s.p.y < 0) :
    s.p.y - p_prev.y ≠ 0
      ∧ 0 < crossingT p_prev s.p ∧ crossingT p_prev s.p < 1
      ∧ (crossingHit p_prev s.p).y = 0
      ∧ marchDisk B u p_prev s =
          if u.u_enableDisk = 1
              ∧ u.u_diskInnerRadius
                  < Vec2.length B ⟨(crossingHit p_prev s.p).x, (crossingHit p_prev s.p).z⟩
              ∧ Vec2.length B ⟨(crossingHit p_prev s.p).x, (crossingHit p_prev s.p).z⟩
                  < u.u_diskOuterRadius then
            marchDiskSampled B u s (crossingHit p_prev s.p)
          else marchEscape B u s := by
  obtain ⟨h1, h2, h3, h4⟩ := crossingT_mem p_prev.y s.p.y h
  refine ⟨h1, h2, h3, h4, ?_⟩
  have h0 : p_prev.y * s.p.y < 0.0 := by norm_num; exact h
  rw [marchDisk_eq]
  by_cases hd : u.u_enableDisk = 1
  · simp only [hd, h0, true_and, and_self, if_true, gt_iff_lt]
  · simp only [hd, false_and, if_false]

/-- C23 at a concrete input: from `(3, 1, 0)` to `(3, -1, 0)` the parameter is 1/2 and
the crossing point is `(3, 0, 0)`. -/
theorem disk_crossing_point_witness :
    abovePlane.y * belowPlaneState.p.y < 0
      ∧ crossingT abovePlane belowPlaneState.p = 1 / 2
      ∧ crossingHit abovePlane belowPlaneState.p = ⟨3, 0, 0⟩
      ∧ belowPlaneState.p.y - abovePlane.y ≠ 0
      ∧ (crossingHit abovePlane belowPlaneState.p).y = 0 :=
  have h := disk_crossing_point refBuiltins (sampleUniforms true true true true) abovePlane
    belowPlaneState (by decide!)
  ⟨by decide!, by decide!, by decide!, h.1, h.2.2.2.1⟩

/-- With the inner radius not below the outer one the disk block is the escape test. -/
theorem marchDisk_of_inner_ge_outer (B : Builtins α) (u : Uniforms α) (p_prev : Vec3 α)
    (s : MarchState α) (h : u.u_diskOuterRadius ≤ u.u_diskInnerRadius) :
    marchDisk B u p_prev s = marchEscape B u s := by
  rw [marchDisk_eq]
  split_ifs with h1 h2
  · exact absurd (lt_of_lt_of_le (lt_trans h2.1 h2.2) h) (lt_irrefl _)
  · rfl
  · rfl

/-- With the disk flag 0 the disk block is the escape test. -/
theorem marchDisk_of_flag_off (B : Builtins α) (u : Uniforms α) (p_prev : Vec3 α)
    (s : MarchState α) :
    marchDisk B { u with u_enableDisk := 0 } p_prev s = marchEscape B u s := by
  rw [marchDisk_eq, if_neg (by simp)]
  rfl

/-- With the inner radius not below the outer one a pass of the loop does the same as
with the disk flag 0. -/
theorem marchBody_disk_noop (B : Builtins α) (u : Uniforms α) (s : MarchState α)
    (h : u.u_diskOuterRadius ≤ u.u_diskInnerRadius) :
    marchBody B u s = marchBody B { u with u_enableDisk := 0 } s := by
  unfold marchBody
  simp only [marchDisk_of_inner_ge_outer B u _ _ h, marchDisk_of_flag_off]
  rfl

/-- With the inner radius not below the outer one the loop returns the same colour as
with the disk flag 0. -/
theorem marchLoop_disk_noop (B : Builtins α) (u : Uniforms α)
    (h : u.u_diskOuterRadius ≤ u.u_diskInnerRadius) (left : Nat) :
    ∀ (i : Int) (s : MarchState α),
      marchLoop B u left i s = marchLoop B { u with u_enableDisk := 0 } left i s := by
  induction left with
  | zero => intro i s; rfl
  | succ n ih =>
    intro i s
    rw [marchLoop, marchLoop, marchBody_disk_noop B u s h]
    by_cases hi : i ≥ u.u_maxSteps
    · rw [if_pos hi, if_pos hi]; rfl
    · rw [if_neg hi, if_neg hi]
      cases marchBody B { u with u_enableDisk := 0 } s with
      | ret c => rfl
      | next s1 => exact ih (i + 1) s1

/-- C28: when the inner radius is not below the outer radius no radius passes the test
`inner < r < outer`, the disk block is the escape test alone (it never reaches
`getDiskSample`), and `rayMarch` returns the colour it returns with the disk flag 0 and
all other uniforms equal. -/
theorem disk_noop_when_inner_ge_outer (B : Builtins α) (u : Uniforms α)
    (rayOrigin rayDir : Vec3 α) (h : u.u_diskInnerRadius ≥ u.u_diskOuterRadius) :
    (∀ r : α, ¬ (r > u.u_diskInnerRadius ∧ r < u.u_diskOuterRadius))
      ∧ (∀ (p_prev : Vec3 α) (s : MarchState α), marchDisk B u p_prev s = marchEscape B u s)
      ∧ rayMarch B u rayOrigin rayDir
          = rayMarch B { u with u_enableDisk := 0 } rayOrigin rayDir :=
  ⟨fun _ hr => absurd (lt_of_lt_of_le (lt_trans hr.1 hr.2) h) (lt_irrefl _),
    fun p_prev s => marchDisk_of_inner_ge_outer B u p_prev s h,
    marchLoop_disk_noop B u h MAX_STEPS 0 _⟩

/-- C28 at a concrete input: the uniform block of `extremeSimulation` has inner radius
7.5 and outer radius 2.0. -/
theorem disk_noop_when_inner_ge_outer_witness :
    extremeSimulation.updateUniforms.u_diskInnerRadius
        ≥ extremeSimulation.updateUniforms.u_diskOuterRadius
      ∧ rayMarch refBuiltins extremeSimulation.updateUniforms
            extremeSimulation.updateUniforms.u_cameraPosition ⟨0, 0, -1⟩
          = rayMarch refBuiltins { extremeSimulation.updateUniforms with u_enableDisk := 0 }
            extremeSimulation.updateUniforms.u_cameraPosition ⟨0, 0, -1⟩ :=
  ⟨by decide!, (disk_noop_when_inner_ge_outer refBuiltins extremeSimulation.updateUniforms
    extremeSimulation.updateUniforms.u_cameraPosition ⟨0, 0, -1⟩ (by decide!)).2.2⟩

end DiskBlockProperties

/-! ## Marching without lensing -/

section StraightArithmetic

variable {α : Type} [LinearOrderedField α]

/-- The lensing block changes the direction only when the lensing flag is 1 and the
position is inside the lens radius. -/
theorem marchDeflect_changes_only_inside (B : Builtins α) (u : Uniforms α) (p rayDir : Vec3 α)
    (h : marchDeflect B u p rayDir ≠ rayDir) :
    u.u_enableLensing = 1 ∧ p.length B < u.u_lensMaxRadius := by
  by_contra hc
  exact h (by rw [marchDeflect_eq, if_neg hc])

/-- With a non-negative uniform step size every step length is non-negative. -/
theorem marchStepSize_nonneg (B : Builtins α) (u : Uniforms α) (p : Vec3 α)
    (h : 0 ≤ u.u_stepSize) : 0 ≤ marchStepSize B u p := by
  unfold marchStepSize
  have h1 := (smoothstep_mem (u.u_diskOuterRadius + 2.0) (marchFarDist u) (p.length B)).1
  have h2 := (smoothstep_mem (0.5 : α) 3.0 |p.y|).1
  have e : (1.0 : α) = 1 := by norm_num
  apply mul_nonneg
  · exact add_nonneg h (mul_nonneg (mul_nonneg h h1) (by norm_num))
  · rw [e]; nlinarith

/-- Adding a zero multiple of a vector changes nothing. -/
theorem Vec3.add_scale_zero (p v : Vec3 α) : p + v.scale 0 = p := by
  obtain ⟨px, py, pz⟩ := p
  obtain ⟨vx, vy, vz⟩ := v
  show (⟨px + vx * 0, py + vy * 0, pz + vz * 0⟩ : Vec3 α) = ⟨px, py, pz⟩
  simp

/-- Two steps along the same vector add up. -/
theorem Vec3.add_scale_add (p v : Vec3 α) (a b : α) :
    (p + v.scale a) + v.scale b = p + v.scale (a + b) := by
  obtain ⟨px, py, pz⟩ := p
  obtain ⟨vx, vy, vz⟩ := v
  show (⟨px + vx * a + vx * b, py + vy * a + vy * b, pz + vz * a + vz * b⟩ : Vec3 α)
    = ⟨px + vx * (a + b), py + vy * (a + b), pz + vz * (a + b)⟩
  congr 1 <;> ring

end StraightArithmetic

section StraightProperties

variable {α : Type} [LinearOrderedField α] [FloorRing α]

/-- Without lensing a pass of the loop is a pass of the straight march along the
current direction, with the starfield of that direction as background. -/
theorem marchBody_eq_straightBody (B : Builtins α) (u : Uniforms α) (s : MarchState α)
    (hL : ¬ u.u_enableLensing = 1) :
    marchBody B u s = straightBody B u s.rayDir (starField B s.rayDir u.u_time) s := by
  simp only [marchBody, straightBody, marchDeflect_eq, hL, false_and, if_false, marchDisk_eq]
  by_cases hp : (getPlanetColor B u s.p).w > 0.5
  · rw [if_pos hp, if_pos hp]
  · rw [if_neg hp, if_neg hp]
    simp only [marchDiskSampled, marchEscape, straightEscape]
    split_ifs <;> first | rfl | (exfalso; tauto)

/-- A pass of the straight march that continues has stepped along `dir`. -/
theorem straightBody_next (B : Builtins α) (u : Uniforms α) (dir bg : Vec3 α)
    (s s' : MarchState α) (h : straightBody B u dir bg s = MarchResult.next s') :
    s'.rayDir = dir ∧ s'.p = s.p + dir.scale (marchStepSize B u s.p) := by
  simp only [straightBody, straightEscape] at h
  split_ifs at h <;> (cases h; exact ⟨rfl, rfl⟩)

/-- Without lensing the loop from a state with direction `dir` is the straight loop
along `dir` with background `starField(dir, t)`. -/
theorem marchLoop_eq_straightLoop (B : Builtins α) (u : Uniforms α) (dir : Vec3 α)
    (hL : ¬ u.u_enableLensing = 1) (left : Nat) :
    ∀ (i : Int) (s : MarchState α), s.rayDir = dir →
      marchLoop B u left i s = straightLoop B u dir (starField B dir u.u_time) left i s := by
  induction left with
  | zero => intro i s hs; simp only [marchLoop, straightLoop, marchExhausted, hs]
  | succ n ih =>
    intro i s hs
    rw [marchLoop, straightLoop, marchBody_eq_straightBody B u s hL, hs]
    by_cases hi : i ≥ u.u_maxSteps
    · rw [if_pos hi, if_pos hi]; simp only [marchExhausted, hs]
    · rw [if_neg hi, if_neg hi]
      cases hb : straightBody B u dir (starField B dir u.u_time) s with
      | ret c => rfl
      | next s1 => exact ih (i + 1) s1 (straightBody_next B u dir _ s s1 hb).1

/-- Without lensing and with a non-negative step size, every loop head of a run has
the direction of the first one and lies on its ray. -/
theorem marchRun_straight_states (B : Builtins α) (u : Uniforms α)
    (hL : ¬ u.u_enableLensing = 1) (hstep : 0 ≤ u.u_stepSize) (left : Nat) :
    ∀ (i : Int) (s : MarchState α), ∀ x ∈ (marchRun B u left i s).states,
      x.rayDir = s.rayDir ∧ ∃ d : α, 0 ≤ d ∧ x.p = s.p + s.rayDir.scale d := by
  have single : ∀ s x : MarchState α, x ∈ [s] →
      x.rayDir = s.rayDir ∧ ∃ d : α, 0 ≤ d ∧ x.p = s.p + s.rayDir.scale d := by
    intro s x hx
    rw [List.mem_singleton] at hx
    subst hx
    exact ⟨rfl, 0, le_refl _, (Vec3.add_scale_zero _ _).symm⟩
  induction left with
  | zero => intro i s x hx; exact single s x hx
  | succ n ih =>
    intro i s x hx
    rw [marchRun] at hx
    by_cases hi : i ≥ u.u_maxSteps
    · rw [if_pos hi] at hx; exact single s x hx
    · rw [if_neg hi] at hx
      cases hb : marchBody B u s with
      | ret c => rw [hb] at hx; exact single s x hx
      | next s1 =>
        rw [hb] at hx
        rw [marchBody_eq_straightBody B u s hL] at hb
        obtain ⟨hd, hp⟩ := straightBody_next B u _ _ s s1 hb
        rcases List.mem_cons.mp hx with h0 | h1
        · subst h0; exact ⟨rfl, 0, le_refl _, (Vec3.add_scale_zero _ _).symm⟩
        · obtain ⟨hr, d, hd0, hxp⟩ := ih (i + 1) s1 x h1
          refine ⟨hr.trans hd, marchStepSize B u s.p + d,
            add_nonneg (marchStepSize_nonneg B u s.p hstep) hd0, ?_⟩
          rw [hxp, hp, hd, Vec3.add_scale_add]

/-- C24: the lensing block changes the direction only when the lensing flag is 1 and
`|p| < u_lensMaxRadius`; both hosts upload `2 * diskOuterRadius + 6` for the lens radius
with lensing on and 0 with lensing off (flag 0, step size non-negative).  With the
lensing flag not 1 and a non-negative step size, every loop head of `rayMarch` has the
initial direction and a position `rayOrigin + d * rayDir` with `d >= 0`, and the colour
returned is that of the march along the straight line with the background
`starField(rayDir, t)` sampled with the initial direction. -/
theorem lensing_off_march_is_straight (B : Builtins α) (u : Uniforms α)
    (rayOrigin rayDir : Vec3 α)
    (hL : u.u_enableLensing ≠ 1) (hstep : 0 ≤ u.u_stepSize) :
    (∀ (v : Uniforms α) (p d : Vec3 α), marchDeflect B v p d ≠ d →
        v.u_enableLensing = 1 ∧ p.length B < v.u_lensMaxRadius)
      ∧ (∀ sim : BlackHoleSimulation α,
          sim.updateUniforms.u_lensMaxRadius
              = (if sim.params.lensingEnabled then sim.params.diskOuterRadius * 2.0 + 6.0
                  else 0.0)
            ∧ (sim.params.lensingEnabled = false →
                sim.updateUniforms.u_enableLensing ≠ 1
                  ∧ sim.updateUniforms.u_lensMaxRadius = 0
                  ∧ 0 ≤ sim.updateUniforms.u_stepSize))
      ∧ (∀ (params : SimParams α) (camera : CameraLinux α) (fps time : α) (width height : Int),
          (frameUniforms B params camera fps time width height).u_lensMaxRadius
              = (if params.lensingOn then params.diskOuter * 2.0 + 6.0 else 0.0)
            ∧ (params.lensingOn = false →
                (frameUniforms B params camera fps time width height).u_enableLensing ≠ 1
                  ∧ (frameUniforms B params camera fps time width height).u_lensMaxRadius = 0
                  ∧ 0 ≤ (frameUniforms B params camera fps time width height).u_stepSize))
      ∧ (∀ x ∈ (rayMarchRun B u rayOrigin rayDir).states,
          x.rayDir = rayDir ∧ ∃ d : α, 0 ≤ d ∧ x.p = rayOrigin + rayDir.scale d)
      ∧ (rayMarchRun B u rayOrigin rayDir).color = rayMarch B u rayOrigin rayDir
      ∧ rayMarch B u rayOrigin rayDir
          = straightMarch B u rayOrigin rayDir (starField B rayDir u.u_time) := by
  have hstepC : ∀ (l d p : Bool) (r : α), (0 : α) ≤ adaptiveStep l d p r := by
    intro l d p r
    rw [adaptiveStep_eq_spec]
    exact le_trans (by norm_num) (clamp_mem _ (0.15 : α) 0.8 (by norm_num)).1
  refine ⟨fun v p d h => marchDeflect_changes_only_inside B v p d h, ?_, ?_,
    marchRun_straight_states B u hL hstep MAX_STEPS 0 _, marchRun_color B u MAX_STEPS 0 _,
    marchLoop_eq_straightLoop B u rayDir hL MAX_STEPS 0 _ rfl⟩
  · intro sim
    refine ⟨rfl, fun h => ⟨?_, ?_, hstepC _ _ _ _⟩⟩
    · simp [BlackHoleSimulation.updateUniforms, flagInt, h]
    · simp [BlackHoleSimulation.updateUniforms, h]; norm_num
  · intro params camera fps time width height
    refine ⟨rfl, fun h => ⟨?_, ?_, hstepC _ _ _ _⟩⟩
    · simp [frameUniforms, flagInt, h]
    · simp [frameUniforms, h]; norm_num

/-- C24 at a concrete input: a ray from `(3, 1, 4)` straight down, lensing off. -/
theorem lensing_off_march_is_straight_witness :
    (sampleUniforms true true true false).u_enableLensing ≠ 1
      ∧ 0 ≤ (sampleUniforms true true true false).u_stepSize
      ∧ (∀ x ∈ (rayMarchRun refBuiltins (sampleUniforms true true true false) ⟨3, 1, 4⟩
            ⟨0, -1, 0⟩).states,
          x.rayDir = ⟨0, -1, 0⟩
            ∧ ∃ d : ℚ, 0 ≤ d ∧ x.p = (⟨3, 1, 4⟩ : Vec3 ℚ) + Vec3.scale ⟨0, -1, 0⟩ d)
      ∧ rayMarch refBuiltins (sampleUniforms true true true false) ⟨3, 1, 4⟩ ⟨0, -1, 0⟩
          = straightMarch refBuiltins (sampleUniforms true true true false) ⟨3, 1, 4⟩ ⟨0, -1, 0⟩
              (starField refBuiltins ⟨0, -1, 0⟩ (sampleUniforms true true true false).u_time)
      ∧ ((rayMarchRun refBuiltins (sampleUniforms true true true false) ⟨3, 1, 4⟩
            ⟨0, -1, 0⟩).states.take 4).map
              (fun s => decide (s.p.x = 3 ∧ s.p.z = 4 ∧ s.p.y ≤ 1 ∧ s.rayDir = ⟨0, -1, 0⟩))
          = [true, true, true, true] :=
  have h := lensing_off_march_is_straight refBuiltins (sampleUniforms true true true false)
    ⟨3, 1, 4⟩ ⟨0, -1, 0⟩ (by decide!) (by decide!)
  ⟨by decide!, by decide!, h.2.2.2.1, h.2.2.2.2.2, by decide!⟩

/-- Outside the two early-outs `main` is `mainGeneral`. -/
theorem main_eq_mainGeneral (B : Builtins α) (u : Uniforms α) (fragCoord : Vec2 α)
    (h : ¬ (u.u_enablePlanets = 0 ∧ u.u_enableDisk = 0 ∧ u.u_enableLensing = 0)) :
    main B u fragCoord = mainGeneral B u fragCoord := by
  unfold main mainGeneral
  rw [if_neg (fun hc => h hc.2), if_neg (fun hc => h hc.2)]

/-- With only the starfield on, a pass of the loop steps along the ray and either
continues unchanged or returns the composited starfield. -/
theorem marchBody_starfield_only (B : Builtins α) (u : Uniforms α) (s : MarchState α)
    (hS : u.u_enableStarfield = 1) (hP : u.u_enablePlanets = 0)
    (hD : u.u_enableDisk = 0) (hL : u.u_enableLensing = 0) :
    marchBody B u s =
      if (s.p + s.rayDir.scale (marchStepSize B u s.p)).length B > marchFarDist u then
        MarchResult.ret (s.accColor + (starField B s.rayDir u.u_time).scale s.transmittance)
      else MarchResult.next { s with p := s.p + s.rayDir.scale (marchStepSize B u s.p) } := by
  have hw : ¬ ((Vec4.splat (0.0 : α)).w > 0.5) := by simp only [Vec4.splat]; norm_num
  simp only [marchBody, getPlanetColor, if_pos hP, if_neg hw, marchDeflect, marchDisk, marchEscape,
    hS, hD, hL]
  norm_num

/-- With only the starfield on, the loop returns the composited starfield. -/
theorem marchLoop_starfield_only (B : Builtins α) (u : Uniforms α)
    (hS : u.u_enableStarfield = 1) (hP : u.u_enablePlanets = 0)
    (hD : u.u_enableDisk = 0) (hL : u.u_enableLensing = 0) (left : Nat) :
    ∀ (i : Int) (s : MarchState α),
      marchLoop B u left i s
        = s.accColor + (starField B s.rayDir u.u_time).scale s.transmittance := by
  induction left with
  | zero => intro i s; simp only [marchLoop, marchExhausted, if_pos hS]
  | succ n ih =>
    intro i s
    rw [marchLoop]
    by_cases hi : i ≥ u.u_maxSteps
    · rw [if_pos hi]; simp only [marchExhausted, if_pos hS]
    · rw [if_neg hi, marchBody_starfield_only B u s hS hP hD hL]
      split_ifs
      · rfl
      · exact ih (i + 1) _

/-- With only the starfield on, `rayMarch` returns `starField(rayDir, t)`. -/
theorem rayMarch_starfield_only (B : Builtins α) (u : Uniforms α) (rayOrigin rayDir : Vec3 α)
    (hS : u.u_enableStarfield = 1) (hP : u.u_enablePlanets = 0)
    (hD : u.u_enableDisk = 0) (hL : u.u_enableLensing = 0) :
    rayMarch B u rayOrigin rayDir = starField B rayDir u.u_time := by
  rw [rayMarch, marchLoop_starfield_only B u hS hP hD hL]
  show (⟨_, _, _⟩ : Vec3 α) = _
  simp only [Vec3.splat, Vec3.scale]
  norm_num

/-- C27 as amended: with the starfield flag 1 and the other three 0, `rayMarch`
returns `starField(rd, t)`, so no marching is needed; the early-out of `main` is the
gamma step applied to that colour, while the general path applies the bloom step
`color + color * l * 0.3` before the gamma step. -/
theorem early_out_is_general_path_without_bloom (B : Builtins α) (u : Uniforms α)
    (fragCoord : Vec2 α)
    (hS : u.u_enableStarfield = 1) (hP : u.u_enablePlanets = 0)
    (hD : u.u_enableDisk = 0) (hL : u.u_enableLensing = 0) :
    rayMarch B u u.u_cameraPosition (mainRayDir B u fragCoord)
        = starField B (mainRayDir B u fragCoord) u.u_time
      ∧ main B u fragCoord
        = Vec4.ofVec3
            ((rayMarch B u u.u_cameraPosition (mainRayDir B u fragCoord)).pow B 0.4545) 1.0
      ∧ mainGeneral B u fragCoord
        = Vec4.ofVec3
            ((starField B (mainRayDir B u fragCoord) u.u_time
              + ((starField B (mainRayDir B u fragCoord) u.u_time).scale
                  ((starField B (mainRayDir B u fragCoord) u.u_time).dot
                    ⟨0.21, 0.72, 0.07⟩)).scale 0.3).pow B 0.4545) 1.0 := by
  have hr := rayMarch_starfield_only B u u.u_cameraPosition (mainRayDir B u fragCoord)
    hS hP hD hL
  refine ⟨hr, ?_, ?_⟩
  · rw [hr]; simp [main, hS, hP, hD, hL]
  · simp only [mainGeneral, hr]

end StraightProperties

/-- C27 at a concrete input: the centre pixel under `sampleUniforms` with only the
starfield on. -/
theorem early_out_is_general_path_without_bloom_witness :
    rayMarch refBuiltins (sampleUniforms true false false false)
        (sampleUniforms true false false false).u_cameraPosition
        (mainRayDir refBuiltins (sampleUniforms true false false false) centreFragCoord)
      = starField refBuiltins
          (mainRayDir refBuiltins (sampleUniforms true false false false) centreFragCoord)
          (sampleUniforms true false false false).u_time :=
  (early_out_is_general_path_without_bloom refBuiltins (sampleUniforms true false false false)
    centreFragCoord (by decide!) (by decide!) (by decide!) (by decide!)).1

/-- C27 fails as stated: for the centre pixel under `sampleUniforms` with only the
starfield on, the colour of the early-out differs from the colour `mainGeneral`
computes from the same inputs; the red component of the general path is larger, by
the bloom step. -/
theorem early_out_differs_from_general_path :
    main refBuiltins (sampleUniforms true false false false) centreFragCoord
        ≠ mainGeneral refBuiltins (sampleUniforms true false false false) centreFragCoord
      ∧ (main refBuiltins (sampleUniforms true false false false) centreFragCoord).x
        < (mainGeneral refBuiltins (sampleUniforms true false false false) centreFragCoord).x := by
  decide!

/-! ## Periodicity of the disk pattern -/

section DiskPatternProperties

variable {α : Type} [LinearOrderedField α] [FloorRing α]

/-- `getDiskSample` is `diskSampleAt` at the flow angle of `p`. -/
theorem getDiskSample_eq_diskSampleAt (B : Builtins α) (u : Uniforms α) (p : Vec3 α) :
    getDiskSample B u p
      = diskSampleAt B u p
          (diskThetaFlow B u (Vec2.length B ⟨p.x, p.z⟩) (B.atan p.z p.x)) := rfl

/-- The alpha of `getDiskSample` is `diskAlpha` at the polar radius and flow angle of `p`. -/
theorem getDiskSample_w_eq_diskAlpha (B : Builtins α) (u : Uniforms α) (p : Vec3 α) :
    (getDiskSample B u p).w
      = diskAlpha B u (Vec2.length B ⟨p.x, p.z⟩)
          (diskThetaFlow B u (Vec2.length B ⟨p.x, p.z⟩) (B.atan p.z p.x)) := rfl

/-- C25: where `sin` and `cos` have period `T` (`2π` for the real functions), the
turbulence value `n`, the spiral arm mask, the intensity and the alpha of the disk, as
functions of the radius and the flow angle, have period `T` in the flow angle; the flow
angle moves by `T` when the angle `theta` does; hence adding `T` to the value of `atan`
leaves the whole disk sample unchanged. -/
theorem disk_pattern_periodic (B : Builtins α) (u : Uniforms α) (T : α)
    (hsin : ∀ x, B.sin (x + T) = B.sin x) (hcos : ∀ x, B.cos (x + T) = B.cos x) :
    (∀ r thetaFlow : α,
        diskTurbulence B r (thetaFlow + T) = diskTurbulence B r thetaFlow
          ∧ diskArmMask B r (thetaFlow + T) = diskArmMask B r thetaFlow
          ∧ diskIntensity B u r (thetaFlow + T) = diskIntensity B u r thetaFlow
          ∧ diskAlpha B u r (thetaFlow + T) = diskAlpha B u r thetaFlow)
      ∧ (∀ r theta : α, diskThetaFlow B u r (theta + T) = diskThetaFlow B u r theta + T)
      ∧ (∀ p : Vec3 α,
          getDiskSample { B with atan := fun y x => B.atan y x + T } u p
            = getDiskSample B u p) := by
  have hsin2 : ∀ x, B.sin ((x + T) * 2.0) = B.sin (x * 2.0) := by
    intro x
    have e : (x + T) * 2.0 = x * 2.0 + T + T := by norm_num; ring
    rw [e, hsin, hsin]
  have hcos3 : ∀ x c, B.cos (3.0 * (x + T + c)) = B.cos (3.0 * (x + c)) := by
    intro x c
    have e : 3.0 * (x + T + c) = 3.0 * (x + c) + T + T + T := by norm_num; ring
    rw [e, hcos, hcos, hcos]
  have hn : ∀ r thetaFlow : α,
      diskTurbulence B r (thetaFlow + T) = diskTurbulence B r thetaFlow := by
    intro r t
    simp only [diskTurbulence, hsin, hcos, hsin2]
  have ha : ∀ r thetaFlow : α, diskArmMask B r (thetaFlow + T) = diskArmMask B r thetaFlow := by
    intro r t
    simp only [diskArmMask, hcos3]
  have hi : ∀ r thetaFlow : α,
      diskIntensity B u r (thetaFlow + T) = diskIntensity B u r thetaFlow := by
    intro r t
    simp only [diskIntensity, hn, ha]
  have hal : ∀ r thetaFlow : α, diskAlpha B u r (thetaFlow + T) = diskAlpha B u r thetaFlow := by
    intro r t
    simp only [diskAlpha, hi]
  have hf : ∀ r theta : α, diskThetaFlow B u r (theta + T) = diskThetaFlow B u r theta + T := by
    intro r theta
    simp only [diskThetaFlow]; ring
  refine ⟨fun r t => ⟨hn r t, ha r t, hi r t, hal r t⟩, hf, ?_⟩
  intro p
  show diskSampleAt B u p
      (diskThetaFlow B u (Vec2.length B ⟨p.x, p.z⟩) (B.atan p.z p.x + T)) = _
  rw [hf, getDiskSample_eq_diskSampleAt]
  simp only [diskSampleAt, hi, hal]

end DiskPatternProperties

/-- The reference sine has period `refTwoPi` exactly. -/
theorem refSin_periodic (x : ℚ) : refSin (x + refTwoPi) = refSin x := by
  have hT : refTwoPi ≠ 0 := by decide!
  have hk : (⌊(x + refTwoPi) / refTwoPi + 1 / 2⌋ : ℤ) = ⌊x / refTwoPi + 1 / 2⌋ + 1 := by
    rw [← Int.floor_add_one]
    congr 1
    field_simp
    ring
  unfold refSin
  simp only [hk]
  have e : x + refTwoPi - ((⌊x / refTwoPi + 1 / 2⌋ + 1 : ℤ) : ℚ) * refTwoPi
      = x - (⌊x / refTwoPi + 1 / 2⌋ : ℤ) * refTwoPi := by
    push_cast; ring
  rw [e]

/-- The reference cosine has period `refTwoPi` exactly. -/
theorem refCos_periodic (x : ℚ) : refCos (x + refTwoPi) = refCos x := by
  unfold refCos
  rw [show x + refTwoPi + refHalfPi = x + refHalfPi + refTwoPi by ring, refSin_periodic]

/-- C25 at a concrete input: the reference functions with `T = refTwoPi`, at radius 3 on
the negative x axis, where `atan` jumps. -/
theorem disk_pattern_periodic_witness :
    (∀ x : ℚ, refBuiltins.sin (x + refTwoPi) = refBuiltins.sin x)
      ∧ (∀ x : ℚ, refBuiltins.cos (x + refTwoPi) = refBuiltins.cos x)
      ∧ diskAlpha refBuiltins (sampleUniforms true true true true) 3 (-3 + refTwoPi)
          = diskAlpha refBuiltins (sampleUniforms true true true true) 3 (-3)
      ∧ getDiskSample { refBuiltins with atan := fun y x => refBuiltins.atan y x + refTwoPi }
            (sampleUniforms true true true true) ⟨-3, 0, 0⟩
          = getDiskSample refBuiltins (sampleUniforms true true true true) ⟨-3, 0, 0⟩ :=
  have h := disk_pattern_periodic refBuiltins (sampleUniforms true true true true) refTwoPi
    refSin_periodic refCos_periodic
  ⟨refSin_periodic, refCos_periodic, (h.1 3 (-3)).2.2.2, h.2.2 ⟨-3, 0, 0⟩⟩

/-! ## Sign of the colours -/

section ColourArithmetic

variable {α : Type} [LinearOrderedField α]

/-- Sums of non-negative colours are non-negative. -/
theorem Vec3.Nonneg.add {a b : Vec3 α} (ha : a.Nonneg) (hb : b.Nonneg) : (a + b).Nonneg :=
  ⟨add_nonneg ha.1 hb.1, add_nonneg ha.2.1 hb.2.1, add_nonneg ha.2.2 hb.2.2⟩

/-- A non-negative colour times a non-negative scalar is non-negative. -/
theorem Vec3.Nonneg.scale {a : Vec3 α} {s : α} (ha : a.Nonneg) (hs : 0 ≤ s) :
    (a.scale s).Nonneg :=
  ⟨mul_nonneg ha.1 hs, mul_nonneg ha.2.1 hs, mul_nonneg ha.2.2 hs⟩

/-- `mix` of non-negative values with a weight in `[0, 1]` is non-negative. -/
theorem mix_nonneg {a b t : α} (ha : 0 ≤ a) (hb : 0 ≤ b) (h0 : 0 ≤ t) (h1 : t ≤ 1) :
    0 ≤ mix a b t :=
  add_nonneg (mul_nonneg ha (by linarith)) (mul_nonneg hb h0)

/-- `mix` of non-negative colours with a weight in `[0, 1]` is non-negative. -/
theorem Vec3.Nonneg.mix {a b : Vec3 α} {t : α} (ha : a.Nonneg) (hb : b.Nonneg)
    (h0 : 0 ≤ t) (h1 : t ≤ 1) : (Vec3.mix a b t).Nonneg :=
  ⟨mix_nonneg ha.1 hb.1 h0 h1, mix_nonneg ha.2.1 hb.2.1 h0 h1, mix_nonneg ha.2.2 hb.2.2 h0 h1⟩

/-- The colour `vec3(0.0)` is non-negative. -/
theorem Vec3.Nonneg.splat_zero : (Vec3.splat (0.0 : α)).Nonneg := by
  have e : (0.0 : α) = 0 := by norm_num
  exact ⟨le_of_eq e.symm, le_of_eq e.symm, le_of_eq e.symm⟩

/-- The tone map `c / (1 + c)` keeps a colour non-negative. -/
theorem Vec3.Nonneg.tonemap {c : Vec3 α} (hc : c.Nonneg) :
    (c / (Vec3.splat 1.0 + c)).Nonneg := by
  have e : (1.0 : α) = 1 := by norm_num
  refine ⟨?_, ?_, ?_⟩
  · show 0 ≤ c.x / (1.0 + c.x)
    rw [e]; exact div_nonneg hc.1 (by linarith [hc.1])
  · show 0 ≤ c.y / (1.0 + c.y)
    rw [e]; exact div_nonneg hc.2.1 (by linarith [hc.2.1])
  · show 0 ≤ c.z / (1.0 + c.z)
    rw [e]; exact div_nonneg hc.2.2 (by linarith [hc.2.2])

/-- `step` is 0 or 1, hence non-negative. -/
theorem step_nonneg (edge x : α) : 0 ≤ step edge x := by
  unfold step; split_ifs <;> norm_num

end ColourArithmetic

section ColourProperties

variable {α : Type} [LinearOrderedField α] [FloorRing α]

/-- `noise` takes values in `[0, 1]`. -/
theorem noise_mem (B : Builtins α) (p : Vec2 α) : 0 ≤ noise B p ∧ noise B p ≤ 1 := by
  have hb := specBilinear_mem (random B p.floor) (random B (p.floor + ⟨1, 0⟩))
    (random B (p.floor + ⟨0, 1⟩)) (random B (p.floor + ⟨1, 1⟩))
    (p.fract.x * p.fract.x * (3 - 2 * p.fract.x))
    (p.fract.y * p.fract.y * (3 - 2 * p.fract.y))
    (random_mem B _) (random_mem B _) (random_mem B _) (random_mem B _)
    (smooth_weight_mem _ (fract_mem p.x).1 (fract_mem p.x).2)
    (smooth_weight_mem _ (fract_mem p.y).1 (fract_mem p.y).2)
  rw [noise_eq_specBilinear]
  exact ⟨hb.1, le_of_lt hb.2⟩

/-- The running sum of `fbm` stays between 0 and the amplitude sum. -/
theorem fbmLoop_mem (B : Builtins α) (k : Nat) :
    ∀ (a f sum : α) (p : Vec2 α), 0 ≤ a → 0 ≤ f → f ≤ sum →
      0 ≤ (fbmLoop B k a f sum p).1 ∧ (fbmLoop B k a f sum p).1 ≤ (fbmLoop B k a f sum p).2 := by
  induction k with
  | zero => intro a f sum p _ hf hs; exact ⟨hf, hs⟩
  | succ n ih =>
    intro a f sum p ha hf hs
    rw [fbmLoop]
    obtain ⟨h0, h1⟩ := noise_mem B p
    apply ih
    · exact mul_nonneg ha (by norm_num)
    · exact add_nonneg hf (mul_nonneg ha h0)
    · have := mul_le_mul_of_nonneg_left h1 ha
      linarith

/-- `fbm` takes values in `[0, 1]`. -/
theorem fbm_mem (B : Builtins α) (p : Vec2 α) : 0 ≤ fbm B p ∧ fbm B p ≤ 1 := by
  have e : (0.0 : α) = 0 := by norm_num
  obtain ⟨h0, h1⟩ := fbmLoop_mem B 4 0.5 0.0 0.0 p (by norm_num) (by norm_num) (le_refl _)
  unfold fbm fbmOctaves
  simp only []
  split_ifs with h
  · have h' : 0 < (fbmLoop B 4 0.5 0.0 0.0 p).2 := lt_of_le_of_lt (le_of_eq e.symm) h
    exact ⟨div_nonneg h0 (le_of_lt h'), (div_le_one h').mpr h1⟩
  · rw [e]; exact ⟨le_refl _, zero_le_one⟩


/-- Where `pow` is non-negative on non-negative bases and `sin` is at least -1, a
star cell adds a non-negative colour. -/
theorem starCell_nonneg (B : Builtins α) (t : α) (baseCell f : Vec2 α) (i j : Int)
    (hpow : ∀ x y, 0 ≤ x → 0 ≤ B.pow x y) (hsin : ∀ x, -1 ≤ B.sin x) :
    (starCell B t baseCell f i j).Nonneg := by
  unfold starCell
  simp only []
  apply Vec3.Nonneg.scale
  · apply Vec3.Nonneg.mix _ _ (random_mem B _).1 (le_of_lt (random_mem B _).2)
    · exact ⟨by norm_num, by norm_num, by norm_num⟩
    · exact ⟨by norm_num, by norm_num, by norm_num⟩
  · apply mul_nonneg
    · apply mul_nonneg
      · exact add_nonneg (hpow _ _ (random_mem B _).1)
          (mul_nonneg (step_nonneg _ _) (by norm_num))
      · exact add_nonneg (mul_nonneg (smoothstep_mem _ _ _).1 (smoothstep_mem _ _ _).1)
          (mul_nonneg (smoothstep_mem _ _ _).1 (by norm_num))
    · have := hsin (t * (5.0 + 11.0 * random B (baseCell + ⟨(i : α), (j : α)⟩ + ⟨9.2, 6.4⟩))
        + random B (baseCell + ⟨(i : α), (j : α)⟩ + ⟨9.2, 6.4⟩) * 6.28318)
      linarith

/-- Where `pow` is non-negative on non-negative bases and `sin` is at least -1,
`starField` returns a non-negative colour. -/
theorem starField_nonneg (B : Builtins α) (rd : Vec3 α) (t : α)
    (hpow : ∀ x y, 0 ≤ x → 0 ≤ B.pow x y) (hsin : ∀ x, -1 ≤ B.sin x) :
    (starField B rd t).Nonneg := by
  unfold starField
  simp only [List.foldl]
  apply Vec3.Nonneg.tonemap
  apply Vec3.Nonneg.add
  · have hc := fun bc f i j => starCell_nonneg B t bc f i j hpow hsin
    exact ((((((((Vec3.Nonneg.splat_zero.add (hc _ _ _ _)).add (hc _ _ _ _)).add
      (hc _ _ _ _)).add (hc _ _ _ _)).add (hc _ _ _ _)).add (hc _ _ _ _)).add
      (hc _ _ _ _)).add (hc _ _ _ _)).add (hc _ _ _ _)
  · apply Vec3.Nonneg.scale
    · apply Vec3.Nonneg.mix _ _ (fbm_mem B _).1 (fbm_mem B _).2
      · exact ⟨by norm_num, by norm_num, by norm_num⟩
      · exact ⟨by norm_num, by norm_num, by norm_num⟩
    · apply mul_nonneg (by norm_num)
      apply mul_nonneg
      · exact le_trans (by norm_num) (clamp_mem _ (0.0 : α) 1.6 (by norm_num)).1
      · exact mul_nonneg (smoothstep_mem _ _ _).1 (smoothstep_mem _ _ _).1

/-- The colour of `getPlanetColor` is non-negative. -/
theorem getPlanetColor_rgb_nonneg (B : Builtins α) (u : Uniforms α) (p : Vec3 α) :
    (getPlanetColor B u p).rgb.Nonneg := by
  have z : (Vec4.splat (0.0 : α)).rgb.Nonneg := Vec3.Nonneg.splat_zero
  have e : (0.0 : α) = 0 := by norm_num
  unfold getPlanetColor
  simp only []
  split_ifs
  · exact z
  · show (planet1_color.scale _).Nonneg
    apply Vec3.Nonneg.scale
    · exact ⟨by norm_num [planet1_color], by norm_num [planet1_color], by norm_num [planet1_color]⟩
    · exact add_nonneg (mul_nonneg (le_trans (le_of_eq e.symm) (le_max_left _ _)) (by norm_num))
        (by norm_num)
  · show ((Vec3.mix planet2_color_base (Vec3.splat 0.9) _).scale _).Nonneg
    apply Vec3.Nonneg.scale
    · obtain ⟨a0, a1⟩ := noise_mem B (Vec2.scale ⟨p.x, p.y⟩ 3.0)
      obtain ⟨b0, b1⟩ := noise_mem B (Vec2.scale ⟨p.y, p.z⟩ 6.0)
      apply Vec3.Nonneg.mix
      · exact ⟨by norm_num [planet2_color_base], by norm_num [planet2_color_base],
          by norm_num [planet2_color_base]⟩
      · exact ⟨by norm_num [Vec3.splat], by norm_num [Vec3.splat], by norm_num [Vec3.splat]⟩
      · linarith
      · linarith
    · exact add_nonneg (mul_nonneg (le_trans (le_of_eq e.symm) (le_max_left _ _)) (by norm_num))
        (by norm_num)
  · exact z

/-- Where `pow` is non-negative on non-negative bases and `cos` is at least -1, the
emissive colour of `getDiskSample` is non-negative. -/
theorem getDiskSample_rgb_nonneg (B : Builtins α) (u : Uniforms α) (p : Vec3 α)
    (hpow : ∀ x y, 0 ≤ x → 0 ≤ B.pow x y) (hcos : ∀ x, -1 ≤ B.cos x) :
    (getDiskSample B u p).rgb.Nonneg := by
  have e0 : (0.0 : α) = 0 := by norm_num
  have e1 : (1.0 : α) = 1 := by norm_num
  unfold getDiskSample
  simp only []
  obtain ⟨r0, r1⟩ := smoothstep_mem u.u_diskInnerRadius u.u_diskOuterRadius
    (Vec2.length B ⟨p.x, p.z⟩)
  generalize smoothstep u.u_diskInnerRadius u.u_diskOuterRadius (Vec2.length B ⟨p.x, p.z⟩)
    = radial at r0 r1
  show (((Vec3.scale _ _).scale _).scale _).Nonneg
  apply Vec3.Nonneg.scale _ (by rw [e1]; linarith)
  apply Vec3.Nonneg.scale _ (by rw [e1]; linarith)
  apply Vec3.Nonneg.scale
  · have hc : (Vec3.mix (Vec3.mix (⟨0.98, 0.98, 1.0⟩ : Vec3 α) ⟨1.0, 0.85, 0.55⟩
        (smoothstep 0.0 0.6 radial)) ⟨1.0, 0.55, 0.22⟩ (smoothstep 0.4 1.0 radial)).Nonneg := by
      apply Vec3.Nonneg.mix _ _ (smoothstep_mem _ _ _).1 (smoothstep_mem _ _ _).2
      · apply Vec3.Nonneg.mix _ _ (smoothstep_mem _ _ _).1 (smoothstep_mem _ _ _).2
        · exact ⟨by norm_num, by norm_num, by norm_num⟩
        · exact ⟨by norm_num, by norm_num, by norm_num⟩
      · exact ⟨by norm_num, by norm_num, by norm_num⟩
    obtain ⟨d0, d1⟩ := clamp_mem
      ((Vec3.normalizeGL B ⟨-p.z, 0.0, p.x⟩).dot ((u.u_cameraPosition - p).normalizeGL B)
        * (0.8 * B.pow (max (Vec2.length B ⟨p.x, p.z⟩) 0.25) (-0.5))) (-1.0 : α) 1.0
      (by norm_num)
    refine ⟨mul_nonneg hc.1 ?_, hc.2.1, mul_nonneg hc.2.2 ?_⟩
    · have : max (clamp ((Vec3.normalizeGL B ⟨-p.z, 0.0, p.x⟩).dot
          ((u.u_cameraPosition - p).normalizeGL B)
          * (0.8 * B.pow (max (Vec2.length B ⟨p.x, p.z⟩) 0.25) (-0.5))) (-1.0 : α) 1.0) 0.0 ≤ 1 :=
        max_le (by rw [← e1]; exact d1) (by norm_num)
      rw [e1]; linarith
    · have : (0 : α) ≤ max (-clamp ((Vec3.normalizeGL B ⟨-p.z, 0.0, p.x⟩).dot
          ((u.u_cameraPosition - p).normalizeGL B)
          * (0.8 * B.pow (max (Vec2.length B ⟨p.x, p.z⟩) 0.25) (-0.5))) (-1.0 : α) 1.0) 0.0 :=
        le_trans (le_of_eq e0.symm) (le_max_right _ _)
      rw [e1]; linarith
  · apply mul_nonneg
    · apply mul_nonneg
      · apply mul_nonneg
        · exact hpow _ _ (le_trans (le_of_eq e0.symm) (clamp_mem _ (0.0 : α) 1.0 (by norm_num)).1)
        · exact mix_nonneg (by norm_num) (by norm_num) r0 r1
      · have ham : 0 ≤ B.pow (0.5 + 0.5 * B.cos (3.0 * (B.atan p.z p.x
            - u.u_time * (1.6 * B.pow (max (Vec2.length B ⟨p.x, p.z⟩) 0.25) (-1.5))
            + B.log (max (Vec2.length B ⟨p.x, p.z⟩) 0.0005) * 4.0))) 2.0 := by
          apply hpow
          have := hcos (3.0 * (B.atan p.z p.x
            - u.u_time * (1.6 * B.pow (max (Vec2.length B ⟨p.x, p.z⟩) 0.25) (-1.5))
            + B.log (max (Vec2.length B ⟨p.x, p.z⟩) 0.0005) * 4.0))
          linarith
        unfold mix
        linarith
    · linarith

/-- The escape test keeps colours and transmittance non-negative. -/
theorem marchEscape_nonneg (B : Builtins α) (u : Uniforms α) (s : MarchState α)
    (hstar : ∀ d t, (starField B d t).Nonneg) (hs : s.Nonneg) :
    (marchEscape B u s).Nonneg := by
  unfold marchEscape
  split_ifs
  · exact hs.1.add ((hstar _ _).scale hs.2)
  · exact hs.1
  · exact hs

/-- A pass of the loop keeps colours and transmittance non-negative. -/
theorem marchBody_nonneg (B : Builtins α) (u : Uniforms α) (s : MarchState α)
    (hstar : ∀ d t, (starField B d t).Nonneg)
    (hdisk : ∀ p, (getDiskSample B u p).rgb.Nonneg) (hs : s.Nonneg) :
    (marchBody B u s).Nonneg := by
  unfold marchBody
  simp only [marchDisk_eq, marchDiskSampled]
  split_ifs
  · exact hs.1.add ((getPlanetColor_rgb_nonneg B u s.p).scale hs.2)
  · exact hs.1
  · exact hs.1.add ((hdisk _).scale hs.2)
  · exact marchEscape_nonneg B u _ hstar
      ⟨hs.1.add ((hdisk _).scale hs.2), (mul_one_sub_alpha_mem B u _ _ hs.2).1⟩
  · exact marchEscape_nonneg B u _ hstar hs
  · exact marchEscape_nonneg B u _ hstar hs

/-- The loop returns a non-negative colour from non-negative locals. -/
theorem marchLoop_nonneg (B : Builtins α) (u : Uniforms α)
    (hstar : ∀ d t, (starField B d t).Nonneg)
    (hdisk : ∀ p, (getDiskSample B u p).rgb.Nonneg) (left : Nat) :
    ∀ (i : Int) (s : MarchState α), s.Nonneg → (marchLoop B u left i s).Nonneg := by
  have hex : ∀ s : MarchState α, s.Nonneg → (marchExhausted B u s).Nonneg := by
    intro s hs
    unfold marchExhausted
    split_ifs
    · exact hs.1.add ((hstar _ _).scale hs.2)
    · exact hs.1
  induction left with
  | zero => intro i s hs; exact hex s hs
  | succ n ih =>
    intro i s hs
    rw [marchLoop]
    by_cases hi : i ≥ u.u_maxSteps
    · rw [if_pos hi]; exact hex s hs
    · rw [if_neg hi]
      have hb := marchBody_nonneg B u s hstar hdisk hs
      cases hm : marchBody B u s with
      | ret c => rw [hm] at hb; exact hb
      | next s1 => rw [hm] at hb; exact ih (i + 1) s1 hb

/-- Under the field convention for division (`normalize` of a vector of length 0 is
the zero vector), and where `pow` is non-negative on non-negative bases and `sin`,
`cos` are at least -1, every component of the colour `rayMarch` returns is
non-negative: the planet, disk and starfield colours are non-negative and the
transmittance at every loop head lies in `[0, 1]`; hence so are the bloom luminance and
the colour handed to the gamma power.  The shader agrees with this on every run in
which no `normalize` receives a vector of length 0. -/
theorem rayMarch_colour_nonneg (B : Builtins α) (u : Uniforms α) (rayOrigin rayDir : Vec3 α)
    (hpow : ∀ x y, 0 ≤ x → 0 ≤ B.pow x y) (hsin : ∀ x, -1 ≤ B.sin x)
    (hcos : ∀ x, -1 ≤ B.cos x) :
    (rayMarch B u rayOrigin rayDir).Nonneg
      ∧ 0 ≤ (rayMarch B u rayOrigin rayDir).dot ⟨0.21, 0.72, 0.07⟩
      ∧ (rayMarch B u rayOrigin rayDir
          + ((rayMarch B u rayOrigin rayDir).scale
              ((rayMarch B u rayOrigin rayDir).dot ⟨0.21, 0.72, 0.07⟩)).scale 0.3).Nonneg
      ∧ (∀ p, (getPlanetColor B u p).rgb.Nonneg)
      ∧ (∀ p, (getDiskSample B u p).rgb.Nonneg)
      ∧ (∀ d t, (starField B d t).Nonneg)
      ∧ (∀ x ∈ (rayMarchRun B u rayOrigin rayDir).states,
          0 ≤ x.transmittance ∧ x.transmittance ≤ 1) := by
  have hstar : ∀ d t, (starField B d t).Nonneg := fun d t => starField_nonneg B d t hpow hsin
  have hdisk : ∀ p, (getDiskSample B u p).rgb.Nonneg :=
    fun p => getDiskSample_rgb_nonneg B u p hpow hcos
  have one : (1.0 : α) = 1 := by norm_num
  have hc : (rayMarch B u rayOrigin rayDir).Nonneg :=
    marchLoop_nonneg B u hstar hdisk MAX_STEPS 0 _
      ⟨Vec3.Nonneg.splat_zero, by show (0 : α) ≤ 1.0; norm_num⟩
  have hl : 0 ≤ (rayMarch B u rayOrigin rayDir).dot ⟨0.21, 0.72, 0.07⟩ :=
    add_nonneg (add_nonneg (mul_nonneg hc.1 (by norm_num)) (mul_nonneg hc.2.1 (by norm_num)))
      (mul_nonneg hc.2.2 (by norm_num))
  refine ⟨hc, hl, hc.add (((hc.scale hl)).scale (by norm_num)),
    fun p => getPlanetColor_rgb_nonneg B u p, hdisk, hstar, ?_⟩
  intro x hx
  have h := (marchRun_states B u MAX_STEPS 0
    { accColor := Vec3.splat 0.0, transmittance := 1.0, p := rayOrigin, rayDir := rayDir }
    (by show (0 : α) ≤ 1.0; norm_num)).2.1 x hx
  exact ⟨h.1, le_trans h.2 (le_of_eq one)⟩

end ColourProperties

/-- The non-negativity of the colour at a concrete input: `boundedBuiltins`, all
features on, the central ray. -/
theorem rayMarch_colour_nonneg_witness :
    (∀ x y : ℚ, 0 ≤ x → 0 ≤ boundedBuiltins.pow x y)
      ∧ (∀ x : ℚ, -1 ≤ boundedBuiltins.sin x)
      ∧ (∀ x : ℚ, -1 ≤ boundedBuiltins.cos x)
      ∧ boundedBuiltins.sin 1 = refBuiltins.sin 1
      ∧ boundedBuiltins.pow 2 0.4545 = refBuiltins.pow 2 0.4545
      ∧ (rayMarch boundedBuiltins (sampleUniforms true true true true)
          (sampleUniforms true true true true).u_cameraPosition ⟨1, 0, 0⟩).Nonneg :=
  have hp : ∀ x y : ℚ, 0 ≤ x → 0 ≤ boundedBuiltins.pow x y := fun _ _ _ => le_max_left _ _
  have hs : ∀ x : ℚ, -1 ≤ boundedBuiltins.sin x :=
    fun _ => (clamp_mem _ (-1 : ℚ) 1 (by norm_num)).1
  have hc : ∀ x : ℚ, -1 ≤ boundedBuiltins.cos x :=
    fun _ => (clamp_mem _ (-1 : ℚ) 1 (by norm_num)).1
  ⟨hp, hs, hc, by decide!, by decide!,
    (rayMarch_colour_nonneg boundedBuiltins (sampleUniforms true true true true)
      (sampleUniforms true true true true).u_cameraPosition ⟨1, 0, 0⟩ hp hs hc).1⟩

end BlackHole
